import Mathlib

/-!
Verification of the rpg-structure repository's core transducer
(generator `rpg-structure.code.ts`, importer `rpg-structure.parser.ts`,
model `rpg-structure.model.ts`, validation/renumbering `rpg-structure.utils.ts`)
against its natural-language specification.

Text is modelled as `List Char` (one JS string); documents are split into
lines on `'\n'` exactly as `content.split('\n')` does.  The JS regular
expressions used by the importer are hand-translated into deterministic
matchers; for each of them the greedy/lazy backtracking behaviour of the JS
engine is deterministic on every input reachable here (each quantifier is
followed by a character it can never consume), so the translation below is
exact.  `parseInt` producing `NaN` is modelled as `none`.
-/

set_option maxRecDepth 10000

namespace RpgStructure

/-- One JS string / one line of text. -/
abbrev Str := List Char

/-- Coerce a Lean string literal into the `List Char` model. -/
def str (s : String) : Str := s.data

/-- The set of characters matched by the JS `\s` class (and removed by
`String.prototype.trim`) restricted to the characters that can occur in this
development: ASCII whitespace, NBSP and BOM. -/
def jsIsSpace (c : Char) : Bool :=
  c.toNat = 32 ∨ (9 ≤ c.toNat ∧ c.toNat ≤ 13) ∨ c.toNat = 160 ∨ c.toNat = 65279

/-- JS `String.prototype.trim`. -/
def jsTrim (s : Str) : Str :=
  ((s.dropWhile jsIsSpace).reverse.dropWhile jsIsSpace).reverse

/-- ASCII lower-casing, the fragment of JS `toLowerCase` relevant here. -/
def charLower (c : Char) : Char :=
  if 65 ≤ c.toNat ∧ c.toNat ≤ 90 then Char.ofNat (c.toNat + 32) else c

/-- Lower-case a whole string (JS `toLowerCase`). -/
def lcStr (s : Str) : Str := s.map charLower

/-- Regex class `[a-zA-Z]`. -/
def isAsciiAlpha (c : Char) : Bool :=
  (65 ≤ c.toNat ∧ c.toNat ≤ 90) ∨ (97 ≤ c.toNat ∧ c.toNat ≤ 122)

/-- Regex class `\d` = `[0-9]`. -/
def isDigitChar (c : Char) : Bool := 48 ≤ c.toNat ∧ c.toNat ≤ 57

/-- Regex class `[a-zA-Z_]` (identifier start). -/
def isIdentStart (c : Char) : Bool := isAsciiAlpha c ∨ c = '_'

/-- Regex class `[a-zA-Z0-9_@#]` (identifier continuation). -/
def isIdentChar (c : Char) : Bool :=
  isAsciiAlpha c ∨ isDigitChar c ∨ c = '_' ∨ c = '@' ∨ c = '#'

/-- Consume the literal keyword `kw` (given lower-case) case-insensitively at
the head of `s`, returning the rest.  This is how an `/i` literal alternative
such as `(dcl-ds|Dcl-ds|DCL-DS)` matches. -/
def eatKwCI : Str → Str → Option Str
  | [], s => some s
  | _, [] => none
  | k :: ks, c :: cs => if charLower c = k then eatKwCI ks cs else none

/-- Does `sub` occur as a contiguous substring of `s` (JS `includes`)? -/
def containsSub (s sub : Str) : Bool := decide (List.IsInfix sub s)

/-- Numeric value of a (most-significant-first) digit string. -/
def digitsVal (ds : Str) : Nat :=
  ds.foldl (fun acc c => 10 * acc + (c.toNat - 48)) 0

/-- JS `parseInt(s, 10)`: skip whitespace, optional sign, then a non-empty
digit prefix (trailing garbage ignored); `NaN` is modelled as `none`. -/
def jsParseInt (s : Str) : Option Int :=
  let t := s.dropWhile jsIsSpace
  let (sgn, t2) : Int × Str :=
    match t with
    | '-' :: r => (-1, r)
    | '+' :: r => (1, r)
    | _ => (1, t)
  let ds := t2.takeWhile isDigitChar
  if ds = [] then none else some (sgn * (digitsVal ds : Int))

/-- The character for a single decimal digit. -/
def digitChar (d : Nat) : Char := Char.ofNat (48 + d)

/-- Plain decimal rendering of a natural number.  This is JS
`Number.prototype.toString` only on integral doubles below `1e21`: above
that JS switches to exponent notation (`"1e+21"`), and integers outside the
safe range `< 2^53` are not exactly representable at all.  Every statement
that feeds this rendering back through the parser therefore restricts the
value to the safe-integer range (`dimsSafeB`), on which the model and the
program agree. -/
def natRepr (n : Nat) : Str :=
  if n = 0 then ['0'] else ((Nat.digits 10 n).reverse.map digitChar)

/-- Plain decimal rendering of a JS number holding an integer; see
`natRepr` for the range on which this models `Number.prototype.toString`. -/
def intRepr (i : Int) : Str :=
  if i < 0 then '-' :: natRepr i.natAbs else natRepr i.natAbs

/-- JS `content.split('\n')`. -/
def splitNl : Str → List Str
  | [] => [[]]
  | c :: r =>
    if c = '\n' then [] :: splitNl r
    else
      match splitNl r with
      | h :: t => (c :: h) :: t
      | [] => [[c]]

/-- JS `lines.join('\n')`. -/
def joinNl : List Str → Str
  | [] => []
  | [l] => l
  | l :: ls => l ++ '\n' :: joinNl ls

/-! ## Data model (`rpg-structure.model.ts`) -/

/-- `StructureFormat`: the three keyword-casing conventions. -/
inductive StructureFormat where
  | lower    -- 'dcl-ds'
  | title    -- 'Dcl-ds'
  | upper    -- 'DCL-DS'
deriving DecidableEq, Repr

/-- A field of a structure (`interface Field`).  `dim` holds a JS number
(`none` also stands for `NaN` after a failed `parseInt`). -/
structure Field where
  idNumber : Nat
  name : Str
  type : Str
  length : Option Str
  init : Option Str
  dim : Option Int
  isStructure : Bool
  fields : List Field

/-- A structure header (`interface Header`); `type` is one of the strings
`"Default" | "template" | "*var" | "*auto"` (or `""` before editing). -/
structure Header where
  name : Str
  type : Str
  dimension : Str
deriving DecidableEq, Repr

/-- Keyword table of one format (`interface RpgFormat`); `typeMap` keeps the
source's insertion order, which the reverse lookup iterates over. -/
structure RpgFormat where
  dclds : Str
  endds : Str
  template : Str
  qualified : Str
  varx : Str
  autox : Str
  dimx : Str
  inz : Str
  typeMap : List (Str × Str)

/-- The twelve canonical type tags in `FORMAT_MAP` insertion order. -/
def canonicalTags : List Str :=
  [str "char", str "varchar", str "int", str "packed", str "zoned", str "uns",
   str "date", str "time", str "timestamp", str "bin", str "ind", str "pointer"]

/-- `FORMAT_MAP` (`rpg-structure.model.ts`). -/
def FORMAT_MAP : StructureFormat → RpgFormat
  | .lower =>
    { dclds := str "dcl-ds", endds := str "end-ds", template := str "template",
      qualified := str "qualified", varx := str "*var", autox := str "*auto",
      dimx := str "dim", inz := str "inz",
      typeMap := [(str "char", str "char"), (str "varchar", str "varchar"),
        (str "int", str "int"), (str "packed", str "packed"),
        (str "zoned", str "zoned"), (str "uns", str "uns"),
        (str "date", str "date"), (str "time", str "time"),
        (str "timestamp", str "timestamp"), (str "bin", str "bin"),
        (str "ind", str "ind"), (str "pointer", str "pointer")] }
  | .title =>
    { dclds := str "Dcl-ds", endds := str "End-ds", template := str "Template",
      qualified := str "Qualified", varx := str "*Var", autox := str "*Auto",
      dimx := str "Dim", inz := str "Inz",
      typeMap := [(str "char", str "Char"), (str "varchar", str "Varchar"),
        (str "int", str "Int"), (str "packed", str "Packed"),
        (str "zoned", str "Zoned"), (str "uns", str "Uns"),
        (str "date", str "Date"), (str "time", str "Time"),
        (str "timestamp", str "Timestamp"), (str "bin", str "Bin"),
        (str "ind", str "Ind"), (str "pointer", str "Pointer")] }
  | .upper =>
    { dclds := str "DCL-DS", endds := str "END-DS", template := str "TEMPLATE",
      qualified := str "QUALIFIED", varx := str "*VAR", autox := str "*AUTO",
      dimx := str "DIM", inz := str "INZ",
      typeMap := [(str "char", str "CHAR"), (str "varchar", str "VARCHAR"),
        (str "int", str "INT"), (str "packed", str "PACKED"),
        (str "zoned", str "ZONED"), (str "uns", str "UNS"),
        (str "date", str "DATE"), (str "time", str "TIME"),
        (str "timestamp", str "TIMESTAMP"), (str "bin", str "BIN"),
        (str "ind", str "IND"), (str "pointer", str "POINTER")] }

/-- Generator/parser configuration (`currentConfiguration`): the chosen
format plus the persisted indentation width (absent means default). -/
structure Config where
  structureFormat : StructureFormat
  indentation : Option Nat

/-! ## Generator (`rpg-structure.code.ts`) -/

/-- Header-type strings used by the code (`StructureType` union). -/
def tDefault : Str := str "Default"

def tTemplate : Str := str "template"

def tVar : Str := str "*var"

def tAuto : Str := str "*auto"

/-- `interface RpgCodeParams` (`line`/`level` are JS numbers, so `Int` keeps
the negativity checks of `validateRpgCodeParams` meaningful). -/
structure RpgCodeParams where
  name : Str
  type : Str
  dimension : Option Str
  fields : List Field
  line : Int
  level : Int
  baseIndent : Str

/-- `interface IndentationConfig`. -/
structure IndentationConfig where
  tab : Str
  headIndent : Str
  subIndent : Str

/-- `validateRpgCodeParams`; the `typeof`/`Array.isArray` checks are
guaranteed by the embedding's types and cannot fail here. -/
def validateRpgCodeParams (p : RpgCodeParams) : Except Str Unit :=
  if jsTrim p.name = [] then
    .error (str "Structure name is required and must be a non-empty string")
  else if p.type = [] then
    .error (str "Structure type is required and must be a string")
  else if p.line < 0 then
    .error (str "Line number must be a non-negative number")
  else if p.level < 0 then
    .error (str "Level must be a non-negative number")
  else
    .ok ()

/-- Repeat a string `n` times (JS `String.prototype.repeat`). -/
def strRepeat (s : Str) (n : Nat) : Str := (List.replicate n s).flatten

/-- `calculateIndentation`; note that a configured width of `0` is falsy in
JS, so it falls back to the default width 3. -/
def calculateIndentation (line level : Int) (baseIndent : Str) (cfg : Config) :
    IndentationConfig :=
  let tab : Str :=
    match cfg.indentation with
    | some (n + 1) => List.replicate (n + 1) ' '
    | _ => List.replicate 3 ' '
  if line = 0 ∨ level = 0 then
    { tab := tab, headIndent := baseIndent, subIndent := baseIndent ++ tab }
  else
    { tab := tab,
      headIndent := baseIndent ++ strRepeat tab level.toNat,
      subIndent := baseIndent ++ strRepeat tab (level.toNat + 1) }

/-- `generateDimensionClause`; the `default` branch of the `switch` only
warns and also returns the empty clause. -/
def generateDimensionClause (type : Str) (dimension : Option Str)
    (format : RpgFormat) : Str :=
  match dimension with
  | none => []
  | some d =>
    if jsTrim d = [] ∨ jsTrim type = [] then []
    else
      let dv := jsTrim d
      if type = tDefault then
        ' ' :: format.dimx ++ '(' :: dv ++ [')']
      else if type = tVar then
        ' ' :: format.dimx ++ '(' :: format.varx ++ ':' :: dv ++ [')']
      else if type = tAuto then
        ' ' :: format.dimx ++ '(' :: format.autox ++ ':' :: dv ++ [')']
      else
        []

/-- `generateStructureHeader`; the format lookup is total on the enum, so the
unknown-format throw is unreachable here. -/
def generateStructureHeader (name type : Str) (dimension : Option Str)
    (level line : Int) (headIndent : Str) (cfg : Config) : Str :=
  let format := FORMAT_MAP cfg.structureFormat
  let h1 := headIndent ++ format.dclds ++ ' ' :: jsTrim name
  let h2 := if level = 0 then h1 ++ ' ' :: format.qualified else h1
  let h3 := h2 ++ generateDimensionClause type dimension format
  let h4 :=
    if type = tTemplate ∧ line = 0 ∧ level = 0 then h3 ++ ' ' :: format.template
    else h3
  h4 ++ [';']

/-- `generateFieldLine`. -/
def generateFieldLine (field : Field) (subIndent : Str) (cfg : Config) : Str :=
  let format := FORMAT_MAP cfg.structureFormat
  let typeUsed :=
    match format.typeMap.find? (fun e => e.1 = field.type) with
    | some e => e.2
    | none => field.type
  let l1 := subIndent ++ jsTrim field.name ++ ' ' :: typeUsed
  let l2 :=
    match field.length with
    | some len => if jsTrim len = [] then l1 else l1 ++ '(' :: jsTrim len ++ [')']
    | none => l1
  let l3 :=
    match field.init with
    | some ini =>
      if jsTrim ini = [] then l2
      else l2 ++ ' ' :: format.inz ++ '(' :: jsTrim ini ++ [')']
    | none => l2
  let l4 :=
    match field.dim with
    | some d => l3 ++ ' ' :: format.dimx ++ '(' :: intRepr d ++ [')']
    | none => l3
  l4 ++ [';']

/-- `generateStructureFooter`. -/
def generateStructureFooter (headIndent : Str) (cfg : Config) : Str :=
  headIndent ++ (FORMAT_MAP cfg.structureFormat).endds ++ [';']

/-- Error message composed by `generateRpgCode`'s catch-all handler. -/
def generationFailureMsg (name msg : Str) : Str :=
  str "Failed to generate RPG code for structure '" ++ name ++
    str "': " ++ msg

mutual

/-- `generateRpgCode`: validate, compute indentation, emit header, body and
footer; a validation failure aborts the whole call with a typed error (the
thrown error wrapped by the catch-all). -/
def generateRpgCode (p : RpgCodeParams) (cfg : Config) : Except Str Str :=
  match validateRpgCodeParams p with
  | .error e => .error (generationFailureMsg p.name e)
  | .ok _ =>
    let ind := calculateIndentation p.line p.level p.baseIndent cfg
    let header :=
      generateStructureHeader p.name p.type p.dimension p.level p.line
        ind.headIndent cfg
    let body :=
      generateStructureBody p.fields p.baseIndent p.line p.level
        ind.subIndent 0 cfg
    let footer := generateStructureFooter ind.headIndent cfg
    .ok (joinNl (header :: body ++ [footer]))
termination_by (sizeOf p.fields, 1)
decreasing_by
  exact Prod.Lex.right _ (by omega)

/-- `generateStructureBody` (`fields.map((field, index) => ...)` with the
running index made explicit): a structure field recurses into
`generateRpgCode` and a failure there is caught and replaced by the
comment-marker line; a plain field renders via `generateFieldLine`. -/
def generateStructureBody (fields : List Field) (baseIndent : Str)
    (line level : Int) (subIndent : Str) (idx : Nat) (cfg : Config) :
    List Str :=
  match fields with
  | [] => []
  | f :: rest =>
    let rendered :=
      if f.isStructure then
        match generateRpgCode
            { name := f.name, type := tDefault, dimension := f.length,
              fields := f.fields, line := line + idx + 1, level := level + 1,
              baseIndent := baseIndent } cfg with
        | .ok s => s
        | .error _ => subIndent ++ str "// Error generating field: " ++ f.name
      else
        generateFieldLine f subIndent cfg
    rendered :: generateStructureBody rest baseIndent line level subIndent
      (idx + 1) cfg
termination_by (sizeOf fields, 0)
decreasing_by
  · refine Prod.Lex.left _ _ ?_
    have h1 : sizeOf f.fields < sizeOf f := by cases f; simp
    have h2 : sizeOf f < sizeOf (f :: rest) := by simp; omega
    omega
  · refine Prod.Lex.left _ _ ?_
    simp

end

/-! ## Importer (`rpg-structure.parser.ts`) -/

/-- `interface ParsedStructure`. -/
structure ParsedStructure where
  header : Header
  fields : List Field
  format : StructureFormat
  success : Bool
  errors : List Str

/-- The three capture groups of `STRUCTURE_START_PATTERNS[0]`. -/
structure StartMatch where
  kw : Str
  name : Str
  modifiers : Str

/-- Matcher for `/^\s*(dcl-ds|Dcl-ds|DCL-DS)\s+([a-zA-Z_][a-zA-Z0-9_@#]*)\s*(.*?);/i`:
skip leading whitespace, the keyword case-insensitively (capturing its actual
spelling), at least one whitespace, a greedy identifier, optional whitespace,
then lazily everything before the first `;`. -/
def structureStartMatch (l : Str) : Option StartMatch :=
  let s1 := l.dropWhile jsIsSpace
  match eatKwCI (str "dcl-ds") s1 with
  | none => none
  | some s2 =>
    match s2.takeWhile jsIsSpace, s2.dropWhile jsIsSpace with
    | [], _ => none
    | _ :: _, s3 =>
      match s3 with
      | [] => none
      | c :: _ =>
        if isIdentStart c then
          let name := s3.takeWhile isIdentChar
          let s4 := (s3.dropWhile isIdentChar).dropWhile jsIsSpace
          match s4.dropWhile (· != ';') with
          | ';' :: _ => some ⟨s1.take 6, name, s4.takeWhile (· != ';')⟩
          | _ => none
        else none

/-- Matcher for `STRUCTURE_END_PATTERNS[0]` = `/^\s*(end-ds|End-ds|END-DS)\s*;/i`. -/
def structureEndTest (l : Str) : Bool :=
  match eatKwCI (str "end-ds") (l.dropWhile jsIsSpace) with
  | some s2 =>
    match s2.dropWhile jsIsSpace with
    | ';' :: _ => true
    | _ => false
  | none => false

/-- Matcher for the bare open test `/^\s*(dcl-ds|Dcl-ds|DCL-DS)\s+/i.test`. -/
def startKwTest (l : Str) : Bool :=
  match eatKwCI (str "dcl-ds") (l.dropWhile jsIsSpace) with
  | some (c :: _) => jsIsSpace c
  | _ => false

/-- Matcher for an immediate `\(([^)]+)\)` group: the capture is everything up
to the first `)` (greedy, at least one character). -/
def parenCapture : Str → Option (Str × Str)
  | '(' :: s =>
    let cap := s.takeWhile (· != ')')
    if cap = [] then none
    else
      match s.dropWhile (· != ')') with
      | ')' :: r => some (cap, r)
      | _ => none
  | _ => none

/-- The value-carrying capture groups of `FIELD_PATTERN`. -/
structure FieldMatch where
  name : Str
  ty : Str
  len : Option Str
  init : Option Str
  dimStr : Option Str

/-- Matcher for `FIELD_PATTERN` =
`/^\s*([a-zA-Z_][a-zA-Z0-9_@#]*)\s+([a-zA-Z]+)(?:\(([^)]+)\))?\s*(?:(inz|Inz|INZ)\(([^)]+)\))?\s*(?:(dim|Dim|DIM)\(([^)]+)\))?\s*;/i`.
Each optional group is taken exactly when its literal keyword and its
parenthesised body match in full; otherwise it is skipped (skipping can never
be rescued by backtracking because the next mandatory character differs). -/
def fieldMatch (l : Str) : Option FieldMatch :=
  let s1 := l.dropWhile jsIsSpace
  match s1 with
  | [] => none
  | c :: _ =>
    if isIdentStart c then
      let name := s1.takeWhile isIdentChar
      let s2 := s1.dropWhile isIdentChar
      match s2.takeWhile jsIsSpace, s2.dropWhile jsIsSpace with
      | [], _ => none
      | _ :: _, s3 =>
        let ty := s3.takeWhile isAsciiAlpha
        if ty = [] then none
        else
          let s4 := s3.dropWhile isAsciiAlpha
          let lenState :=
            match parenCapture s4 with
            | some (cap, r) => (some cap, r)
            | none => ((none : Option Str), s4)
          let s6 := lenState.2.dropWhile jsIsSpace
          let inzState :=
            match eatKwCI (str "inz") s6 with
            | some r =>
              match parenCapture r with
              | some (cap, r2) => (some cap, r2)
              | none => ((none : Option Str), s6)
            | none => ((none : Option Str), s6)
          let s8 := inzState.2.dropWhile jsIsSpace
          let dimState :=
            match eatKwCI (str "dim") s8 with
            | some r =>
              match parenCapture r with
              | some (cap, r2) => (some cap, r2)
              | none => ((none : Option Str), s8)
            | none => ((none : Option Str), s8)
          match dimState.2.dropWhile jsIsSpace with
          | ';' :: _ => some ⟨name, ty, lenState.1, inzState.1, dimState.1⟩
          | _ => none
    else none

/-- The stage of `FIELD_PATTERN` matching after the identifier and the
mandatory whitespace: type capture and the three optional groups. -/
def fieldMatchTail (name s3 : Str) : Option FieldMatch :=
  let ty := s3.takeWhile isAsciiAlpha
  if ty = [] then none
  else
    let s4 := s3.dropWhile isAsciiAlpha
    let lenState :=
      match parenCapture s4 with
      | some (cap, r) => (some cap, r)
      | none => ((none : Option Str), s4)
    let s6 := lenState.2.dropWhile jsIsSpace
    let inzState :=
      match eatKwCI (str "inz") s6 with
      | some r =>
        match parenCapture r with
        | some (cap, r2) => (some cap, r2)
        | none => ((none : Option Str), s6)
      | none => ((none : Option Str), s6)
    let s8 := inzState.2.dropWhile jsIsSpace
    let dimState :=
      match eatKwCI (str "dim") s8 with
      | some r =>
        match parenCapture r with
        | some (cap, r2) => (some cap, r2)
        | none => ((none : Option Str), s8)
      | none => ((none : Option Str), s8)
    match dimState.2.dropWhile jsIsSpace with
    | ';' :: _ => some ⟨name, ty, lenState.1, inzState.1, dimState.1⟩
    | _ => none

/-- The value-carrying capture groups of `SUBSTRUCTURE_START_PATTERN`. -/
structure SubMatch where
  name : Str
  len : Option Str

/-- Matcher for `SUBSTRUCTURE_START_PATTERN` =
`/^\s*([a-zA-Z_][a-zA-Z0-9_@#]*)\s+(likeds|LikeDs|LIKEDS|template|Template|TEMPLATE)\s*(?:\(([^)]+)\))?\s*;/i`
(the two keyword spellings start with different letters, so trying `likeds`
first and committing is exactly the JS alternation order). -/
def substructureMatch (l : Str) : Option SubMatch :=
  let s1 := l.dropWhile jsIsSpace
  match s1 with
  | [] => none
  | c :: _ =>
    if isIdentStart c then
      let name := s1.takeWhile isIdentChar
      let s2 := s1.dropWhile isIdentChar
      match s2.takeWhile jsIsSpace, s2.dropWhile jsIsSpace with
      | [], _ => none
      | _ :: _, s3 =>
        let kwRest :=
          match eatKwCI (str "likeds") s3 with
          | some r => some r
          | none => eatKwCI (str "template") s3
        match kwRest with
        | none => none
        | some r =>
          let s4 := r.dropWhile jsIsSpace
          let lenState :=
            match parenCapture s4 with
            | some (cap, r2) => (some cap, r2)
            | none => ((none : Option Str), s4)
          match lenState.2.dropWhile jsIsSpace with
          | ';' :: _ => some ⟨name, lenState.1⟩
          | _ => none
    else none

/-- Match of `/dim\s*\(\s*([^)]+)\s*\)/i` anchored at the start of `s`.  When
the parenthesis body is entirely whitespace the JS engine backtracks the
inner `\s*` one step and captures the final whitespace character. -/
def dimMatchAt (s : Str) : Option Str :=
  match eatKwCI (str "dim") s with
  | none => none
  | some r =>
    match r.dropWhile jsIsSpace with
    | '(' :: r2 =>
      let upto := r2.takeWhile (· != ')')
      match r2.dropWhile (· != ')') with
      | ')' :: _ =>
        if upto = [] then none
        else
          match upto.dropWhile jsIsSpace with
          | [] => some [upto.getLastD ' ']
          | cap => some cap
      | _ => none
    | _ => none

/-- Leftmost match of the unanchored `/dim\s*\(\s*([^)]+)\s*\)/i`. -/
def dimClauseCapture : Str → Option Str
  | [] => none
  | s@(_ :: rest) =>
    match dimMatchAt s with
    | some c => some c
    | none => dimClauseCapture rest

/-- `parseHeader`. -/
def parseHeader (m : StartMatch) : Header :=
  let name := jsTrim m.name
  let modifiers := m.modifiers
  let type0 :=
    if containsSub modifiers (str "template") ∨
        containsSub modifiers (str "Template") ∨
        containsSub modifiers (str "TEMPLATE") then tTemplate
    else tDefault
  match dimClauseCapture modifiers with
  | none => ⟨name, type0, str "0"⟩
  | some capRaw =>
    let dimValue := jsTrim capRaw
    if (str "*var:").isPrefixOf dimValue ∨ (str "*Var:").isPrefixOf dimValue ∨
        (str "*VAR:").isPrefixOf dimValue then
      ⟨name, tVar, dimValue.drop 5⟩
    else if (str "*auto:").isPrefixOf dimValue ∨
        (str "*Auto:").isPrefixOf dimValue ∨
        (str "*AUTO:").isPrefixOf dimValue then
      ⟨name, tAuto, dimValue.drop 6⟩
    else
      ⟨name, type0, dimValue⟩

/-- `detectFormat`: exact comparison against the three spellings, with the
lowercase format as the documented fallback. -/
def detectFormat (keyword : Str) : StructureFormat :=
  if keyword = str "dcl-ds" then .lower
  else if keyword = str "Dcl-ds" then .title
  else if keyword = str "DCL-DS" then .upper
  else .lower

/-- `getIndentLevel`: length of the leading-whitespace match `^(\s*)`. -/
def getIndentLevel (l : Str) : Nat := (l.takeWhile jsIsSpace).length

/-- `parseFieldFromMatch`. -/
def parseFieldFromMatch (m : FieldMatch) (id : Nat) (format : StructureFormat) :
    Field :=
  let name := jsTrim m.name
  let type := jsTrim m.ty
  let length := m.len.map jsTrim
  let ini := m.init.map jsTrim
  let dim : Option Int :=
    match m.dimStr.map jsTrim with
    | some d => if d = [] then none else jsParseInt d
    | none => none
  let genericType :=
    match (FORMAT_MAP format).typeMap.find? (fun e => lcStr e.2 = lcStr type) with
    | some e => e.1
    | none => type
  { idNumber := id, name := name, type := genericType, length := length,
    init := ini, dim := dim, isStructure := false, fields := [] }

/-- The scan inside `parseNestedStructure` that looks for the matching
`end-ds`, counting bare `dcl-ds` opens; returns the index of the matching
close relative to the first line after the opening line. -/
def findNestedEndRel : List Str → Nat → Option Nat
  | [], _ => none
  | l :: rest, lvl =>
    let t := jsTrim l
    if t = [] ∨ (str "//").isPrefixOf t then (findNestedEndRel rest lvl).map (· + 1)
    else if startKwTest l then (findNestedEndRel rest (lvl + 1)).map (· + 1)
    else if structureEndTest t then
      if lvl = 0 then some 0 else (findNestedEndRel rest (lvl - 1)).map (· + 1)
    else (findNestedEndRel rest lvl).map (· + 1)

/-- The indentation scan inside `parseSubstructure`; returns the index,
relative to the first line after the substructure line, of the first
field/structure/close line at indentation `≤ baseInd` (`none` when the scan
runs off the end, in which case the caller keeps `endIndex = startIndex+1`). -/
def findSubEndRel : List Str → Nat → Option Nat
  | [], _ => none
  | l :: rest, baseInd =>
    let t := jsTrim l
    if t = [] ∨ (str "//").isPrefixOf t then (findSubEndRel rest baseInd).map (· + 1)
    else if getIndentLevel l ≤ baseInd ∧
        ((fieldMatch t).isSome ∨ ((substructureMatch t).isSome ∨ startKwTest t) ∨
          structureEndTest t) then
      some 0
    else (findSubEndRel rest baseInd).map (· + 1)

mutual

/-- `parseFields`: the `while` loop walks the line array with a local
`idCounter` starting at 0 (every invocation, including the recursive ones for
nested bodies, creates a fresh counter). -/
def parseFields (lines : List Str) (format : StructureFormat) : List Field :=
  parseFieldsGo lines format 0
termination_by (lines.length, 1)
decreasing_by
  exact Prod.Lex.right _ (by omega)

/-- Body of `parseFields`' `while` loop, consuming the remaining lines.  The
index arithmetic of the source (`i`, `nextLine = endIndex + 1` for nested
structures, `nextLine = endIndex` for substructures) becomes `drop`s on the
remaining-line list; `parseNestedStructure` and `parseSubstructure` are
inlined at their single call sites, with their scans factored out as
`findNestedEndRel` / `findSubEndRel`. -/
def parseFieldsGo (lines : List Str) (format : StructureFormat)
    (idCounter : Nat) : List Field :=
  match lines with
  | [] => []
  | rawLine :: rest =>
    let line := jsTrim rawLine
    if line = [] ∨ (str "//").isPrefixOf line then
      parseFieldsGo rest format idCounter
    else
      match structureStartMatch line with
      | some _ =>
        -- parseNestedStructure(lines, i, idCounter++, format)
        match structureStartMatch rawLine with
        | some m =>
          match findNestedEndRel rest 0 with
          | some e =>
            let nestedFields := parseFields (rest.take e) format
            let fld : Field :=
              { idNumber := idCounter, name := jsTrim m.name, type := [],
                length := (dimClauseCapture m.modifiers).map jsTrim,
                init := none, dim := none, isStructure := true,
                fields := nestedFields }
            fld :: parseFieldsGo (rest.drop (e + 1)) format (idCounter + 1)
          | none => parseFieldsGo rest format (idCounter + 1)
        | none => parseFieldsGo rest format (idCounter + 1)
      | none =>
        match substructureMatch line with
        | some _ =>
          -- parseSubstructure(lines, i, idCounter++, format)
          match substructureMatch rawLine with
          | some m =>
            let s := (findSubEndRel rest (getIndentLevel rawLine)).getD 0
            let nestedFields := parseFields (rest.take s) format
            let fld : Field :=
              { idNumber := idCounter, name := jsTrim m.name, type := [],
                length := m.len.map jsTrim, init := none, dim := none,
                isStructure := true, fields := nestedFields }
            fld :: parseFieldsGo (rest.drop s) format (idCounter + 1)
          | none => parseFieldsGo rest format (idCounter + 1)
        | none =>
          match fieldMatch line with
          | some fm =>
            parseFieldFromMatch fm idCounter format ::
              parseFieldsGo rest format (idCounter + 1)
          | none => parseFieldsGo rest format idCounter
termination_by (lines.length, 0)
decreasing_by
  all_goals refine Prod.Lex.left _ _ ?_
  all_goals simp only [List.length_cons, List.length_take, List.length_drop]
  all_goals omega

end

/-- An entry of the boundary-scan stack (`structureStack`). -/
structure StackEntry where
  startLine : Nat
  headerMatch : StartMatch
  level : Nat

/-- A completed span recorded by the boundary scan (`structures`). -/
structure Span where
  startLine : Nat
  endLine : Nat
  headerMatch : StartMatch
  level : Nat

/-- The line scan shared verbatim by `findStructureBoundaries` and
`findAllStructureBoundaries`: an open line pushes an entry whose level is the
stack size before the push; a close line pops (if possible) and records the
completed span.  Spans are therefore accumulated in pop order. -/
def scanBoundariesGo : List Str → Nat → List StackEntry → List Span → List Span
  | [], _, _, acc => acc
  | l :: rest, i, stack, acc =>
    let stack1 :=
      match structureStartMatch l with
      | some m => (⟨i, m, stack.length⟩ : StackEntry) :: stack
      | none => stack
    if structureEndTest l then
      match stack1 with
      | e :: st =>
        scanBoundariesGo rest (i + 1) st
          (acc ++ [⟨e.startLine, i, e.headerMatch, e.level⟩])
      | [] => scanBoundariesGo rest (i + 1) stack1 acc
    else
      scanBoundariesGo rest (i + 1) stack1 acc

/-- `findAllStructureBoundaries`. -/
def findAllStructureBoundaries (lines : List Str) : List Span :=
  scanBoundariesGo lines 0 [] []

/-- One step of the best-match selection loop of `findStructureBoundaries`:
on the span's start or end line a smaller level replaces the current best,
strictly inside a larger level replaces it. -/
def selStep (cursorLine : Nat) (best : Option Span) (s : Span) : Option Span :=
  if s.startLine ≤ cursorLine ∧ cursorLine ≤ s.endLine then
    if cursorLine = s.startLine then
      match best with
      | none => some s
      | some b => if s.level < b.level then some s else some b
    else if cursorLine = s.endLine then
      match best with
      | none => some s
      | some b => if s.level < b.level then some s else some b
    else
      match best with
      | none => some s
      | some b => if b.level < s.level then some s else some b
  else best

/-- The best-match selection loop of `findStructureBoundaries`. -/
def selectBest (spans : List Span) (cursorLine : Nat) : Option Span :=
  spans.foldl (selStep cursorLine) none

/-- `findStructureBoundaries`: scan, then pick the best containing span. -/
def findStructureBoundaries (lines : List Str) (cursorLine : Nat) :
    Option (Nat × Nat × StartMatch) :=
  match selectBest (findAllStructureBoundaries lines) cursorLine with
  | some b => some (b.startLine, b.endLine, b.headerMatch)
  | none => none

/-- The initial/failed `ParsedStructure` value built by
`parseStructureAtCursor`. -/
def defaultParsedStructure : ParsedStructure :=
  { header := ⟨[], [], str "0"⟩, fields := [], format := .lower,
    success := false, errors := [] }

/-- `parseStructureAtCursor` (the embedded computations are total, so the
surrounding `try`/`catch` can never fire). -/
def parseStructureAtCursor (content : Str) (cursorLine : Nat) :
    ParsedStructure :=
  let lines := splitNl content
  match findStructureBoundaries lines cursorLine with
  | none =>
    { defaultParsedStructure with
        errors := [str "No RPG structure found at cursor position"] }
  | some (startLine, endLine, m) =>
    let format := detectFormat m.kw
    let structureLines := (lines.drop (startLine + 1)).take (endLine - (startLine + 1))
    { header := parseHeader m, fields := parseFields structureLines format,
      format := format, success := true, errors := [] }

/-- `extractAllStructures`: re-run the boundary scan, keep only the level-0
spans, and parse each independently. -/
def extractAllStructures (content : Str) : List ParsedStructure :=
  let lines := splitNl content
  let allBoundaries := findAllStructureBoundaries lines
  ((allBoundaries.filter (fun b => b.level = 0)).map (fun b =>
    let format := detectFormat b.headerMatch.kw
    let structureLines :=
      (lines.drop (b.startLine + 1)).take (b.endLine - (b.startLine + 1))
    ({ header := parseHeader b.headerMatch,
       fields := parseFields structureLines format,
       format := format, success := true, errors := [] } : ParsedStructure)))

/-- `isValidStructureFormat`: on the embedded enum every format key is one of
the three `FORMAT_MAP` entries. -/
def isValidStructureFormatB (_format : StructureFormat) : Bool := true

/-- `validateFields` (`RpgStructureParser.validateFields`). -/
def validateFields : List Field → Bool
  | [] => true
  | f :: rest =>
    if f.name = [] then false
    else if ¬ f.isStructure ∧ f.type = [] then false
    else if f.isStructure ∧ ¬ validateFields f.fields then false
    else validateFields rest
termination_by l => sizeOf l
decreasing_by
  all_goals have h1 : sizeOf f.fields < sizeOf f := by cases f; simp
  all_goals have h2 : sizeOf f < sizeOf (f :: rest) := by simp; omega
  all_goals have h3 : sizeOf rest < sizeOf (f :: rest) := by simp
  all_goals omega

/-- `validateParsedStructure`. -/
def validateParsedStructure (parsed : ParsedStructure) : Bool :=
  if ¬ parsed.success then false
  else if parsed.header.name = [] ∨ parsed.header.type = [] then false
  else if ¬ isValidStructureFormatB parsed.format then false
  else validateFields parsed.fields

/-! ## Validation and renumbering (`rpg-structure.utils.ts`) -/

/-- `interface ValidationResult`. -/
structure ValidationResult where
  isValid : Bool
  errorMessage : Option Str
deriving DecidableEq, Repr

/-- `INTEGER_REGEX.test` = `/^\d+$/.test`. -/
def integerRegexTest (s : Str) : Bool := s ≠ [] ∧ s.all isDigitChar

/-- `DECIMAL_REGEX.test` = `/^\d+:\d+$/.test`. -/
def decimalRegexTest (s : Str) : Bool :=
  let w := s.takeWhile isDigitChar
  match s.dropWhile isDigitChar with
  | ':' :: rest => w ≠ [] ∧ rest ≠ [] ∧ rest.all isDigitChar
  | _ => false

/-- Index of the most significant bit of `n` (the largest `k` with
`2 ^ k ≤ n`, and `0` for `n = 0`), computed by a bounded search so that it
evaluates inside the kernel; only used below `2 ^ 1024`, where the search
range suffices. -/
def msbIdx (n : Nat) : Nat :=
  (List.range 1024).foldl (fun a k => if 2 ^ k ≤ n then k else a) 0

/-- JS `Number(s)` for a digit string holding the natural number `n`:
round-to-nearest-even conversion of `n` to an IEEE-754 double.  `some m`
is a finite double whose exact value is the integer `m`; `none` is
`+Infinity` (reached from `2 ^ 1024 - 2 ^ 970` upward). -/
def jsNumOfNat (n : Nat) : Option Nat :=
  if 2 ^ 1024 ≤ n then none
  else
    let k := msbIdx n
    if k ≤ 52 then some n
    else
      let ulp := 2 ^ (k - 52)
      let q := n / ulp
      let r := n % ulp
      let q2 :=
        if 2 * r < ulp then q
        else if ulp < 2 * r then q + 1
        else if q % 2 = 0 then q else q + 1
      let v := q2 * ulp
      if v < 2 ^ 1024 then some v else none

/-- The JS `<` comparison on the values produced by `Number(...)` for digit
strings (`none` = `+Infinity`; digit strings never produce `NaN`, so on
these values `>=` is exactly the negation of `<`). -/
def jsNumLt (a b : Option Nat) : Bool :=
  match a, b with
  | some x, some y => decide (x < y)
  | some _, none => true
  | none, _ => false

/-- `validateFieldLength` (the field type is the `FieldType` string union).
The `whole:decimal` branch converts both halves with `Number` (`split(':')
.map(Number)`) and compares the resulting doubles; the source rejects on
`decimal >= whole`, which on these NaN-free values is the negation of
`decimal < whole`. -/
def validateFieldLength (type length : Str) : ValidationResult :=
  if jsTrim length = [] then
    ⟨false, some (str "Length is required for this field type.")⟩
  else
    let trimmedLength := jsTrim length
    if integerRegexTest trimmedLength then ⟨true, none⟩
    else if (type = str "packed" ∨ type = str "zoned") ∧
        decimalRegexTest trimmedLength then
      let whole := jsNumOfNat (digitsVal (trimmedLength.takeWhile isDigitChar))
      let dec := jsNumOfNat
        (digitsVal ((trimmedLength.dropWhile isDigitChar).drop 1))
      if jsNumLt dec whole then ⟨true, none⟩
      else
        ⟨false, some (str "Decimal part must be smaller than total length.")⟩
    else
      ⟨false, some (str "Invalid format. Use integer or N:N format for packed/zoned.")⟩

/-- The recursive worker of `reassignIdNumbers` (`assignIds`), with the
mutated counter made explicit: each field receives the current counter value
in preorder; children are renumbered before later siblings, and only when
the field is a structure with a non-empty field list. -/
def assignIds : List Field → Nat → List Field × Nat
  | [], c => ([], c)
  | f :: rest, c =>
    let childrenStep :=
      if f.isStructure ∧ 0 < f.fields.length then assignIds f.fields (c + 1)
      else (f.fields, c + 1)
    let restStep := assignIds rest childrenStep.2
    ({ f with idNumber := c, fields := childrenStep.1 } :: restStep.1,
      restStep.2)
termination_by l _ => sizeOf l
decreasing_by
  all_goals have h1 : sizeOf f.fields < sizeOf f := by cases f; simp
  all_goals have h2 : sizeOf f < sizeOf (f :: rest) := by simp; omega
  all_goals have h3 : sizeOf rest < sizeOf (f :: rest) := by simp
  all_goals omega

/-- `reassignIdNumbers`. -/
def reassignIdNumbers (fieldList : List Field) : List Field :=
  (assignIds fieldList 0).1

/-! ## Derived notions used by the claims -/

/-- All ids of a forest in preorder (node, then children, then later
siblings) — the traversal order of §3's renumbering pass. -/
def preorderIds : List Field → List Nat
  | [] => []
  | f :: rest => f.idNumber :: (preorderIds f.fields ++ preorderIds rest)
termination_by l => sizeOf l
decreasing_by
  all_goals have h1 : sizeOf f.fields < sizeOf f := by cases f; simp
  all_goals have h2 : sizeOf f < sizeOf (f :: rest) := by simp; omega
  all_goals have h3 : sizeOf rest < sizeOf (f :: rest) := by simp
  all_goals omega

/-- Number of nodes of a forest. -/
def countFields : List Field → Nat
  | [] => 0
  | f :: rest => 1 + countFields f.fields + countFields rest
termination_by l => sizeOf l
decreasing_by
  all_goals have h1 : sizeOf f.fields < sizeOf f := by cases f; simp
  all_goals have h2 : sizeOf f < sizeOf (f :: rest) := by simp; omega
  all_goals have h3 : sizeOf rest < sizeOf (f :: rest) := by simp
  all_goals omega

/-- Erase every id of a forest (set it to 0), for id-insensitive comparison. -/
def eraseIds : List Field → List Field
  | [] => []
  | f :: rest => { f with idNumber := 0, fields := eraseIds f.fields } :: eraseIds rest
termination_by l => sizeOf l
decreasing_by
  all_goals have h1 : sizeOf f.fields < sizeOf f := by cases f; simp
  all_goals have h2 : sizeOf f < sizeOf (f :: rest) := by simp; omega
  all_goals have h3 : sizeOf rest < sizeOf (f :: rest) := by simp
  all_goals omega

/-- Is a list of naturals strictly increasing? -/
def chainLt : List Nat → Bool
  | [] => true
  | [_] => true
  | a :: b :: r => a < b ∧ chainLt (b :: r)

/-- At every node of the forest, the ids of the direct children are strictly
increasing. -/
def fieldsSibOk : List Field → Bool
  | [] => true
  | f :: rest =>
    chainLt (f.fields.map Field.idNumber) ∧ fieldsSibOk f.fields ∧ fieldsSibOk rest
termination_by l => sizeOf l
decreasing_by
  all_goals have h1 : sizeOf f.fields < sizeOf f := by cases f; simp
  all_goals have h2 : sizeOf f < sizeOf (f :: rest) := by simp; omega
  all_goals have h3 : sizeOf rest < sizeOf (f :: rest) := by simp
  all_goals omega

/-- Two id lists of equal length are in the same relative order when every
index pair compares identically. -/
def sameRelOrder (l1 l2 : List Nat) : Bool :=
  l1.length = l2.length ∧
  (List.range l1.length).all (fun i =>
    (List.range l1.length).all (fun j =>
      i ≥ j ∨ ((l1.getD i 0 < l1.getD j 0) = (l2.getD i 0 < l2.getD j 0)) ∧
        ((l1.getD j 0 < l1.getD i 0) = (l2.getD j 0 < l2.getD i 0))))

/-! ## §3 well-formedness (the invariants quantified over by the round-trip
claim), as decidable predicates -/

/-- §3 identifier grammar (also the grammar of the parser's name captures). -/
def identOkB (s : Str) : Bool :=
  match s with
  | [] => false
  | c :: rest => isIdentStart c ∧ rest.all isIdentChar

/-- A non-empty all-digit string (numeric literal). -/
def digitsOkB (s : Str) : Bool := s ≠ [] ∧ s.all isDigitChar

/-- §3 `whole:decimal` pair with the decimal part strictly smaller. -/
def decPairOkB (s : Str) : Bool :=
  decimalRegexTest s ∧
    digitsVal ((s.dropWhile isDigitChar).drop 1) < digitsVal (s.takeWhile isDigitChar)

/-- The apostrophe character delimiting character literals. -/
def quoteChar : Char := Char.ofNat 39

/-- §3 quoted character literal; the body excludes the quote itself, `)`
(which the surrounding `inz(...)` capture cannot represent) and newlines. -/
def charLiteralOkB (s : Str) : Bool :=
  match s with
  | q :: rest =>
    q = quoteChar ∧ rest ≠ [] ∧ rest.getLast? = some quoteChar ∧
      rest.dropLast.all (fun c => ¬ c = quoteChar ∧ ¬ c = ')' ∧ ¬ c = '\n')
  | [] => false

/-- §3 numeric literal, optionally fractional. -/
def decimalLitOkB (s : Str) : Bool :=
  let w := s.takeWhile isDigitChar
  (!w.isEmpty) &&
    (match s.dropWhile isDigitChar with
     | [] => true
     | '.' :: rest => (!rest.isEmpty) && rest.all isDigitChar
     | _ => false)

/-- §3 initializer grammar per canonical type tag (types that admit no
initializer yield `false`, so a well-formed field leaves `init` absent). -/
def initOkB (tag ini : Str) : Bool :=
  if tag = str "char" ∨ tag = str "varchar" then charLiteralOkB ini
  else if tag = str "ind" then
    ini = str "1" ∨ ini = str "0" ∨ ini = str "*on" ∨ ini = str "*off"
  else if tag = str "packed" ∨ tag = str "zoned" then decimalLitOkB ini
  else if tag = str "int" ∨ tag = str "uns" ∨ tag = str "bin" then digitsOkB ini
  else false

/-- §3 length grammar per canonical type tag. -/
def lengthOkB (tag len : Str) : Bool :=
  if tag = str "packed" ∨ tag = str "zoned" then digitsOkB len ∨ decPairOkB len
  else digitsOkB len

/-- §3 invariants of a field forest. -/
def wfFieldsB : List Field → Bool
  | [] => true
  | f :: rest =>
    (if f.isStructure then
      f.type.isEmpty && identOkB f.name &&
        (match f.length with | none => true | some l => digitsOkB l) &&
        decide (f.init = none) && decide (f.dim = none) && wfFieldsB f.fields
     else
      identOkB f.name && decide (f.type ∈ canonicalTags) &&
        (match f.length with | none => true | some l => lengthOkB f.type l) &&
        (match f.init with | none => true | some i => initOkB f.type i) &&
        (match f.dim with | none => true | some d => decide (0 < d)) &&
        f.fields.isEmpty) &&
    wfFieldsB rest
termination_by l => sizeOf l
decreasing_by
  all_goals have h1 : sizeOf f.fields < sizeOf f := by cases f; simp
  all_goals have h2 : sizeOf f < sizeOf (f :: rest) := by simp; omega
  all_goals have h3 : sizeOf rest < sizeOf (f :: rest) := by simp
  all_goals omega

/-- All repeat counts of a forest lie inside JS's safe-integer range
(below `2 ^ 53`).  On this range an integer is exactly representable as a
double, `Number.prototype.toString` prints the plain decimal expansion
(exponent notation only starts at `1e21`), and `parseInt` inverts it, so
the embedding's `intRepr`/`jsParseInt` coincide with the program; outside
it the program genuinely loses the value (`dim(1e+21)` re-parses as `1`),
so the round-trip results restrict to this range. -/
def dimsSafeB : List Field → Bool
  | [] => true
  | f :: rest =>
    (match f.dim with
     | none => true
     | some d => decide (d < 2 ^ 53)) &&
      dimsSafeB f.fields && dimsSafeB rest
termination_by l => sizeOf l
decreasing_by
  all_goals have h1 : sizeOf f.fields < sizeOf f := by cases f; simp
  all_goals have h2 : sizeOf f < sizeOf (f :: rest) := by simp; omega
  all_goals have h3 : sizeOf rest < sizeOf (f :: rest) := by simp
  all_goals omega

/-- §3 invariants of a header (the code encodes an absent dimension as the
string `"0"`, which is also what `Template` requires). -/
def wfHeaderB (h : Header) : Bool :=
  identOkB h.name ∧
    (if h.type = tDefault then digitsOkB h.dimension
     else if h.type = tTemplate then h.dimension = str "0"
     else if h.type = tVar ∨ h.type = tAuto then digitsOkB h.dimension
     else false)

/-- §4.2's "valid whitespace prefix" for the caller-supplied base indent
(no line terminators). -/
def baseIndentOkB (s : Str) : Bool := s.all (fun c => c = ' ' ∨ c = '\t')

/-- The §3 structural invariant that only aggregate fields carry children. -/
def structChildrenOnlyB : List Field → Bool
  | [] => true
  | f :: rest =>
    (f.isStructure || f.fields.isEmpty) && structChildrenOnlyB f.fields &&
      structChildrenOnlyB rest
termination_by l => sizeOf l
decreasing_by
  all_goals have h1 : sizeOf f.fields < sizeOf f := by cases f; simp
  all_goals have h2 : sizeOf f < sizeOf (f :: rest) := by simp; omega
  all_goals have h3 : sizeOf rest < sizeOf (f :: rest) := by simp
  all_goals omega

/-- Fuel-indexed, structurally recursive twin of `parseFieldsGo`, used only
to evaluate the parser on concrete documents inside the kernel;
`parseFields_eval` proves it coincides with `parseFields` for sufficient
fuel. -/
def parseFieldsGoF : Nat → List Str → StructureFormat → Nat → List Field
  | 0, _, _, _ => []
  | fuel + 1, lines, format, idCounter =>
    match lines with
    | [] => []
    | rawLine :: rest =>
      let line := jsTrim rawLine
      if line = [] ∨ (str "//").isPrefixOf line then
        parseFieldsGoF fuel rest format idCounter
      else
        match structureStartMatch line with
        | some _ =>
          match structureStartMatch rawLine with
          | some m =>
            match findNestedEndRel rest 0 with
            | some e =>
              let nestedFields := parseFieldsGoF fuel (rest.take e) format 0
              let fld : Field :=
                { idNumber := idCounter, name := jsTrim m.name, type := [],
                  length := (dimClauseCapture m.modifiers).map jsTrim,
                  init := none, dim := none, isStructure := true,
                  fields := nestedFields }
              fld :: parseFieldsGoF fuel (rest.drop (e + 1)) format (idCounter + 1)
            | none => parseFieldsGoF fuel rest format (idCounter + 1)
          | none => parseFieldsGoF fuel rest format (idCounter + 1)
        | none =>
          match substructureMatch line with
          | some _ =>
            match substructureMatch rawLine with
            | some m =>
              let s := (findSubEndRel rest (getIndentLevel rawLine)).getD 0
              let nestedFields := parseFieldsGoF fuel (rest.take s) format 0
              let fld : Field :=
                { idNumber := idCounter, name := jsTrim m.name, type := [],
                  length := m.len.map jsTrim, init := none, dim := none,
                  isStructure := true, fields := nestedFields }
              fld :: parseFieldsGoF fuel (rest.drop s) format (idCounter + 1)
            | none => parseFieldsGoF fuel rest format (idCounter + 1)
          | none =>
            match fieldMatch line with
            | some fm =>
              parseFieldFromMatch fm idCounter format ::
                parseFieldsGoF fuel rest format (idCounter + 1)
            | none => parseFieldsGoF fuel rest format idCounter

/-- Per-invocation id relabelling: the ids the importer actually assigns —
each sibling list is numbered consecutively from the counter of its own
`parseFields` invocation, and every nested body restarts at 0. -/
def relabelLocal : List Field → Nat → List Field
  | [], _ => []
  | f :: rest, c =>
    (if f.isStructure then
      { f with idNumber := c, fields := relabelLocal f.fields 0 }
     else
      { f with idNumber := c }) :: relabelLocal rest (c + 1)
termination_by l _ => sizeOf l
decreasing_by
  all_goals have h1 : sizeOf f.fields < sizeOf f := by cases f; simp
  all_goals have h2 : sizeOf f < sizeOf (f :: rest) := by simp; omega
  all_goals have h3 : sizeOf rest < sizeOf (f :: rest) := by simp
  all_goals omega

/-- A line without a newline character. -/
def nlFree (s : Str) : Bool := s.all (fun c => ¬ c = '\n')

mutual

/-- The physical lines of `generateRpgCode`'s output (header, flattened body
lines, footer), defined alongside the generator for relating the emitted
single string to its `split('\n')` line list. -/
def genStructLines (p : RpgCodeParams) (cfg : Config) : List Str :=
  let ind := calculateIndentation p.line p.level p.baseIndent cfg
  generateStructureHeader p.name p.type p.dimension p.level p.line
      ind.headIndent cfg ::
    genFieldsLines p.fields p.baseIndent p.line p.level ind.subIndent 0 cfg ++
    [generateStructureFooter ind.headIndent cfg]
termination_by (sizeOf p.fields, 1)
decreasing_by
  exact Prod.Lex.right _ (by omega)

/-- The physical lines contributed by a field list inside
`generateStructureBody`: a plain field contributes its single rendered line,
an aggregate contributes the whole nested block. -/
def genFieldsLines (fields : List Field) (baseIndent : Str) (line level : Int)
    (subIndent : Str) (idx : Nat) (cfg : Config) : List Str :=
  match fields with
  | [] => []
  | f :: rest =>
    (if f.isStructure then
      genStructLines
        { name := f.name, type := tDefault, dimension := f.length,
          fields := f.fields, line := line + idx + 1, level := level + 1,
          baseIndent := baseIndent } cfg
     else
      [generateFieldLine f subIndent cfg]) ++
    genFieldsLines rest baseIndent line level subIndent (idx + 1) cfg
termination_by (sizeOf fields, 0)
decreasing_by
  · refine Prod.Lex.left _ _ ?_
    have h1 : sizeOf f.fields < sizeOf f := by cases f; simp
    have h2 : sizeOf f < sizeOf (f :: rest) := by simp; omega
    omega
  · refine Prod.Lex.left _ _ ?_
    simp

end

/-! ## Concrete documents and inputs used by individual claims -/

/-- A document whose outer structure contains a plain field and a nested
aggregate with one field. -/
def docNested : Str :=
  str "dcl-ds outer qualified;\n   a char(10);\n   dcl-ds inner;\n      b char(5);\n   end-ds;\nend-ds;"

/-- An 11-line document with an outer span on lines 0-10 and an inner span
on lines 3-7 (the configuration of the cursor tie-break example). -/
def docSpans : Str :=
  str "dcl-ds outer qualified;\nx char(1);\ny char(1);\ndcl-ds inner;\nb char(5);\nc char(5);\nd char(5);\nend-ds;\nz char(1);\nw char(1);\nend-ds;"

/-- A five-line document with an outer span on lines 0-4 and an inner span
on lines 1-3. -/
def docSpansSmall : Str :=
  str "dcl-ds outer qualified;\ndcl-ds inner;\nb char(5);\nend-ds;\nend-ds;"

/-- Relation between an earlier-recorded span and a later-recorded one: the
earlier span closes first, and is either entirely before the later span's
open line or strictly nested inside it (with a strictly larger level). -/
def spanRel (R N : Span) : Prop :=
  R.endLine < N.endLine ∧
    (R.endLine < N.startLine ∨ (N.startLine < R.startLine ∧ N.level < R.level))

/-- A span contains a cursor line. -/
def spanContains (S : Span) (cursor : Nat) : Prop :=
  S.startLine ≤ cursor ∧ cursor ≤ S.endLine

/-- Well-formedness of the boundary-scan stack at line `i`: levels equal the
depth below, open lines are before `i` and strictly decrease downwards. -/
def stackInv (i : Nat) : List StackEntry → Prop
  | [] => True
  | e :: st => e.level = st.length ∧ e.startLine < i ∧
      (∀ e2 ∈ st, e2.startLine < e.startLine) ∧ stackInv i st

/-! ## Generic helper lemmas -/

theorem takeWhile_append_not {p : Char → Bool} {xs : Str} (y : Char) (ys : Str)
    (h : ∀ c ∈ xs, p c = true) (hy : p y = false) :
    (xs ++ y :: ys).takeWhile p = xs := by
  induction xs with
  | nil => simp [List.takeWhile, hy]
  | cons a rest ih =>
    have ha : p a = true := h a (by simp)
    simp [List.takeWhile, ha]
    exact ih (fun c hc => h c (by simp [hc]))

theorem dropWhile_append_not {p : Char → Bool} {xs : Str} (y : Char) (ys : Str)
    (h : ∀ c ∈ xs, p c = true) (hy : p y = false) :
    (xs ++ y :: ys).dropWhile p = y :: ys := by
  induction xs with
  | nil => simp [List.dropWhile, hy]
  | cons a rest ih =>
    have ha : p a = true := h a (by simp)
    simp [List.dropWhile, ha]
    exact ih (fun c hc => h c (by simp [hc]))

theorem takeWhile_all {p : Char → Bool} {xs : Str} (h : ∀ c ∈ xs, p c = true) :
    xs.takeWhile p = xs := by
  induction xs with
  | nil => simp
  | cons a rest ih =>
    simp only [List.takeWhile, h a (by simp), List.cons.injEq, true_and]
    exact ih (fun c hc => h c (by simp [hc]))

theorem dropWhile_all {p : Char → Bool} {xs : Str} (h : ∀ c ∈ xs, p c = true) :
    xs.dropWhile p = [] := by
  induction xs with
  | nil => simp
  | cons a rest ih =>
    simp only [List.dropWhile, h a (by simp)]
    exact ih (fun c hc => h c (by simp [hc]))

/-- `jsTrim` is the identity on strings without whitespace characters. -/
theorem jsTrim_eq_self {s : Str} (h : ∀ c ∈ s, jsIsSpace c = false) :
    jsTrim s = s := by
  unfold jsTrim
  have h1 : s.dropWhile jsIsSpace = s := by
    cases s with
    | nil => simp
    | cons a rest => simp [List.dropWhile, h a (by simp)]
  rw [h1]
  have h2 : s.reverse.dropWhile jsIsSpace = s.reverse := by
    cases hr : s.reverse with
    | nil => simp
    | cons a rest =>
      have ha : a ∈ s := by
        have : a ∈ s.reverse := by rw [hr]; simp
        simpa using this
      simp [List.dropWhile, h a ha]
  rw [h2, List.reverse_reverse]

/-- Digits are not whitespace. -/
theorem digit_not_space {c : Char} (h : isDigitChar c = true) :
    jsIsSpace c = false := by
  simp [isDigitChar] at h
  simp [jsIsSpace]
  omega

/-- C4: generating code for header `{name:"cust", type:Default,
dimension:"100"}` with the single field `{name:"id", type:int, length:"10"}`
under the lowercase convention, at level 0 with empty base indent and the
default 3-space indent unit, yields exactly the three lines
`dcl-ds cust qualified dim(100);` / `   id int(10);` / `end-ds;` joined by
newlines with no trailing newline. -/
theorem c4_generate_lowercase_example :
    generateRpgCode
      { name := str "cust", type := tDefault, dimension := some (str "100"),
        fields := [⟨0, str "id", str "int", some (str "10"), none, none,
          false, []⟩],
        line := 0, level := 0, baseIndent := [] }
      ⟨.lower, some 3⟩ =
    .ok (str "dcl-ds cust qualified dim(100);\n   id int(10);\nend-ds;") := by
  simp only [generateRpgCode, generateStructureBody, validateRpgCodeParams,
    calculateIndentation, generateStructureHeader, generateDimensionClause,
    generateFieldLine, generateStructureFooter]
  norm_num
  rfl

/-- With fuel exceeding the number of remaining lines the fuelled parser
agrees with the parser. -/
theorem parseFieldsGo_eqF (fuel : Nat) :
    ∀ (lines : List Str) (format : StructureFormat) (idCounter : Nat),
      lines.length < fuel →
      parseFieldsGoF fuel lines format idCounter =
        parseFieldsGo lines format idCounter := by
  induction fuel with
  | zero => intro lines format c h; omega
  | succ fuel ih =>
    intro lines format c h
    match lines with
    | [] => simp [parseFieldsGoF, parseFieldsGo]
    | rawLine :: rest =>
      have hrest : rest.length < fuel := by
        simp only [List.length_cons] at h
        omega
      have htake : ∀ k : Nat, (rest.take k).length < fuel := by
        intro k
        have := List.length_take k rest
        omega
      have hdrop : ∀ k : Nat, (rest.drop k).length < fuel := by
        intro k
        have := List.length_drop k rest
        omega
      simp only [parseFieldsGoF, parseFieldsGo, parseFields]
      split
      · exact ih rest format c hrest
      · split
        · split
          · split
            · rw [ih _ format 0 (htake _), ih _ format (c + 1) (hdrop _)]
            · exact ih rest format (c + 1) hrest
          · exact ih rest format (c + 1) hrest
        · split
          · split
            · rw [ih _ format 0 (htake _), ih _ format (c + 1) (hdrop _)]
            · exact ih rest format (c + 1) hrest
          · split
            · rw [ih rest format (c + 1) hrest]
            · exact ih rest format c hrest

/-- Kernel-computable form of `parseFields` on a concrete document. -/
theorem parseFields_eval (lines : List Str) (format : StructureFormat) :
    parseFields lines format = parseFieldsGoF (lines.length + 1) lines format 0 := by
  rw [parseFields]
  exact (parseFieldsGo_eqF (lines.length + 1) lines format 0 (by omega)).symm

/-- C5: for every structure of kind Template and every supplied dimension
value (including non-empty ones) the generated open line contains no
dimension clause: the dimension clause is empty and the header is the same
as with no dimension at all. -/
theorem c5_template_never_dimensioned (name : Str) (dimension : Option Str)
    (level line : Int) (headIndent : Str) (cfg : Config) :
    generateDimensionClause tTemplate dimension (FORMAT_MAP cfg.structureFormat) = [] ∧
    generateStructureHeader name tTemplate dimension level line headIndent cfg =
      generateStructureHeader name tTemplate none level line headIndent cfg := by
  have hclause : ∀ dim : Option Str,
      generateDimensionClause tTemplate dim (FORMAT_MAP cfg.structureFormat) = [] := by
    intro dim
    cases dim with
    | none => rfl
    | some d =>
      simp only [generateDimensionClause]
      split_ifs with h1 h2 h3 h4
      · rfl
      · exact absurd h2 (by decide)
      · exact absurd h3 (by decide)
      · exact absurd h4 (by decide)
      · rfl
  refine ⟨hclause dimension, ?_⟩
  simp only [generateStructureHeader, hclause]

/-- The `foldl` underlying `digitsVal` is bounded by a power of ten. -/
theorem digitsValGo_lt : ∀ (ds : Str) (a : Nat),
    (∀ c ∈ ds, isDigitChar c = true) →
    ds.foldl (fun acc c => 10 * acc + (c.toNat - 48)) a <
      (a + 1) * 10 ^ ds.length := by
  intro ds
  induction ds with
  | nil =>
    intro a _
    simpa using (by omega : a < a + 1)
  | cons c t ih =>
    intro a h
    rw [List.foldl_cons, List.length_cons]
    have hc : 48 ≤ c.toNat ∧ c.toNat ≤ 57 := by
      have h9 := h c (by simp)
      rw [isDigitChar] at h9
      exact of_decide_eq_true h9
    have h2 := ih (10 * a + (c.toNat - 48)) (fun x hx => h x (by simp [hx]))
    have h3 : 10 * a + (c.toNat - 48) + 1 ≤ 10 * (a + 1) := by omega
    have h4 : (10 * a + (c.toNat - 48) + 1) * 10 ^ t.length ≤
        10 * (a + 1) * 10 ^ t.length := Nat.mul_le_mul_right _ h3
    have h5 : 10 * (a + 1) * 10 ^ t.length = (a + 1) * 10 ^ (t.length + 1) := by
      ring
    omega

/-- A string of `k` digits denotes a value below `10 ^ k`. -/
theorem digitsVal_lt {ds : Str} (h : ∀ c ∈ ds, isDigitChar c = true) :
    digitsVal ds < 10 ^ ds.length := by
  have h2 := digitsValGo_lt ds 0 h
  rw [digitsVal]
  omega

/-- The bounded most-significant-bit search returns `0` or a valid bit. -/
theorem msbIdx_spec (n : Nat) : msbIdx n = 0 ∨ 2 ^ msbIdx n ≤ n := by
  rw [msbIdx]
  suffices h : ∀ (L : List Nat) (a : Nat), (a = 0 ∨ 2 ^ a ≤ n) →
      (L.foldl (fun a k => if 2 ^ k ≤ n then k else a) a = 0 ∨
        2 ^ (L.foldl (fun a k => if 2 ^ k ≤ n then k else a) a) ≤ n) from
    h _ 0 (Or.inl rfl)
  intro L
  induction L with
  | nil =>
    intro a ha
    exact ha
  | cons k t ih =>
    intro a ha
    rw [List.foldl_cons]
    by_cases hk : 2 ^ k ≤ n
    · rw [if_pos hk]
      exact ih k (Or.inr hk)
    · rw [if_neg hk]
      exact ih a ha

/-- Naturals inside the safe-integer range convert to doubles exactly. -/
theorem jsNumOfNat_small {n : Nat} (h : n < 2 ^ 53) : jsNumOfNat n = some n := by
  have h1 : ¬ 2 ^ 1024 ≤ n := by
    have h2 : (2 : Nat) ^ 53 ≤ 2 ^ 1024 := Nat.pow_le_pow_right (by omega)
      (by omega)
    omega
  have hk : msbIdx n ≤ 52 := by
    rcases msbIdx_spec n with h2 | h2
    · omega
    · by_contra h3
      have h4 : (2 : Nat) ^ 53 ≤ 2 ^ msbIdx n := Nat.pow_le_pow_right (by omega)
        (by omega)
      omega
  simp only [jsNumOfNat]
  rw [if_neg h1, if_pos hk]

/-- C9 counterexample to the exact-comparison reading: a `whole:decimal`
pair of 17-digit parts whose decimal part is strictly smaller than its
whole part as an integer, yet `validateFieldLength` rejects it, because
`split(':').map(Number)` collapses both parts to the same double `1e16`. -/
theorem c9_float_collapse_counterexample :
    digitsVal (str "10000000000000000") <
      digitsVal (str "10000000000000001") ∧
    (validateFieldLength (str "packed")
      (str "10000000000000001:10000000000000000")).isValid = false := by
  constructor
  · decide
  · decide

/-- C9: for packed and zoned decimal fields, `validateFieldLength` converts
both halves of a `whole:decimal` pair with JS `Number` (round-to-nearest
IEEE-754 double, `+Infinity` past the double range) and accepts exactly
when the converted decimal part is strictly less than the converted whole
part; `13:2` is accepted for a packed field, `2:13` is rejected, and
whenever both halves have at most 15 digits — so both convert exactly —
the test agrees with exact integer comparison of the two parts. -/
theorem c9_decimal_length_validation :
    (validateFieldLength (str "packed") (str "13:2")).isValid = true ∧
    (validateFieldLength (str "packed") (str "2:13")).isValid = false ∧
    (∀ ty w d : Str, (ty = str "packed" ∨ ty = str "zoned") →
      digitsOkB w = true → digitsOkB d = true →
      ((validateFieldLength ty (w ++ ':' :: d)).isValid = true ↔
        jsNumLt (jsNumOfNat (digitsVal d)) (jsNumOfNat (digitsVal w)) =
          true)) ∧
    (∀ ty w d : Str, (ty = str "packed" ∨ ty = str "zoned") →
      digitsOkB w = true → digitsOkB d = true →
      w.length ≤ 15 → d.length ≤ 15 →
      ((validateFieldLength ty (w ++ ':' :: d)).isValid = true ↔
        digitsVal d < digitsVal w)) := by
  have hgen : ∀ ty w d : Str, (ty = str "packed" ∨ ty = str "zoned") →
      digitsOkB w = true → digitsOkB d = true →
      ((validateFieldLength ty (w ++ ':' :: d)).isValid = true ↔
        jsNumLt (jsNumOfNat (digitsVal d)) (jsNumOfNat (digitsVal w)) =
          true) := by
    intro ty w d hty hw hd
    have hwall : ∀ c ∈ w, isDigitChar c = true := by
      have h2 := hw
      simp [digitsOkB, List.all_eq_true] at h2
      exact h2.2
    have hwne : w ≠ [] := by
      have h2 := hw
      simp [digitsOkB] at h2
      exact h2.1
    have hdall : ∀ c ∈ d, isDigitChar c = true := by
      have h2 := hd
      simp [digitsOkB, List.all_eq_true] at h2
      exact h2.2
    have hdne : d ≠ [] := by
      have h2 := hd
      simp [digitsOkB] at h2
      exact h2.1
    have hnospace : ∀ c ∈ w ++ ':' :: d, jsIsSpace c = false := by
      intro c hc
      rcases List.mem_append.mp hc with hcw | hcd
      · exact digit_not_space (hwall c hcw)
      · rcases List.mem_cons.mp hcd with rfl | hcd2
        · decide
        · exact digit_not_space (hdall c hcd2)
    have htrim : jsTrim (w ++ ':' :: d) = w ++ ':' :: d :=
      jsTrim_eq_self hnospace
    have hcolon : isDigitChar ':' = false := by decide
    have htakew : (w ++ ':' :: d).takeWhile isDigitChar = w :=
      takeWhile_append_not ':' d hwall hcolon
    have hdropw : (w ++ ':' :: d).dropWhile isDigitChar = ':' :: d :=
      dropWhile_append_not ':' d hwall hcolon
    have hint : integerRegexTest (w ++ ':' :: d) = false := by
      have hall : (w ++ ':' :: d).all isDigitChar = false := by
        rw [List.all_eq_false]
        exact ⟨':', by simp, by simp [hcolon]⟩
      simp [integerRegexTest, hall]
    have hdec : decimalRegexTest (w ++ ':' :: d) = true := by
      simp only [decimalRegexTest, htakew, hdropw]
      simp [hwne, hdne, List.all_eq_true]
      exact fun c hc => hdall c hc
    have hfix : w ++ ':' :: d ≠ [] := by simp
    simp only [validateFieldLength, htrim, htakew, hdropw,
      List.drop_succ_cons, List.drop_zero]
    split_ifs with h1 h2 h3 h4
    · exact absurd h1 hfix
    · rw [hint] at h2
      exact absurd h2 (by simp)
    · simp [h4]
    · simp [h4]
    · refine absurd ⟨hty, ?_⟩ h3
      rw [hdec]
  refine ⟨by decide, by decide, hgen, ?_⟩
  intro ty w d hty hw hd hwl hdl
  rw [hgen ty w d hty hw hd]
  have hwall : ∀ c ∈ w, isDigitChar c = true := by
    have h2 := hw
    simp [digitsOkB, List.all_eq_true] at h2
    exact h2.2
  have hdall : ∀ c ∈ d, isDigitChar c = true := by
    have h2 := hd
    simp [digitsOkB, List.all_eq_true] at h2
    exact h2.2
  have hpow : (10 : Nat) ^ 15 < 2 ^ 53 := by decide
  have hwsmall : digitsVal w < 2 ^ 53 := by
    have h2 := digitsVal_lt hwall
    have h3 : (10 : Nat) ^ w.length ≤ 10 ^ 15 :=
      Nat.pow_le_pow_right (by omega) hwl
    omega
  have hdsmall : digitsVal d < 2 ^ 53 := by
    have h2 := digitsVal_lt hdall
    have h3 : (10 : Nat) ^ d.length ≤ 10 ^ 15 :=
      Nat.pow_le_pow_right (by omega) hdl
    omega
  rw [jsNumOfNat_small hwsmall, jsNumOfNat_small hdsmall]
  simp [jsNumLt]

/-- C9 witness: the 15-digit agreement clause instantiated at the packed
pair `13:2`. -/
theorem c9_decimal_length_validation_witness :
    (validateFieldLength (str "packed")
        (str "13" ++ ':' :: str "2")).isValid = true ↔
      digitsVal (str "2") < digitsVal (str "13") :=
  c9_decimal_length_validation.2.2.2 (str "packed") (str "13") (str "2")
    (Or.inl rfl) (by decide) (by decide) (by decide) (by decide)


/-- Whitespace characters are fixed by lower-casing. -/
theorem charLower_of_space {c : Char} (h : jsIsSpace c = true) :
    charLower c = c := by
  simp [jsIsSpace] at h
  simp [charLower]
  omega

/-- Identifier-start characters are not whitespace. -/
theorem identStart_not_space {c : Char} (h : isIdentStart c = true) :
    jsIsSpace c = false := by
  simp [isIdentStart, isAsciiAlpha] at h
  simp [jsIsSpace]
  rcases h with h | h
  · omega
  · rw [h]
    decide

/-- Identifier-start characters are identifier characters. -/
theorem identStart_identChar {c : Char} (h : isIdentStart c = true) :
    isIdentChar c = true := by
  simp [isIdentStart] at h
  simp [isIdentChar]
  tauto

/-- Consuming a keyword case-insensitively succeeds on any spelling of it. -/
theorem eatKwCI_append {s : Str} (tail : Str) :
    eatKwCI (lcStr s) (s ++ tail) = some tail := by
  induction s with
  | nil => simp [lcStr, eatKwCI]
  | cons c cs ih =>
    simp only [lcStr, List.map_cons, List.cons_append, eatKwCI, if_pos rfl]
    simpa [lcStr] using ih

/-- C10: the open-keyword pattern matches any case spelling of `dcl-ds`
(capturing the spelling as written), a spelling that is not one of the three
known conventions is silently reported as the lowercase format, and the
importer succeeds on such a document rather than failing with an
unknown-format error. -/
theorem c10_any_case_open_keyword :
    (∀ kw name rest : Str, lcStr kw = str "dcl-ds" → identOkB name = true →
      structureStartMatch (kw ++ (' ' :: (name ++ (';' :: rest)))) =
        some ⟨kw, name, []⟩) ∧
    (∀ kw : Str, kw ≠ str "dcl-ds" → kw ≠ str "Dcl-ds" → kw ≠ str "DCL-DS" →
      detectFormat kw = .lower) ∧
    (parseStructureAtCursor (str "DcL-Ds foo;\nend-ds;") 0).success = true ∧
    (parseStructureAtCursor (str "DcL-Ds foo;\nend-ds;") 0).format = .lower := by
  refine ⟨?_, ?_, rfl, rfl⟩
  · intro kw name rest hkw hname
    match kw, name, hkw, hname with
    | k0 :: ks, c0 :: cs, hkw, hname =>
      have hstart : isIdentStart c0 = true := by
        simp [identOkB] at hname
        exact hname.1
      have hcs : ∀ c ∈ cs, isIdentChar c = true := by
        simp [identOkB, List.all_eq_true] at hname
        exact hname.2
      have hk0d : charLower k0 = 'd' := by
        have h := hkw
        simp only [lcStr, List.map_cons, str] at h
        exact (List.cons.injEq _ _ _ _ ▸ h).1
      have hk0ns : jsIsSpace k0 = false := by
        by_contra hsp
        rw [Bool.not_eq_false] at hsp
        rw [charLower_of_space hsp] at hk0d
        rw [hk0d] at hsp
        exact absurd hsp (by decide)
      have hklen : (k0 :: ks).length = 6 := by
        have h := congrArg List.length hkw
        have h6 : (str "dcl-ds").length = 6 := rfl
        rw [h6] at h
        simpa [lcStr] using h
      have hnameall : ∀ c ∈ c0 :: cs, isIdentChar c = true := by
        intro c hc
        rcases List.mem_cons.mp hc with rfl | hc2
        · exact identStart_identChar hstart
        · exact hcs c hc2
      have hc0ns : jsIsSpace c0 = false := identStart_not_space hstart
      have key1 : List.dropWhile jsIsSpace
          (k0 :: (ks ++ ' ' :: c0 :: (cs ++ ';' :: rest))) =
          k0 :: (ks ++ ' ' :: c0 :: (cs ++ ';' :: rest)) := by
        rw [List.dropWhile_cons, hk0ns]
        simp
      have heat := eatKwCI_append (s := k0 :: ks) (' ' :: (c0 :: cs ++ (';' :: rest)))
      rw [List.cons_append] at heat
      simp only [List.cons_append] at heat
      have key2 : List.takeWhile jsIsSpace (' ' :: c0 :: (cs ++ ';' :: rest)) =
          [' '] := by
        rw [List.takeWhile_cons]
        simp only [show jsIsSpace ' ' = true from by decide, if_true]
        rw [List.takeWhile_cons, hc0ns]
        simp
      have key3 : List.dropWhile jsIsSpace (' ' :: c0 :: (cs ++ ';' :: rest)) =
          c0 :: (cs ++ ';' :: rest) := by
        rw [List.dropWhile_cons]
        simp only [show jsIsSpace ' ' = true from by decide, if_true]
        rw [List.dropWhile_cons, hc0ns]
        simp
      have hsemi : isIdentChar ';' = false := by decide
      have key4 : List.takeWhile isIdentChar (c0 :: (cs ++ ';' :: rest)) =
          c0 :: cs := by
        have h := takeWhile_append_not (p := isIdentChar) ';' rest hnameall hsemi
        rw [List.cons_append] at h
        exact h
      have key5 : List.dropWhile isIdentChar (c0 :: (cs ++ ';' :: rest)) =
          ';' :: rest := by
        have h := dropWhile_append_not (p := isIdentChar) ';' rest hnameall hsemi
        rw [List.cons_append] at h
        exact h
      have key6 : List.dropWhile jsIsSpace (';' :: rest) = ';' :: rest := by
        rw [List.dropWhile_cons]
        simp [show jsIsSpace ';' = false from by decide]
      have key7 : List.dropWhile (· != ';') (';' :: rest) = ';' :: rest := by
        rw [List.dropWhile_cons]
        simp
      have key8 : List.takeWhile (· != ';') (';' :: rest) = [] := by
        rw [List.takeWhile_cons]
        simp
      have key9 : List.take 6 (k0 :: (ks ++ ' ' :: c0 :: (cs ++ ';' :: rest))) =
          k0 :: ks := by
        have h9 := List.take_left (k0 :: ks) (' ' :: c0 :: (cs ++ ';' :: rest))
        rw [hklen, List.cons_append] at h9
        exact h9
      simp only [structureStartMatch]
      simp only [List.cons_append]
      rw [← hkw, key1, heat]
      simp only [key2, key3, key9, hstart, if_true, key4, key5, key6, key7, key8]
  · intro kw h1 h2 h3
    simp [detectFormat, h1, h2, h3]

/-- C10 witness: the mixed-case spelling `DcL-Ds` is matched and captured as
written, and an unknown spelling falls back to the lowercase format. -/
theorem c10_any_case_open_keyword_witness :
    structureStartMatch (str "DcL-Ds" ++ (' ' :: (str "x" ++ (';' :: [])))) =
      some ⟨str "DcL-Ds", str "x", []⟩ ∧
    detectFormat (str "DcL-dS") = .lower :=
  ⟨c10_any_case_open_keyword.1 (str "DcL-Ds") (str "x") [] (by decide) (by decide),
   c10_any_case_open_keyword.2.1 (str "DcL-dS") (by decide) (by decide) (by decide)⟩

/-- Specification of `assignIds`: under the children-only-on-aggregates
invariant it emits the ids `c, c+1, ...` in preorder and returns the counter
advanced by the number of nodes. -/
theorem assignIds_spec (fs : List Field) (c : Nat)
    (h : structChildrenOnlyB fs = true) :
    (assignIds fs c).2 = c + countFields fs ∧
    preorderIds (assignIds fs c).1 = List.range' c (countFields fs) := by
  match fs with
  | [] => simp [assignIds, countFields, preorderIds, List.range']
  | f :: rest =>
    have hh : (f.isStructure = true ∨ f.fields = []) ∧
        structChildrenOnlyB f.fields = true ∧ structChildrenOnlyB rest = true := by
      have h2 := h
      rw [structChildrenOnlyB] at h2
      simp [Bool.and_eq_true, Bool.or_eq_true, List.isEmpty_iff] at h2
      tauto
    by_cases hc : f.isStructure = true ∧ 0 < f.fields.length
    · have ih1 := assignIds_spec f.fields (c + 1) hh.2.1
      simp only [assignIds]
      rw [if_pos hc]
      have ih2 := assignIds_spec rest ((assignIds f.fields (c + 1)).2) hh.2.2
      constructor
      · rw [ih2.1, ih1.1]
        simp only [countFields]
        omega
      · simp only [preorderIds]
        rw [ih1.2, ih2.2, ih1.1]
        have happ := List.range'_append (c + 1) (countFields f.fields)
          (countFields rest) 1
        simp only [Nat.one_mul, Nat.mul_one] at happ
        rw [happ]
        have hcons : c :: List.range' (c + 1)
            (countFields rest + countFields f.fields) =
            List.range' c (countFields rest + countFields f.fields + 1) := by
          simp [List.range']
        rw [hcons]
        simp only [countFields]
        congr 1
        omega
    · have hfe : f.fields = [] := by
        rcases hh.1 with hs | hfe0
        · have hlen : f.fields.length = 0 := by
            by_contra hne
            exact hc ⟨hs, by omega⟩
          exact List.eq_nil_of_length_eq_zero hlen
        · exact hfe0
      have ih2 := assignIds_spec rest (c + 1) hh.2.2
      simp only [assignIds]
      rw [if_neg hc]
      constructor
      · rw [ih2.1]
        simp [countFields, hfe]
        omega
      · simp only [preorderIds, hfe]
        rw [ih2.2]
        simp only [List.nil_append]
        have hcons : c :: List.range' (c + 1) (countFields rest) =
            List.range' c (countFields rest + 1) := by
          simp [List.range']
        rw [hcons]
        simp only [countFields, hfe]
        congr 1
        omega
termination_by sizeOf fs
decreasing_by
  all_goals have h1 : sizeOf f.fields < sizeOf f := by cases f; simp
  all_goals have h2 : sizeOf f < sizeOf (f :: rest) := by simp; omega
  all_goals have h3 : sizeOf rest < sizeOf (f :: rest) := by simp
  all_goals omega

/-- C8: for every field tree satisfying §3's children-only-on-aggregates
invariant (as after any insertion or deletion), the id-reassignment pass
produces ids forming the strictly increasing gap-free preorder sequence
`0, 1, 2, ...` across the whole tree. -/
theorem c8_reassign_ids_preorder (fs : List Field)
    (h : structChildrenOnlyB fs = true) :
    preorderIds (reassignIdNumbers fs) = List.range (countFields fs) := by
  rw [reassignIdNumbers, (assignIds_spec fs 0 h).2, List.range_eq_range']

/-- C8 witness: a three-node forest with scrambled ids is renumbered to the
preorder sequence. -/
theorem c8_reassign_ids_preorder_witness :
    structChildrenOnlyB [⟨7, str "a", str "char", none, none, none, false, []⟩,
      ⟨3, str "s", [], none, none, none, true,
        [⟨9, str "b", str "int", none, none, none, false, []⟩]⟩] = true ∧
    preorderIds (reassignIdNumbers
      [⟨7, str "a", str "char", none, none, none, false, []⟩,
       ⟨3, str "s", [], none, none, none, true,
         [⟨9, str "b", str "int", none, none, none, false, []⟩]⟩]) =
      List.range (countFields
        [⟨7, str "a", str "char", none, none, none, false, []⟩,
         ⟨3, str "s", [], none, none, none, true,
           [⟨9, str "b", str "int", none, none, none, false, []⟩]⟩]) := by
  refine ⟨by simp [structChildrenOnlyB], ?_⟩
  exact c8_reassign_ids_preorder _ (by simp [structChildrenOnlyB])

/-- C6: a failure while rendering one individual field does not abort the
whole generation — the output keeps one line per field, with a visible
comment-marker line in the failing field's place and every other field
rendered as usual — whereas a validation failure of the call's own inputs
(empty name, negative line, negative level; the non-array/non-string checks
are unrepresentable type errors in this embedding) aborts the call with a
typed error before any text is produced. -/
theorem c6_field_failure_contained_input_validation_aborts :
    (∀ (p : RpgCodeParams) (cfg : Config), jsTrim p.name = [] →
      generateRpgCode p cfg = .error (generationFailureMsg p.name
        (str "Structure name is required and must be a non-empty string"))) ∧
    (∀ (p : RpgCodeParams) (cfg : Config),
      jsTrim p.name ≠ [] → p.type ≠ [] → p.line < 0 →
      generateRpgCode p cfg = .error (generationFailureMsg p.name
        (str "Line number must be a non-negative number"))) ∧
    (∀ (p : RpgCodeParams) (cfg : Config),
      jsTrim p.name ≠ [] → p.type ≠ [] → ¬ p.line < 0 → p.level < 0 →
      generateRpgCode p cfg = .error (generationFailureMsg p.name
        (str "Level must be a non-negative number"))) ∧
    (∀ (fs1 fs2 : List Field) (bad : Field) (base : Str) (line level : Int)
        (sub : Str) (idx : Nat) (cfg : Config),
      bad.isStructure = true → jsTrim bad.name = [] →
      generateStructureBody (fs1 ++ bad :: fs2) base line level sub idx cfg =
        generateStructureBody fs1 base line level sub idx cfg ++
          (sub ++ str "// Error generating field: " ++ bad.name) ::
            generateStructureBody fs2 base line level sub
              (idx + fs1.length + 1) cfg) := by
  refine ⟨?_, ?_, ?_, ?_⟩
  · intro p cfg h
    simp [generateRpgCode, validateRpgCodeParams, h]
  · intro p cfg h1 h2 h3
    simp [generateRpgCode, validateRpgCodeParams, h1, h2, h3]
  · intro p cfg h1 h2 h3 h4
    simp [generateRpgCode, validateRpgCodeParams, h1, h2, h3, h4]
  · intro fs1 fs2 bad base line level sub idx cfg hbad hname
    induction fs1 generalizing idx with
    | nil =>
      simp only [List.nil_append, generateStructureBody, hbad, if_true]
      rw [show generateRpgCode
          { name := bad.name, type := tDefault, dimension := bad.length,
            fields := bad.fields, line := line + idx + 1, level := level + 1,
            baseIndent := base } cfg =
          .error (generationFailureMsg bad.name
            (str "Structure name is required and must be a non-empty string"))
          from by simp [generateRpgCode, validateRpgCodeParams, hname]]
      simp [List.length_nil]
    | cons f fs1 ih =>
      simp only [List.cons_append, generateStructureBody]
      rw [ih (idx + 1)]
      simp only [List.cons_append, List.length_cons]
      rw [show idx + 1 + fs1.length + 1 = idx + (fs1.length + 1) + 1 from by omega]

/-- C6 witness: an empty name aborts the call, and a malformed aggregate
field (empty name) inside a field list becomes a comment-marker line while
the following field is still rendered. -/
theorem c6_field_failure_contained_witness :
    generateRpgCode ⟨str " ", tDefault, none, [], 0, 0, []⟩ ⟨.lower, some 3⟩ =
      .error (generationFailureMsg (str " ")
        (str "Structure name is required and must be a non-empty string")) ∧
    generateStructureBody
        ([] ++ (⟨0, [], [], none, none, none, true, []⟩ : Field) ::
          [⟨1, str "id", str "int", some (str "10"), none, none, false, []⟩])
        [] 0 0 (str "   ") 0 ⟨.lower, some 3⟩ =
      generateStructureBody [] [] 0 0 (str "   ") 0 ⟨.lower, some 3⟩ ++
        (str "   " ++ str "// Error generating field: " ++ ([] : Str)) ::
          generateStructureBody
            [⟨1, str "id", str "int", some (str "10"), none, none, false, []⟩]
            [] 0 0 (str "   ") (0 + ([] : List Field).length + 1)
            ⟨.lower, some 3⟩ := by
  constructor
  · exact c6_field_failure_contained_input_validation_aborts.1 _ _ (by decide)
  · exact c6_field_failure_contained_input_validation_aborts.2.2.2
      [] [⟨1, str "id", str "int", some (str "10"), none, none, false, []⟩]
      ⟨0, [], [], none, none, none, true, []⟩ [] 0 0 (str "   ") 0
      ⟨.lower, some 3⟩ rfl (by decide)

/-- C7: whole-document extraction returns one result per level-0 span only —
in general the number of results equals the number of level-0 spans (inner
spans are never emitted as separate results) — and on a document with one
outer aggregate containing one nested aggregate it yields exactly one
result, whose field tree carries the inner aggregate as a child. -/
theorem c7_extract_top_level_only :
    (∀ content : Str,
      (extractAllStructures content).length =
        ((findAllStructureBoundaries (splitNl content)).filter
          (fun b => b.level = 0)).length ∧
      ∀ r ∈ extractAllStructures content, r.success = true) ∧
    (findAllStructureBoundaries (splitNl docNested)).length = 2 ∧
    ((findAllStructureBoundaries (splitNl docNested)).filter
      (fun b => b.level = 0)).length = 1 ∧
    extractAllStructures docNested =
      [⟨⟨str "outer", tDefault, str "0"⟩,
        [⟨0, str "a", str "char", some (str "10"), none, none, false, []⟩,
         ⟨1, str "inner", [], none, none, none, true,
           [⟨0, str "b", str "char", some (str "5"), none, none, false, []⟩]⟩],
        .lower, true, []⟩] := by
  refine ⟨?_, rfl, rfl, ?_⟩
  · intro content
    constructor
    · simp [extractAllStructures]
    · intro r hr
      simp [extractAllStructures] at hr
      obtain ⟨b, _, rfl⟩ := hr
      rfl
  · simp only [extractAllStructures, parseFields_eval]
    rfl

/-- C2 counterexample: parsing a document with a nested aggregate yields ids
`0, 1, 0` in preorder — the nested body restarts the counter, so the ids of
one parse are neither pairwise distinct nor strictly increasing in preorder,
contrary to the claim's single shared counter. -/
theorem c2_shared_counter_counterexample :
    (parseStructureAtCursor docNested 0).success = true ∧
    preorderIds (parseStructureAtCursor docNested 0).fields = [0, 1, 0] ∧
    ¬ (preorderIds (parseStructureAtCursor docNested 0).fields).Nodup ∧
    chainLt (preorderIds (parseStructureAtCursor docNested 0).fields) = false := by
  have hf : (parseStructureAtCursor docNested 0).fields =
      [⟨0, str "a", str "char", some (str "10"), none, none, false, []⟩,
       ⟨1, str "inner", [], none, none, none, true,
         [⟨0, str "b", str "char", some (str "5"), none, none, false, []⟩]⟩] := by
    simp only [parseStructureAtCursor, parseFields_eval]
    rfl
  refine ⟨rfl, ?_, ?_, ?_⟩
  · rw [hf]
    simp [preorderIds]
  · rw [hf]
    simp only [preorderIds]
    decide
  · rw [hf]
    simp only [preorderIds]
    decide

/-- `chainLt` is `List.Chain' (· < ·)`. -/
theorem chainLt_iff (l : List Nat) : chainLt l = true ↔ List.Chain' (· < ·) l := by
  induction l with
  | nil => simp [chainLt]
  | cons a r ih =>
    cases r with
    | nil => simp [chainLt]
    | cons b r2 =>
      rw [chainLt, List.chain'_cons]
      simp only [Bool.and_eq_true, decide_eq_true_eq] at *
      constructor
      · intro h
        exact ⟨h.1, ih.mp h.2⟩
      · intro h
        exact ⟨h.1, ih.mpr h.2⟩

/-- Prepending a smaller head keeps a strictly increasing id list strictly
increasing. -/
theorem chainLt_cons_of {c : Nat} {tail : List Field}
    (h1 : ∀ f ∈ tail, c + 1 ≤ f.idNumber)
    (h2 : chainLt (tail.map Field.idNumber) = true) :
    chainLt (c :: tail.map Field.idNumber) = true := by
  rw [chainLt_iff] at h2 ⊢
  rw [List.chain'_cons']
  refine ⟨?_, h2⟩
  intro x hx
  cases tail with
  | nil => simp at hx
  | cons f0 t2 =>
    simp only [List.map_cons, List.head?_cons, Option.mem_def,
      Option.some.injEq] at hx
    have := h1 f0 (by simp)
    omega

/-- One cons step of the sibling-ids invariant. -/
theorem sibOk_cons {c : Nat} (fld : Field) (tail : List Field)
    (hid : fld.idNumber = c)
    (hcc : chainLt (fld.fields.map Field.idNumber) = true)
    (hcs : fieldsSibOk fld.fields = true)
    (htl : ∀ f ∈ tail, c + 1 ≤ f.idNumber)
    (htc : chainLt (tail.map Field.idNumber) = true)
    (hts : fieldsSibOk tail = true) :
    (∀ f ∈ fld :: tail, c ≤ f.idNumber) ∧
    chainLt ((fld :: tail).map Field.idNumber) = true ∧
    fieldsSibOk (fld :: tail) = true := by
  refine ⟨?_, ?_, ?_⟩
  · intro f hf
    rcases List.mem_cons.mp hf with rfl | hf2
    · omega
    · have := htl f hf2
      omega
  · rw [List.map_cons, hid]
    exact chainLt_cons_of htl htc
  · rw [fieldsSibOk]
    simp [hcc, hcs, hts]

/-- Ids produced by the (fuelled) parser loop: bounded below by the counter,
strictly increasing across siblings, and recursively well-ordered inside
every nested aggregate. -/
theorem parseFieldsGoF_ids (fuel : Nat) :
    ∀ (lines : List Str) (format : StructureFormat) (c : Nat),
      (∀ f ∈ parseFieldsGoF fuel lines format c, c ≤ f.idNumber) ∧
      chainLt ((parseFieldsGoF fuel lines format c).map Field.idNumber) = true ∧
      fieldsSibOk (parseFieldsGoF fuel lines format c) = true := by
  induction fuel with
  | zero =>
    intro lines fmt c
    simp [parseFieldsGoF, chainLt, fieldsSibOk]
  | succ fuel ih =>
    intro lines fmt c
    match lines with
    | [] => simp [parseFieldsGoF, chainLt, fieldsSibOk]
    | rawLine :: rest =>
      have step : ∀ (X : List Str) (c' : Nat),
          (∀ f ∈ parseFieldsGoF fuel X fmt (c' + 1), c' + 1 ≤ f.idNumber) :=
        fun X c' => (ih X fmt (c' + 1)).1
      simp only [parseFieldsGoF]
      split
      · exact ih rest fmt c
      · split
        · split
          · split
            · exact sibOk_cons _ _ rfl (ih _ fmt 0).2.1 (ih _ fmt 0).2.2
                (step _ c) (ih _ fmt (c + 1)).2.1 (ih _ fmt (c + 1)).2.2
            · exact ih rest fmt (c + 1) |>.imp
                (fun h f hf => Nat.le_of_succ_le (h f hf)) id
          · exact ih rest fmt (c + 1) |>.imp
              (fun h f hf => Nat.le_of_succ_le (h f hf)) id
        · split
          · split
            · exact sibOk_cons _ _ rfl (ih _ fmt 0).2.1 (ih _ fmt 0).2.2
                (step _ c) (ih _ fmt (c + 1)).2.1 (ih _ fmt (c + 1)).2.2
            · exact ih rest fmt (c + 1) |>.imp
                (fun h f hf => Nat.le_of_succ_le (h f hf)) id
          · split
            · refine sibOk_cons _ _ ?_ ?_ ?_ (step _ c)
                (ih _ fmt (c + 1)).2.1 (ih _ fmt (c + 1)).2.2
              · simp [parseFieldFromMatch]
              · simp [parseFieldFromMatch, chainLt]
              · simp [parseFieldFromMatch, fieldsSibOk]
            · exact ih rest fmt c

/-- C2 (amended): every `parseFields` invocation carries its own counter, so
in the result of parsing a structure at the cursor the ids are strictly
increasing among the direct children of each node (restarting at 0 inside
every nested aggregate body), not globally unique across the tree. -/
theorem c2_sibling_ids_increasing (content : Str) (cursorLine : Nat) :
    chainLt ((parseStructureAtCursor content cursorLine).fields.map
      Field.idNumber) = true ∧
    fieldsSibOk (parseStructureAtCursor content cursorLine).fields = true := by
  cases h : findStructureBoundaries (splitNl content) cursorLine with
  | none =>
    simp only [parseStructureAtCursor, h]
    simp [defaultParsedStructure, chainLt, fieldsSibOk]
  | some b =>
    obtain ⟨s, e, m⟩ := b
    simp only [parseStructureAtCursor, h]
    rw [parseFields_eval]
    exact ⟨(parseFieldsGoF_ids _ _ _ _).2.1, (parseFieldsGoF_ids _ _ _ _).2.2⟩

/-- A line matching the open pattern cannot match the close pattern. -/
theorem start_not_end {l : Str} {m : StartMatch}
    (h : structureStartMatch l = some m) : structureEndTest l = false := by
  rw [structureStartMatch] at h
  rw [structureEndTest]
  cases hs : l.dropWhile jsIsSpace with
  | nil =>
    rw [hs] at h
    simp [eatKwCI, str] at h
  | cons c cs =>
    rw [hs] at h
    rw [show str "dcl-ds" = 'd' :: str "cl-ds" from rfl] at h
    rw [show str "end-ds" = 'e' :: str "nd-ds" from rfl]
    rw [eatKwCI] at h
    rw [eatKwCI]
    by_cases hc : charLower c = 'd'
    · rw [if_neg (by rw [hc]; decide)]
    · rw [if_neg hc] at h
      simp at h

theorem stackInv_starts {i : Nat} : ∀ {st : List StackEntry}, stackInv i st →
    ∀ e ∈ st, e.startLine < i := by
  intro st
  induction st with
  | nil => intro _ e he; simp at he
  | cons e0 st ih =>
    intro h e he
    rcases List.mem_cons.mp he with rfl | he2
    · exact h.2.1
    · exact ih h.2.2.2 e he2

theorem stackInv_levels {i : Nat} : ∀ {st : List StackEntry}, stackInv i st →
    ∀ e ∈ st, e.level < st.length := by
  intro st
  induction st with
  | nil => intro _ e he; simp at he
  | cons e0 st ih =>
    intro h e he
    rcases List.mem_cons.mp he with rfl | he2
    · simp [h.1]
    · have := ih h.2.2.2 e he2
      simp
      omega

theorem stackInv_mono {i j : Nat} (hij : i ≤ j) : ∀ {st : List StackEntry},
    stackInv i st → stackInv j st := by
  intro st
  induction st with
  | nil => intro h; trivial
  | cons e0 st ih =>
    intro h
    obtain ⟨h1, h2, h3, h4⟩ := h
    exact ⟨h1, by omega, h3, ih h4⟩

/-- Invariant carried through the boundary scan. -/
def scanInv (i : Nat) (stack : List StackEntry) (acc : List Span) : Prop :=
  stackInv i stack ∧ acc.Pairwise spanRel ∧
    (∀ R ∈ acc, R.startLine < R.endLine ∧ R.endLine < i) ∧
    (∀ R ∈ acc, ∀ e ∈ stack, R.endLine < e.startLine ∨
      (e.startLine < R.startLine ∧ e.level < R.level))

/-- The boundary scan yields pairwise `spanRel`-ordered spans with strictly
positive extent. -/
theorem scanGo_ok : ∀ (lines : List Str) (i : Nat) (stack : List StackEntry)
    (acc : List Span), scanInv i stack acc →
    (scanBoundariesGo lines i stack acc).Pairwise spanRel ∧
    ∀ R ∈ scanBoundariesGo lines i stack acc, R.startLine < R.endLine := by
  intro lines
  induction lines with
  | nil =>
    intro i stack acc hinv
    rw [scanBoundariesGo]
    exact ⟨hinv.2.1, fun R hR => (hinv.2.2.1 R hR).1⟩
  | cons l rest ih =>
    intro i stack acc hinv
    rw [scanBoundariesGo]
    cases hsm : structureStartMatch l with
    | some m =>
      have hend : structureEndTest l = false := start_not_end hsm
      simp only [hsm, hend, Bool.false_eq_true, if_false]
      apply ih (i + 1)
      refine ⟨?_, hinv.2.1, ?_, ?_⟩
      · refine ⟨rfl, by show i < i + 1; omega, ?_,
          stackInv_mono (by omega) hinv.1⟩
        exact fun e2 he2 => stackInv_starts hinv.1 e2 he2
      · intro R hR
        have := hinv.2.2.1 R hR
        omega
      · intro R hR e he
        rcases List.mem_cons.mp he with rfl | he2
        · left
          exact (hinv.2.2.1 R hR).2
        · exact hinv.2.2.2 R hR e he2
    | none =>
      simp only [hsm]
      cases hend : structureEndTest l with
      | false =>
        simp only [Bool.false_eq_true, if_false]
        apply ih (i + 1)
        exact ⟨stackInv_mono (by omega) hinv.1, hinv.2.1,
          fun R hR => by have := hinv.2.2.1 R hR; omega, hinv.2.2.2⟩
      | true =>
        simp only [if_true]
        cases stack with
        | nil =>
          apply ih (i + 1)
          exact ⟨trivial, hinv.2.1,
            fun R hR => by have := hinv.2.2.1 R hR; omega,
            fun R hR e he => by simp at he⟩
        | cons e st =>
          apply ih (i + 1)
          have hst := hinv.1
          refine ⟨stackInv_mono (by omega) hst.2.2.2, ?_, ?_, ?_⟩
          · rw [List.pairwise_append]
            refine ⟨hinv.2.1, by simp [spanRel], ?_⟩
            intro R hR N hN
            rw [List.mem_singleton] at hN
            subst hN
            constructor
            · exact (hinv.2.2.1 R hR).2
            · rcases hinv.2.2.2 R hR e (by simp) with h1 | h2
              · left
                exact h1
              · right
                exact h2
          · intro R hR
            rcases List.mem_append.mp hR with h1 | h1
            · have := hinv.2.2.1 R h1
              omega
            · rw [List.mem_singleton] at h1
              subst h1
              exact ⟨hst.2.1, by show i < i + 1; omega⟩
          · intro R hR e2 he2
            rcases List.mem_append.mp hR with h1 | h1
            · exact hinv.2.2.2 R h1 e2 (by simp [he2])
            · rw [List.mem_singleton] at h1
              subst h1
              right
              refine ⟨hst.2.2.1 e2 he2, ?_⟩
              have h3 := stackInv_levels hst.2.2.2 e2 he2
              simp only [hst.1]
              omega

theorem selStep_not_contains {cursor : Nat} {T : Span} (b : Option Span)
    (h : ¬ spanContains T cursor) : selStep cursor b T = b := by
  rw [spanContains] at h
  rw [selStep.eq_def, if_neg h]

theorem selStep_none {cursor : Nat} {S : Span} (h : spanContains S cursor) :
    selStep cursor none S = some S := by
  rw [spanContains] at h
  rw [selStep.eq_def, if_pos h]
  split_ifs <;> rfl

theorem selStep_keep {cursor : Nat} {S T : Span}
    (h : spanContains T cursor →
      T.startLine < cursor ∧ cursor < T.endLine ∧ T.level < S.level) :
    selStep cursor (some S) T = some S := by
  by_cases hc : spanContains T cursor
  · obtain ⟨h1, h2, h3⟩ := h hc
    rw [spanContains] at hc
    rw [selStep.eq_def, if_pos hc, if_neg (by omega : ¬ cursor = T.startLine),
      if_neg (by omega : ¬ cursor = T.endLine)]
    show (if S.level < T.level then some T else some S) = some S
    rw [if_neg (by omega)]
  · exact selStep_not_contains _ hc

theorem foldl_selStep_id {cursor : Nat} : ∀ (l : List Span) (b : Option Span),
    (∀ T ∈ l, ¬ spanContains T cursor) → l.foldl (selStep cursor) b = b := by
  intro l
  induction l with
  | nil => intro b _; rfl
  | cons T rest ih =>
    intro b h
    rw [List.foldl_cons, selStep_not_contains b (h T (by simp))]
    exact ih b (fun T2 hT2 => h T2 (by simp [hT2]))

theorem foldl_selStep_keep {cursor : Nat} {S : Span} : ∀ (l : List Span),
    (∀ T ∈ l, spanContains T cursor →
      T.startLine < cursor ∧ cursor < T.endLine ∧ T.level < S.level) →
    l.foldl (selStep cursor) (some S) = some S := by
  intro l
  induction l with
  | nil => intro _; rfl
  | cons T rest ih =>
    intro h
    rw [List.foldl_cons, selStep_keep (h T (by simp))]
    exact ih (fun T2 hT2 => h T2 (by simp [hT2]))

theorem findAll_pairwise (lines : List Str) :
    (findAllStructureBoundaries lines).Pairwise spanRel ∧
    ∀ R ∈ findAllStructureBoundaries lines, R.startLine < R.endLine := by
  apply scanGo_ok
  exact ⟨trivial, List.Pairwise.nil, by simp, by simp⟩

/-- **C3** (amended general rule): among the spans recorded by the boundary
scan, the cursor always selects the containing span of maximal level (the
innermost containing aggregate), whether the cursor is on its start line, its
end line, or strictly inside. -/
theorem c3_cursor_selects_innermost_containing (lines : List Str) (cursor : Nat)
    (S : Span) (hmem : S ∈ findAllStructureBoundaries lines)
    (hcont : spanContains S cursor)
    (hmax : ∀ T ∈ findAllStructureBoundaries lines,
      spanContains T cursor → T.level ≤ S.level) :
    findStructureBoundaries lines cursor =
      some (S.startLine, S.endLine, S.headerMatch) := by
  obtain ⟨pre, post, hsplit⟩ := List.append_of_mem hmem
  have hpair := (findAll_pairwise lines).1
  rw [hsplit] at hpair hmax
  rw [List.pairwise_append] at hpair
  have hpost : ∀ T ∈ post, spanRel S T := by
    have h2 := hpair.2.1
    rw [List.pairwise_cons] at h2
    exact h2.1
  have hprenot : ∀ R ∈ pre, ¬ spanContains R cursor := by
    intro R hR hc
    have hrel := hpair.2.2 R hR S (by simp)
    have hlev := hmax R (List.mem_append.mpr (Or.inl hR)) hc
    rw [spanRel] at hrel
    rw [spanContains] at hc hcont
    rcases hrel.2 with h1 | h2 <;> omega
  have hpostfacts : ∀ T ∈ post, spanContains T cursor →
      T.startLine < cursor ∧ cursor < T.endLine ∧ T.level < S.level := by
    intro T hT hc
    have hrel := hpost T hT
    rw [spanRel] at hrel
    rw [spanContains] at hc
    have hcont2 := hcont
    rw [spanContains] at hcont2
    rcases hrel.2 with h1 | h2 <;> omega
  have hsel : selectBest (findAllStructureBoundaries lines) cursor = some S := by
    rw [selectBest, hsplit, List.foldl_append, foldl_selStep_id pre none hprenot,
      List.foldl_cons, selStep_none hcont, foldl_selStep_keep post hpostfacts]
  simp only [findStructureBoundaries, hsel]

theorem c3_docSpans_eval :
    findAllStructureBoundaries (splitNl docSpans) =
      [⟨3, 7, ⟨str "dcl-ds", str "inner", []⟩, 1⟩,
       ⟨0, 10, ⟨str "dcl-ds", str "outer", str "qualified"⟩, 0⟩] := rfl

/-- Witness for C3: the claim's own concrete example, obtained from the
amended rule at cursors 0, 5 and 10 of the 11-line two-span document. -/
theorem c3_cursor_selection_witness :
    findStructureBoundaries (splitNl docSpans) 0 =
        some (0, 10, ⟨str "dcl-ds", str "outer", str "qualified"⟩) ∧
    findStructureBoundaries (splitNl docSpans) 5 =
        some (3, 7, ⟨str "dcl-ds", str "inner", []⟩) ∧
    findStructureBoundaries (splitNl docSpans) 10 =
        some (0, 10, ⟨str "dcl-ds", str "outer", str "qualified"⟩) := by
  refine ⟨?_, ?_, ?_⟩
  · exact c3_cursor_selects_innermost_containing _ 0
      ⟨0, 10, ⟨str "dcl-ds", str "outer", str "qualified"⟩, 0⟩
      (by rw [c3_docSpans_eval]; simp)
      ⟨by decide, by decide⟩
      (by
        rw [c3_docSpans_eval]
        intro T hT
        rcases List.mem_cons.mp hT with rfl | hT2
        · intro hc; exact absurd hc.1 (by decide)
        · rcases List.mem_singleton.mp hT2 with rfl
          intro _; exact Nat.le_refl 0)
  · exact c3_cursor_selects_innermost_containing _ 5
      ⟨3, 7, ⟨str "dcl-ds", str "inner", []⟩, 1⟩
      (by rw [c3_docSpans_eval]; simp)
      ⟨by decide, by decide⟩
      (by
        rw [c3_docSpans_eval]
        intro T hT
        rcases List.mem_cons.mp hT with rfl | hT2
        · intro _; exact Nat.le_refl 1
        · rcases List.mem_singleton.mp hT2 with rfl
          intro _; exact Nat.le_succ 0)
  · exact c3_cursor_selects_innermost_containing _ 10
      ⟨0, 10, ⟨str "dcl-ds", str "outer", str "qualified"⟩, 0⟩
      (by rw [c3_docSpans_eval]; simp)
      ⟨by decide, by decide⟩
      (by
        rw [c3_docSpans_eval]
        intro T hT
        rcases List.mem_cons.mp hT with rfl | hT2
        · intro hc; exact absurd hc.2 (by decide)
        · rcases List.mem_singleton.mp hT2 with rfl
          intro _; exact Nat.le_refl 0)

theorem c3_docSpansSmall_eval :
    findAllStructureBoundaries (splitNl docSpansSmall) =
      [⟨1, 3, ⟨str "dcl-ds", str "inner", []⟩, 1⟩,
       ⟨0, 4, ⟨str "dcl-ds", str "outer", str "qualified"⟩, 0⟩] := rfl

/-- **C3** counterexample to the literal tie-break sentence: in the five-line
document the cursor at line 1 sits on the start line of the selected span
(1-3, level 1), yet the containing span 0-4 has the strictly smaller level 0,
so a cursor on a span's start line does NOT select the smallest-level
containing span. -/
theorem c3_start_line_not_smallest_level :
    findStructureBoundaries (splitNl docSpansSmall) 1 =
      some (1, 3, ⟨str "dcl-ds", str "inner", []⟩) ∧
    (⟨0, 4, ⟨str "dcl-ds", str "outer", str "qualified"⟩, 0⟩ : Span) ∈
      findAllStructureBoundaries (splitNl docSpansSmall) ∧
    spanContains ⟨0, 4, ⟨str "dcl-ds", str "outer", str "qualified"⟩, 0⟩ 1 ∧
    (⟨0, 4, ⟨str "dcl-ds", str "outer", str "qualified"⟩, 0⟩ : Span).level <
      (⟨1, 3, ⟨str "dcl-ds", str "inner", []⟩, 1⟩ : Span).level ∧
    (⟨1, 3, ⟨str "dcl-ds", str "inner", []⟩, 1⟩ : Span).startLine = 1 := by
  refine ⟨rfl, ?_, ⟨by decide, by decide⟩, by decide, rfl⟩
  rw [c3_docSpansSmall_eval]
  simp

/-! ## Generic lemmas for the round-trip claim -/

theorem dropWhile_append_all {p : Char → Bool} {xs : Str} (ys : Str)
    (h : ∀ c ∈ xs, p c = true) :
    (xs ++ ys).dropWhile p = ys.dropWhile p := by
  induction xs with
  | nil => simp
  | cons a rest ih =>
    simp only [List.cons_append, List.dropWhile, h a (by simp)]
    exact ih (fun c hc => h c (by simp [hc]))

theorem identChar_not_space {c : Char} (h : isIdentChar c = true) :
    jsIsSpace c = false := by
  rw [isIdentChar] at h
  replace h := of_decide_eq_true h
  rcases h with h | h | rfl | rfl | rfl
  · rw [isAsciiAlpha] at h
    replace h := of_decide_eq_true h
    rw [jsIsSpace]
    apply decide_eq_false
    omega
  · rw [isDigitChar] at h
    replace h := of_decide_eq_true h
    rw [jsIsSpace]
    apply decide_eq_false
    omega
  · decide
  · decide
  · decide

theorem identChar_not_nl {c : Char} (h : isIdentChar c = true) : ¬ c = '\n' := by
  rintro rfl
  revert h
  decide

theorem digit_not_nl {c : Char} (h : isDigitChar c = true) : ¬ c = '\n' := by
  rintro rfl
  revert h
  decide

theorem mem_jsTrim {c : Char} {s : Str} (h : c ∈ jsTrim s) : c ∈ s := by
  unfold jsTrim at h
  rw [List.mem_reverse] at h
  have h2 := (List.dropWhile_sublist _).subset h
  rw [List.mem_reverse] at h2
  exact (List.dropWhile_sublist _).subset h2

theorem jsTrim_spaces_append {ws : Str} (core : Str)
    (hws : ∀ c ∈ ws, jsIsSpace c = true)
    (hh : ∀ c, core.head? = some c → jsIsSpace c = false)
    (hl : ∀ c, core.getLast? = some c → jsIsSpace c = false) :
    jsTrim (ws ++ core) = core := by
  unfold jsTrim
  rw [dropWhile_append_all core hws]
  have h1 : core.dropWhile jsIsSpace = core := by
    cases core with
    | nil => simp
    | cons a t => simp [List.dropWhile, hh a rfl]
  rw [h1]
  have h2 : core.reverse.dropWhile jsIsSpace = core.reverse := by
    cases hr : core.reverse with
    | nil => simp
    | cons a t =>
      have ha : core.getLast? = some a := by
        rw [← List.head?_reverse, hr]
        rfl
      simp [List.dropWhile, hl a ha]
  rw [h2, List.reverse_reverse]

theorem structureStartMatch_ws {ws : Str} (s : Str)
    (hws : ∀ c ∈ ws, jsIsSpace c = true) :
    structureStartMatch (ws ++ s) = structureStartMatch s := by
  unfold structureStartMatch
  rw [dropWhile_append_all s hws]

theorem structureEndTest_ws {ws : Str} (s : Str)
    (hws : ∀ c ∈ ws, jsIsSpace c = true) :
    structureEndTest (ws ++ s) = structureEndTest s := by
  unfold structureEndTest
  rw [dropWhile_append_all s hws]

theorem startKwTest_ws {ws : Str} (s : Str)
    (hws : ∀ c ∈ ws, jsIsSpace c = true) :
    startKwTest (ws ++ s) = startKwTest s := by
  unfold startKwTest
  rw [dropWhile_append_all s hws]

theorem joinNl_cons_of_ne {l : Str} {L : List Str} (h : L ≠ []) :
    joinNl (l :: L) = l ++ '\n' :: joinNl L := by
  cases L with
  | nil => exact absurd rfl h
  | cons a t => rfl

theorem joinNl_flatten {L : List Str} (M : List Str) (h : L ≠ []) :
    joinNl (joinNl L :: M) = joinNl (L ++ M) := by
  induction L with
  | nil => exact absurd rfl h
  | cons a t ih =>
    cases t with
    | nil => cases M <;> rfl
    | cons b u =>
      have hbu : (b :: u : List Str) ≠ [] := by simp
      have h1 : joinNl (a :: b :: u) = a ++ '\n' :: joinNl (b :: u) :=
        joinNl_cons_of_ne hbu
      have h2 : joinNl ((a :: b :: u) ++ M) =
          a ++ '\n' :: joinNl ((b :: u) ++ M) := by
        rw [List.cons_append]
        exact joinNl_cons_of_ne (by simp)
      rw [h1, h2, ← ih hbu]
      cases M with
      | nil => rfl
      | cons m ms =>
        generalize joinNl (b :: u) = J
        rw [@joinNl_cons_of_ne (a ++ '\n' :: J) (m :: ms) (by simp),
          @joinNl_cons_of_ne J (m :: ms) (by simp)]
        simp

theorem splitNl_ne_nil (s : Str) : splitNl s ≠ [] := by
  cases s with
  | nil => simp [splitNl]
  | cons c r =>
    rw [splitNl]
    split_ifs
    · simp
    · cases h : splitNl r <;> simp

theorem splitNl_of_nlFree {l : Str} (h : nlFree l = true) : splitNl l = [l] := by
  induction l with
  | nil => rfl
  | cons c r ih =>
    rw [nlFree, List.all_cons, Bool.and_eq_true] at h
    rw [splitNl, if_neg (by simpa using h.1)]
    rw [ih h.2]

theorem splitNl_append_nl {l : Str} (r : Str) (h : nlFree l = true) :
    splitNl (l ++ '\n' :: r) = l :: splitNl r := by
  induction l with
  | nil =>
    rw [List.nil_append, splitNl, if_pos rfl]
  | cons c t ih =>
    rw [nlFree, List.all_cons, Bool.and_eq_true] at h
    rw [List.cons_append, splitNl, if_neg (by simpa using h.1),
      ih h.2]

theorem splitNl_joinNl : ∀ {L : List Str}, L ≠ [] →
    (∀ l ∈ L, nlFree l = true) → splitNl (joinNl L) = L := by
  intro L
  induction L with
  | nil => intro h; exact absurd rfl h
  | cons a t ih =>
    intro _ hl
    cases t with
    | nil => exact splitNl_of_nlFree (hl a (by simp))
    | cons b u =>
      rw [joinNl_cons_of_ne (by simp), splitNl_append_nl _ (hl a (by simp)),
        ih (by simp) (fun l hm => hl l (by simp [hm]))]

/-! ## Character-class facts -/

theorem toNat_ofNat_valid {n : Nat} (h : n < 55296) :
    (Char.ofNat n).toNat = n := by
  rw [Char.ofNat, dif_pos (Or.inl h)]
  rfl

theorem charLower_toNat (c : Char) : (charLower c).toNat =
    if 65 ≤ c.toNat ∧ c.toNat ≤ 90 then c.toNat + 32 else c.toNat := by
  rw [charLower]
  split_ifs with h
  · exact toNat_ofNat_valid (by omega)
  · rfl

theorem identChar_ranges {c : Char} (h : isIdentChar c = true) :
    (65 ≤ c.toNat ∧ c.toNat ≤ 90) ∨ (97 ≤ c.toNat ∧ c.toNat ≤ 122) ∨
    (48 ≤ c.toNat ∧ c.toNat ≤ 57) ∨ c.toNat = 95 ∨ c.toNat = 64 ∨
    c.toNat = 35 := by
  rw [isIdentChar] at h
  replace h := of_decide_eq_true h
  rcases h with h | h | rfl | rfl | rfl
  · rw [isAsciiAlpha] at h
    replace h := of_decide_eq_true h
    tauto
  · rw [isDigitChar] at h
    replace h := of_decide_eq_true h
    tauto
  · decide
  · decide
  · decide

theorem alpha_ranges {c : Char} (h : isAsciiAlpha c = true) :
    (65 ≤ c.toNat ∧ c.toNat ≤ 90) ∨ (97 ≤ c.toNat ∧ c.toNat ≤ 122) := by
  rw [isAsciiAlpha] at h
  exact of_decide_eq_true h

theorem digit_ranges {c : Char} (h : isDigitChar c = true) :
    48 ≤ c.toNat ∧ c.toNat ≤ 57 := by
  rw [isDigitChar] at h
  exact of_decide_eq_true h

theorem identChar_lower_ne_dash {c : Char} (h : isIdentChar c = true) :
    ¬ charLower c = '-' := by
  intro he
  have h2 := congrArg Char.toNat he
  rw [charLower_toNat] at h2
  have h3 : ('-').toNat = 45 := rfl
  rw [h3] at h2
  have hr := identChar_ranges h
  split_ifs at h2 <;> omega

theorem digit_misc {c : Char} (h : isDigitChar c = true) :
    ¬ c = ')' ∧ ¬ c = 'p' ∧ ¬ c = 'P' ∧ ¬ c = '\n' ∧ ¬ c = ';' ∧
      ¬ c = '*' := by
  refine ⟨?_, ?_, ?_, ?_, ?_, ?_⟩ <;> (rintro rfl; revert h; decide)

theorem alpha_not_space {c : Char} (h : isAsciiAlpha c = true) :
    jsIsSpace c = false := by
  have := alpha_ranges h
  rw [jsIsSpace]
  apply decide_eq_false
  omega

theorem alpha_misc {c : Char} (h : isAsciiAlpha c = true) :
    ¬ c = '\n' ∧ ¬ c = ';' ∧ ¬ c = '(' ∧ ¬ c = ')' := by
  refine ⟨?_, ?_, ?_, ?_⟩ <;> (rintro rfl; revert h; decide)

/-! ## Per-format keyword facts -/

theorem eatKwCI_nil (s : Str) : eatKwCI [] s = some s := by rw [eatKwCI]

theorem eatKwCI_step {kw s : Str} {k c : Char} {ks cs : Str}
    (hkw : kw = k :: ks) (hs : s = c :: cs) (h : charLower c = k) :
    eatKwCI kw s = eatKwCI ks cs := by
  subst hkw
  subst hs
  rw [eatKwCI, if_pos h]

theorem eatKwCI_fail {kw s : Str} {k c : Char} {ks cs : Str}
    (hkw : kw = k :: ks) (hs : s = c :: cs) (h : ¬ charLower c = k) :
    eatKwCI kw s = none := by
  subst hkw
  subst hs
  rw [eatKwCI, if_neg h]

theorem eat_dclds (fmt : StructureFormat) (t : Str) :
    eatKwCI (str "dcl-ds") ((FORMAT_MAP fmt).dclds ++ t) = some t := by
  have h : str "dcl-ds" = lcStr (FORMAT_MAP fmt).dclds := by
    cases fmt <;> decide
  rw [h]
  exact eatKwCI_append t

theorem eat_endds (fmt : StructureFormat) (t : Str) :
    eatKwCI (str "end-ds") ((FORMAT_MAP fmt).endds ++ t) = some t := by
  have h : str "end-ds" = lcStr (FORMAT_MAP fmt).endds := by
    cases fmt <;> decide
  rw [h]
  exact eatKwCI_append t

theorem eat_inz (fmt : StructureFormat) (t : Str) :
    eatKwCI (str "inz") ((FORMAT_MAP fmt).inz ++ t) = some t := by
  have h : str "inz" = lcStr (FORMAT_MAP fmt).inz := by
    cases fmt <;> decide
  rw [h]
  exact eatKwCI_append t

theorem eat_dim (fmt : StructureFormat) (t : Str) :
    eatKwCI (str "dim") ((FORMAT_MAP fmt).dimx ++ t) = some t := by
  have h : str "dim" = lcStr (FORMAT_MAP fmt).dimx := by
    cases fmt <;> decide
  rw [h]
  exact eatKwCI_append t

theorem eat_dclds_endds (fmt : StructureFormat) (t : Str) :
    eatKwCI (str "dcl-ds") ((FORMAT_MAP fmt).endds ++ t) = none := by
  cases fmt <;> exact eatKwCI_fail rfl rfl (by decide)

theorem eat_endds_dclds (fmt : StructureFormat) (t : Str) :
    eatKwCI (str "end-ds") ((FORMAT_MAP fmt).dclds ++ t) = none := by
  cases fmt <;> exact eatKwCI_fail rfl rfl (by decide)

theorem eat_inz_dim (fmt : StructureFormat) (t : Str) :
    eatKwCI (str "inz") ((FORMAT_MAP fmt).dimx ++ t) = none := by
  cases fmt <;> exact eatKwCI_fail rfl rfl (by decide)

theorem comment_prefix_head {s : Str} {c : Char} {cs : Str} (hs : s = c :: cs)
    (h : ('/' == c) = false) : (str "//").isPrefixOf s = false := by
  subst hs
  rw [show str "//" = '/' :: '/' :: [] from rfl, List.isPrefixOf_cons₂, h,
    Bool.false_and]

theorem comment_dclds (fmt : StructureFormat) (t : Str) :
    (str "//").isPrefixOf ((FORMAT_MAP fmt).dclds ++ t) = false := by
  cases fmt <;> exact comment_prefix_head rfl (by decide)

theorem comment_endds (fmt : StructureFormat) (t : Str) :
    (str "//").isPrefixOf ((FORMAT_MAP fmt).endds ++ t) = false := by
  cases fmt <;> exact comment_prefix_head rfl (by decide)

theorem dclds_head_not_space (fmt : StructureFormat) (t : Str) :
    ∀ c, ((FORMAT_MAP fmt).dclds ++ t).head? = some c → jsIsSpace c = false := by
  cases fmt
  all_goals intro c hc
  · have h2 : some 'd' = some c := hc
    cases h2; decide
  · have h2 : some 'D' = some c := hc
    cases h2; decide
  · have h2 : some 'D' = some c := hc
    cases h2; decide

theorem endds_head_not_space (fmt : StructureFormat) (t : Str) :
    ∀ c, ((FORMAT_MAP fmt).endds ++ t).head? = some c → jsIsSpace c = false := by
  cases fmt
  all_goals intro c hc
  · have h2 : some 'e' = some c := hc
    cases h2; decide
  · have h2 : some 'E' = some c := hc
    cases h2; decide
  · have h2 : some 'E' = some c := hc
    cases h2; decide

theorem eatKwCI_ident_space {k0 k1 k2 : Char} {krest : Str}
    (hk1 : ¬ (' ' : Char) = k1) (hk2 : ¬ (' ' : Char) = k2) :
    ∀ {name r : Str}, name ≠ [] → (∀ c ∈ name, isIdentChar c = true) →
    eatKwCI (k0 :: k1 :: k2 :: '-' :: krest) (name ++ ' ' :: r) = none := by
  have hsp : charLower ' ' = ' ' := by decide
  intro name r hne hid
  match name with
  | [c0] =>
    simp only [List.cons_append, List.nil_append]
    rw [eatKwCI]
    split_ifs with h0
    · exact eatKwCI_fail rfl rfl (by rw [hsp]; exact hk1)
    · rfl
  | [c0, c1] =>
    simp only [List.cons_append, List.nil_append]
    rw [eatKwCI]
    split_ifs with h0
    · rw [eatKwCI]
      split_ifs with h1
      · exact eatKwCI_fail rfl rfl (by rw [hsp]; exact hk2)
      · rfl
    · rfl
  | [c0, c1, c2] =>
    simp only [List.cons_append, List.nil_append]
    rw [eatKwCI]
    split_ifs with h0
    · rw [eatKwCI]
      split_ifs with h1
      · rw [eatKwCI]
        split_ifs with h2
        · exact eatKwCI_fail rfl rfl (by rw [hsp]; decide)
        · rfl
      · rfl
    · rfl
  | c0 :: c1 :: c2 :: c3 :: rest0 =>
    simp only [List.cons_append]
    rw [eatKwCI]
    split_ifs with h0
    · rw [eatKwCI]
      split_ifs with h1
      · rw [eatKwCI]
        split_ifs with h2
        · exact eatKwCI_fail rfl rfl
            (identChar_lower_ne_dash (hid c3 (by simp)))
        · rfl
      · rfl
    · rfl

theorem eat_dclds_ident {name r : Str} (hne : name ≠ [])
    (hid : ∀ c ∈ name, isIdentChar c = true) :
    eatKwCI (str "dcl-ds") (name ++ ' ' :: r) = none := by
  rw [show str "dcl-ds" = 'd' :: 'c' :: 'l' :: '-' :: ('d' :: 's' :: []) from rfl]
  exact eatKwCI_ident_space (by decide) (by decide) hne hid

theorem eat_endds_ident {name r : Str} (hne : name ≠ [])
    (hid : ∀ c ∈ name, isIdentChar c = true) :
    eatKwCI (str "end-ds") (name ++ ' ' :: r) = none := by
  rw [show str "end-ds" = 'e' :: 'n' :: 'd' :: '-' :: ('d' :: 's' :: []) from rfl]
  exact eatKwCI_ident_space (by decide) (by decide) hne hid

theorem star_prefix_digit {p r : Str} {d : Char} (h : isDigitChar d = true) :
    ('*' :: p).isPrefixOf (d :: r) = false := by
  rw [List.isPrefixOf_cons₂]
  have h2 : ('*' == d) = false := by
    apply beq_false_of_ne
    rintro rfl
    revert h
    decide
  rw [h2, Bool.false_and]

theorem comment_prefix_ident {c : Char} (r : Str) (h : isIdentStart c = true) :
    (str "//").isPrefixOf (c :: r) = false := by
  apply comment_prefix_head rfl
  apply beq_false_of_ne
  rintro rfl
  revert h
  decide

theorem tag_roundtrip (fmt : StructureFormat) (tag : Str)
    (h : tag ∈ canonicalTags) :
    ∃ cased : Str,
      (FORMAT_MAP fmt).typeMap.find? (fun e => e.1 = tag) = some (tag, cased) ∧
      cased ≠ [] ∧ (∀ c ∈ cased, isAsciiAlpha c = true) ∧
      (∀ r, eatKwCI (str "likeds") (cased ++ r) = none) ∧
      (∀ r, eatKwCI (str "template") (cased ++ r) = none) ∧
      (FORMAT_MAP fmt).typeMap.find? (fun e => lcStr e.2 = lcStr cased) =
        some (tag, cased) := by
  rw [canonicalTags] at h
  fin_cases h <;> cases fmt <;>
    refine ⟨_, rfl, by decide, by decide, fun r => ?_, fun r => ?_, rfl⟩ <;>
    first
      | exact eatKwCI_fail rfl rfl (by decide)
      | exact (eatKwCI_step rfl rfl (by decide)).trans
          (eatKwCI_fail rfl rfl (by decide))

/-! ## Capture-group and numeral lemmas -/

theorem bne_of_ne {c d : Char} (h : ¬ c = d) : (c != d) = true := by
  simpa [bne_iff_ne] using h

theorem parenCapture_some {cap r : Str} (hne : cap ≠ [])
    (hnp : ∀ c ∈ cap, ¬ c = ')') :
    parenCapture ('(' :: (cap ++ ')' :: r)) = some (cap, r) := by
  have hb : ∀ c ∈ cap, (c != ')') = true := fun c hc => bne_of_ne (hnp c hc)
  rw [parenCapture]
  rw [takeWhile_append_not ')' r hb (by decide),
    dropWhile_append_not ')' r hb (by decide)]
  rw [if_neg hne]
  rfl

theorem parenCapture_fail {c : Char} (cs : Str) (hc : ¬ c = '(') :
    parenCapture (c :: cs) = none := by
  rw [parenCapture.eq_def]
  split
  · rename_i s h
    exfalso
    injection h with h1 h2
    exact hc h1
  · rfl

theorem digitChar_toNat {d : Nat} (h : d < 10) : (digitChar d).toNat = 48 + d := by
  rw [digitChar]
  exact toNat_ofNat_valid (by omega)

theorem natRepr_digits {n : Nat} : ∀ c ∈ natRepr n, isDigitChar c = true := by
  intro c hc
  rw [natRepr] at hc
  split_ifs at hc
  · simp at hc
    subst hc
    decide
  · rw [List.mem_map] at hc
    obtain ⟨d, hd, rfl⟩ := hc
    rw [List.mem_reverse] at hd
    have hlt : d < 10 := Nat.digits_lt_base (by omega) hd
    interval_cases d <;> decide

theorem natRepr_ne_nil (n : Nat) : natRepr n ≠ [] := by
  rw [natRepr]
  split_ifs with h
  · simp
  · intro hh
    cases hd : Nat.digits 10 n with
    | nil => exact h (Nat.digits_eq_nil_iff_eq_zero.mp hd)
    | cons a l =>
      rw [hd] at hh
      simp at hh

theorem digitsVal_append_single (A : Str) (c : Char) :
    digitsVal (A ++ [c]) = 10 * digitsVal A + (c.toNat - 48) := by
  rw [digitsVal, digitsVal, List.foldl_append]
  rfl

theorem digitsVal_natRepr (n : Nat) : digitsVal (natRepr n) = n := by
  rw [natRepr]
  split_ifs with h
  · subst h
    decide
  · have key : ∀ L : List Nat, (∀ d ∈ L, d < 10) →
        digitsVal (L.reverse.map digitChar) = Nat.ofDigits 10 L := by
      intro L
      induction L with
      | nil => intro _; rfl
      | cons d L ih =>
        intro hd
        rw [List.reverse_cons, List.map_append, List.map_singleton,
          digitsVal_append_single,
          ih (fun e he => hd e (by simp [he])),
          digitChar_toNat (hd d (by simp)), Nat.ofDigits_cons]
        omega
    rw [key _ (fun d hd => Nat.digits_lt_base (by omega) hd),
      Nat.ofDigits_digits]

theorem jsParseInt_digits {c : Char} {cs : Str}
    (hdig : ∀ x ∈ c :: cs, isDigitChar x = true) :
    jsParseInt (c :: cs) = some (digitsVal (c :: cs) : Int) := by
  have hc := hdig c (by simp)
  simp only [jsParseInt]
  rw [show (c :: cs).dropWhile jsIsSpace = c :: cs from by
    rw [List.dropWhile_cons, digit_not_space hc]; simp]
  have hsign : (match c :: cs with
      | '-' :: r => ((-1 : Int), r)
      | '+' :: r => ((1 : Int), r)
      | x => ((1 : Int), c :: cs)) = ((1 : Int), c :: cs) := by
    split
    · rename_i r heq
      exfalso
      injection heq with h1 h2
      rw [h1] at hc
      revert hc
      decide
    · rename_i r heq
      exfalso
      injection heq with h1 h2
      rw [h1] at hc
      revert hc
      decide
    · rfl
  rw [hsign, takeWhile_all hdig, if_neg (by simp)]
  simp

theorem jsParseInt_intRepr {d : Int} (h : 0 < d) :
    jsParseInt (intRepr d) = some d := by
  rw [intRepr, if_neg (by omega)]
  cases hN : natRepr d.natAbs with
  | nil => exact absurd hN (natRepr_ne_nil _)
  | cons c cs =>
    rw [jsParseInt_digits (by rw [← hN]; exact @natRepr_digits d.natAbs),
      ← hN, digitsVal_natRepr, Int.natAbs_of_nonneg (by omega)]

/-! ## Extracting the §3 invariants -/

theorem head?_mem_str {s : Str} {c : Char} (h : s.head? = some c) : c ∈ s := by
  cases s with
  | nil => simp at h
  | cons a t =>
    simp at h
    subst h
    simp

theorem getLast?_mem_str {s : Str} {c : Char} (h : s.getLast? = some c) :
    c ∈ s := by
  rw [← List.head?_reverse] at h
  have h2 : c ∈ s.reverse := head?_mem_str h
  simpa using h2

theorem identOk_facts {s : Str} (h : identOkB s = true) :
    s ≠ [] ∧ (∀ c ∈ s, isIdentChar c = true) ∧
    (∀ c, s.head? = some c → isIdentStart c = true) := by
  cases s with
  | nil =>
    rw [identOkB] at h
    simp at h
  | cons c rest =>
    rw [identOkB] at h
    obtain ⟨h1, h2⟩ := of_decide_eq_true h
    refine ⟨by simp, ?_, ?_⟩
    · intro x hx
      rcases List.mem_cons.mp hx with rfl | hx2
      · exact identStart_identChar h1
      · exact List.all_eq_true.mp h2 x hx2
    · intro x hx
      simp at hx
      subst hx
      exact h1

theorem digitsOk_facts {s : Str} (h : digitsOkB s = true) :
    s ≠ [] ∧ ∀ c ∈ s, isDigitChar c = true := by
  rw [digitsOkB] at h
  obtain ⟨h1, h2⟩ := of_decide_eq_true h
  exact ⟨h1, fun c hc => List.all_eq_true.mp h2 c hc⟩

theorem lengthOk_chars {tag len : Str} (h : lengthOkB tag len = true) :
    len ≠ [] ∧ ∀ c ∈ len, isDigitChar c = true ∨ c = ':' := by
  have hsplit : len.takeWhile isDigitChar ++ len.dropWhile isDigitChar = len := by
    simp
  rw [lengthOkB] at h
  split_ifs at h with h1
  · replace h := of_decide_eq_true h
    rcases h with h | h
    · obtain ⟨hne, hall⟩ := digitsOk_facts h
      exact ⟨hne, fun c hc => Or.inl (hall c hc)⟩
    · rw [decPairOkB] at h
      obtain ⟨hreg, _⟩ := of_decide_eq_true h
      rw [decimalRegexTest] at hreg
      split at hreg
      · rename_i rest hdw
        obtain ⟨hw, hrne, hrall⟩ := of_decide_eq_true hreg
        constructor
        · intro hlen
          rw [hlen] at hw
          simp at hw
        · intro c hc
          rw [← hsplit, hdw] at hc
          rcases List.mem_append.mp hc with h2 | h2
          · exact Or.inl (List.mem_takeWhile_imp h2)
          · rcases List.mem_cons.mp h2 with rfl | h3
            · exact Or.inr rfl
            · exact Or.inl (List.all_eq_true.mp hrall c h3)
      · simp at hreg
  · obtain ⟨hne, hall⟩ := digitsOk_facts h
    exact ⟨hne, fun c hc => Or.inl (hall c hc)⟩

theorem initOk_facts {tag ini : Str} (h : initOkB tag ini = true) :
    ini ≠ [] ∧ (∀ c ∈ ini, ¬ c = ')' ∧ ¬ c = '\n') ∧
    (∀ c, ini.head? = some c → jsIsSpace c = false) ∧
    (∀ c, ini.getLast? = some c → jsIsSpace c = false) := by
  have digitsCase : digitsOkB ini = true → ini ≠ [] ∧
      (∀ c ∈ ini, ¬ c = ')' ∧ ¬ c = '\n') ∧
      (∀ c, ini.head? = some c → jsIsSpace c = false) ∧
      (∀ c, ini.getLast? = some c → jsIsSpace c = false) := by
    intro hd
    obtain ⟨hne, hall⟩ := digitsOk_facts hd
    refine ⟨hne, ?_, ?_, ?_⟩
    · intro c hc
      have := digit_misc (hall c hc)
      tauto
    · intro c hc
      exact digit_not_space (hall c (head?_mem_str hc))
    · intro c hc
      exact digit_not_space (hall c (getLast?_mem_str hc))
  rw [initOkB] at h
  split_ifs at h with h1 h2 h3 h4
  · -- character literal
    cases ini with
    | nil =>
      rw [charLiteralOkB] at h
      simp at h
    | cons q rest =>
      rw [charLiteralOkB] at h
      obtain ⟨hq, hrne, hlast, hbody⟩ := of_decide_eq_true h
      have hrest : rest = rest.dropLast ++ [quoteChar] := by
        conv_lhs => rw [← List.dropLast_append_getLast hrne]
        have : rest.getLast hrne = quoteChar := by
          have h2 := List.getLast?_eq_getLast rest hrne
          rw [h2] at hlast
          injection hlast
        rw [this]
      refine ⟨by simp, ?_, ?_, ?_⟩
      · intro c hc
        rcases List.mem_cons.mp hc with rfl | hc2
        · rw [hq]
          constructor <;> decide
        · rw [hrest] at hc2
          rcases List.mem_append.mp hc2 with h2 | h2
          · have h3 := List.all_eq_true.mp hbody c h2
            have h4 := of_decide_eq_true h3
            tauto
          · simp at h2
            subst h2
            constructor <;> decide
      · intro c hc
        simp at hc
        subst hc
        rw [hq]
        decide
      · intro c hc
        cases rest with
        | nil => exact absurd rfl hrne
        | cons b t =>
          rw [List.getLast?_cons_cons] at hc
          rw [hlast] at hc
          injection hc with h5
          subst h5
          decide
  · -- ind literals
    replace h := of_decide_eq_true h
    rcases h with rfl | rfl | rfl | rfl
    · exact ⟨by decide, by decide,
        fun c hc => by injection (show some '1' = some c from hc) with h3; cases h3; decide,
        fun c hc => by injection (show some '1' = some c from hc) with h3; cases h3; decide⟩
    · exact ⟨by decide, by decide,
        fun c hc => by injection (show some '0' = some c from hc) with h3; cases h3; decide,
        fun c hc => by injection (show some '0' = some c from hc) with h3; cases h3; decide⟩
    · exact ⟨by decide, by decide,
        fun c hc => by injection (show some '*' = some c from hc) with h3; cases h3; decide,
        fun c hc => by injection (show some 'n' = some c from hc) with h3; cases h3; decide⟩
    · exact ⟨by decide, by decide,
        fun c hc => by injection (show some '*' = some c from hc) with h3; cases h3; decide,
        fun c hc => by injection (show some 'f' = some c from hc) with h3; cases h3; decide⟩
  · -- decimal literal
    rw [decimalLitOkB] at h
    rw [Bool.and_eq_true] at h
    obtain ⟨hw, hrest⟩ := h
    have hsplit : ini.takeWhile isDigitChar ++ ini.dropWhile isDigitChar = ini := by
      simp
    have hchars : ∀ c ∈ ini, isDigitChar c = true ∨ c = '.' := by
      intro c hc
      rw [← hsplit] at hc
      rcases List.mem_append.mp hc with h2 | h2
      · exact Or.inl (List.mem_takeWhile_imp h2)
      · split at hrest
        · rename_i hdw
          rw [hdw] at h2
          simp at h2
        · rename_i rest hdw
          rw [hdw] at h2
          rcases List.mem_cons.mp h2 with rfl | h3
          · exact Or.inr rfl
          · rw [Bool.and_eq_true] at hrest
            exact Or.inl (List.all_eq_true.mp hrest.2 c h3)
        · simp at hrest
    have hnsp : ∀ c ∈ ini, jsIsSpace c = false := by
      intro c hc
      rcases hchars c hc with h2 | rfl
      · exact digit_not_space h2
      · decide
    have hne : ini ≠ [] := by
      intro hn
      rw [hn] at hw
      simp at hw
    refine ⟨hne, ?_, ?_, ?_⟩
    · intro c hc
      rcases hchars c hc with h2 | rfl
      · have := digit_misc h2
        tauto
      · constructor <;> decide
    · intro c hc
      exact hnsp c (head?_mem_str hc)
    · intro c hc
      exact hnsp c (getLast?_mem_str hc)
  · exact digitsCase h

theorem wfFields_cons {f : Field} {rest : List Field}
    (h : wfFieldsB (f :: rest) = true) :
    wfFieldsB rest = true ∧
    (f.isStructure = true → f.type = [] ∧ identOkB f.name = true ∧
      (∀ l, f.length = some l → digitsOkB l = true) ∧ f.init = none ∧
      f.dim = none ∧ wfFieldsB f.fields = true) ∧
    (f.isStructure = false → identOkB f.name = true ∧
      f.type ∈ canonicalTags ∧
      (∀ l, f.length = some l → lengthOkB f.type l = true) ∧
      (∀ i, f.init = some i → initOkB f.type i = true) ∧
      (∀ d, f.dim = some d → 0 < d) ∧ f.fields = []) := by
  rw [wfFieldsB, Bool.and_eq_true] at h
  obtain ⟨h1, h2⟩ := h
  refine ⟨h2, ?_, ?_⟩
  · intro hs
    rw [if_pos hs] at h1
    simp only [Bool.and_eq_true] at h1
    obtain ⟨⟨⟨⟨⟨ht, hn⟩, hl⟩, hi⟩, hd⟩, hf⟩ := h1
    refine ⟨by simpa using ht, hn, ?_, by simpa using hi, by simpa using hd, hf⟩
    intro l hl2
    rw [hl2] at hl
    exact hl
  · intro hs
    rw [if_neg (by simp [hs])] at h1
    simp only [Bool.and_eq_true] at h1
    obtain ⟨⟨⟨⟨⟨hn, ht⟩, hl⟩, hi⟩, hd⟩, hf⟩ := h1
    refine ⟨hn, of_decide_eq_true ht, ?_, ?_, ?_, by simpa using hf⟩
    · intro l hl2
      rw [hl2] at hl
      exact hl
    · intro i hi2
      rw [hi2] at hi
      exact hi
    · intro d hd2
      rw [hd2] at hd
      exact of_decide_eq_true hd

theorem wfHeader_facts {h : Header} (hw : wfHeaderB h = true) :
    identOkB h.name = true ∧
    (h.type = tDefault ∧ digitsOkB h.dimension = true ∨
     h.type = tTemplate ∧ h.dimension = str "0" ∨
     (h.type = tVar ∨ h.type = tAuto) ∧ digitsOkB h.dimension = true) := by
  rw [wfHeaderB] at hw
  obtain ⟨hn, hrest⟩ := of_decide_eq_true hw
  refine ⟨hn, ?_⟩
  split_ifs at hrest with a b c
  · exact Or.inl ⟨a, hrest⟩
  · exact Or.inr (Or.inl ⟨b, of_decide_eq_true hrest⟩)
  · exact Or.inr (Or.inr ⟨c, hrest⟩)
theorem jsTrim_ends {s : Str} (hh : ∀ c, s.head? = some c → jsIsSpace c = false)
    (hl : ∀ c, s.getLast? = some c → jsIsSpace c = false) : jsTrim s = s := by
  have h2 := @jsTrim_spaces_append [] s (by simp) hh hl
  simpa using h2

theorem fieldMatch_split {name s3 : Str} (hne : name ≠ [])
    (hid : ∀ c ∈ name, isIdentChar c = true)
    (hstart : ∀ c, name.head? = some c → isIdentStart c = true)
    {t0 : Char} {ts : Str} (hs3 : s3 = t0 :: ts) (ht0 : jsIsSpace t0 = false) :
    fieldMatch (name ++ ' ' :: s3) = fieldMatchTail name s3 := by
  obtain ⟨n0, nrest, rfl⟩ : ∃ n0 nrest, name = n0 :: nrest := by
    cases name with
    | nil => exact absurd rfl hne
    | cons a b => exact ⟨a, b, rfl⟩
  have hstart0 := hstart n0 rfl
  have hs1 : ((n0 :: nrest) ++ ' ' :: s3).dropWhile jsIsSpace =
      n0 :: (nrest ++ ' ' :: s3) := by
    rw [List.cons_append, List.dropWhile_cons, identStart_not_space hstart0]
    simp
  have htake : ((n0 :: nrest) ++ ' ' :: s3).takeWhile isIdentChar =
      n0 :: nrest := takeWhile_append_not ' ' s3 hid (by decide)
  have hdrop : ((n0 :: nrest) ++ ' ' :: s3).dropWhile isIdentChar =
      ' ' :: s3 := dropWhile_append_not ' ' s3 hid (by decide)
  have htk2 : (' ' :: s3).takeWhile jsIsSpace = [' '] := by
    rw [List.takeWhile_cons, show jsIsSpace ' ' = true from by decide, hs3,
      List.takeWhile_cons, ht0]
    simp
  have hdr2 : (' ' :: s3).dropWhile jsIsSpace = s3 := by
    rw [List.dropWhile_cons, show jsIsSpace ' ' = true from by decide, hs3,
      List.dropWhile_cons, ht0]
    simp
  rw [fieldMatch]
  rw [List.cons_append] at hs1 htake hdrop ⊢
  simp only [hs1, htake, hdrop, htk2, hdr2, hstart0, if_true]
  rw [fieldMatchTail]
theorem dropWhile_not_head {s : Str} {c : Char} {cs : Str} (hs : s = c :: cs)
    (hc : jsIsSpace c = false) : s.dropWhile jsIsSpace = s := by
  subst hs
  rw [List.dropWhile_cons, hc]
  simp

theorem fieldMatchTail_eval (fmt : StructureFormat) (name cased : Str)
    (lp ip dp : Str) (lenO iniO dimO : Option Str)
    (hlp : lp = match lenO with
      | some l => '(' :: (l ++ [')'])
      | none => [])
    (hip : ip = match iniO with
      | some i => ' ' :: ((FORMAT_MAP fmt).inz ++ ('(' :: (i ++ [')'])))
      | none => [])
    (hdp : dp = match dimO with
      | some d => ' ' :: ((FORMAT_MAP fmt).dimx ++ ('(' :: (d ++ [')'])))
      | none => [])
    (hcne : cased ≠ []) (hcal : ∀ c ∈ cased, isAsciiAlpha c = true)
    (hl : ∀ x, lenO = some x → x ≠ [] ∧ ∀ c ∈ x, ¬ c = ')')
    (hi : ∀ x, iniO = some x → x ≠ [] ∧ ∀ c ∈ x, ¬ c = ')')
    (hd : ∀ x, dimO = some x → x ≠ [] ∧ ∀ c ∈ x, ¬ c = ')') :
    fieldMatchTail name (cased ++ (lp ++ (ip ++ (dp ++ [';'])))) =
      some ⟨name, cased, lenO, iniO, dimO⟩ := by
  rcases lenO with _ | l <;> rcases iniO with _ | i <;> rcases dimO with _ | d
  ·
    have hlp2 : lp = [] := hlp
    have hip2 : ip = [] := hip
    have hdp2 : dp = [] := hdp
    subst hlp2
    subst hip2
    subst hdp2
    have h1 : (cased ++ [';']).takeWhile isAsciiAlpha = cased :=
      takeWhile_append_not ';' _ hcal (by decide)
    have h2 : (cased ++ [';']).dropWhile isAsciiAlpha = [';'] :=
      dropWhile_append_not ';' _ hcal (by decide)
    have h3 : parenCapture ([';']) = none :=
      parenCapture_fail _ (by decide)
    have h4 : ([';']).dropWhile jsIsSpace = ([';'] : Str) := by
      rfl
    have h5 : eatKwCI (str "inz") ([';'] : Str) = none :=
      eatKwCI_fail rfl rfl (by decide)
    have h7 : ([';'] : Str).dropWhile jsIsSpace = [';'] := rfl
    have h8 : eatKwCI (str "dim") ([';'] : Str) = none :=
      eatKwCI_fail rfl rfl (by decide)
    have h10 : ([';'] : Str).dropWhile jsIsSpace = [';'] := rfl
    simp only [fieldMatchTail, List.append_assoc, List.cons_append,
      List.nil_append, if_neg hcne, h1, h2, h3, h4, h5, h7, h8, h10]
  ·
    have hlp2 : lp = [] := hlp
    have hip2 : ip = [] := hip
    have hdp2 : dp = ' ' :: ((FORMAT_MAP fmt).dimx ++ ('(' :: (d ++ [')']))) := hdp
    subst hlp2
    subst hip2
    subst hdp2
    obtain ⟨hdne, hdch⟩ := hd d rfl
    have h1 : (cased ++ ' ' :: ((FORMAT_MAP fmt).dimx ++ '(' :: (d ++ ')' :: [';']))).takeWhile isAsciiAlpha = cased :=
      takeWhile_append_not ' ' _ hcal (by decide)
    have h2 : (cased ++ ' ' :: ((FORMAT_MAP fmt).dimx ++ '(' :: (d ++ ')' :: [';']))).dropWhile isAsciiAlpha = ' ' :: ((FORMAT_MAP fmt).dimx ++ '(' :: (d ++ ')' :: [';'])) :=
      dropWhile_append_not ' ' _ hcal (by decide)
    have h3 : parenCapture (' ' :: ((FORMAT_MAP fmt).dimx ++ '(' :: (d ++ ')' :: [';']))) = none :=
      parenCapture_fail _ (by decide)
    have h4 : (' ' :: ((FORMAT_MAP fmt).dimx ++ '(' :: (d ++ ')' :: [';']))).dropWhile jsIsSpace = (FORMAT_MAP fmt).dimx ++ '(' :: (d ++ ')' :: [';']) := by
      rw [List.dropWhile_cons]
      simp only [show jsIsSpace ' ' = true from by decide, if_true]
      cases fmt <;> exact dropWhile_not_head rfl (by decide)
    have h5 : eatKwCI (str "inz") ((FORMAT_MAP fmt).dimx ++ '(' :: (d ++ ')' :: [';'])) = none :=
      eat_inz_dim fmt _
    have h7 : ((FORMAT_MAP fmt).dimx ++ '(' :: (d ++ ')' :: [';'])).dropWhile jsIsSpace = (FORMAT_MAP fmt).dimx ++ '(' :: (d ++ ')' :: [';']) := by
      cases fmt <;> exact dropWhile_not_head rfl (by decide)
    have h8 : eatKwCI (str "dim") ((FORMAT_MAP fmt).dimx ++ '(' :: (d ++ ')' :: [';'])) =
        some ('(' :: (d ++ ')' :: [';'])) := eat_dim fmt _
    have h9 : parenCapture ('(' :: (d ++ ')' :: [';'])) =
        some (d, [';']) := parenCapture_some hdne hdch
    have h10 : ([';'] : Str).dropWhile jsIsSpace = [';'] := rfl
    simp only [fieldMatchTail, List.append_assoc, List.cons_append,
      List.nil_append, if_neg hcne, h1, h2, h3, h4, h5, h7, h8, h9, h10]
  ·
    have hlp2 : lp = [] := hlp
    have hip2 : ip = ' ' :: ((FORMAT_MAP fmt).inz ++ ('(' :: (i ++ [')']))) := hip
    have hdp2 : dp = [] := hdp
    subst hlp2
    subst hip2
    subst hdp2
    obtain ⟨hine, hich⟩ := hi i rfl
    have h1 : (cased ++ ' ' :: ((FORMAT_MAP fmt).inz ++ '(' :: (i ++ ')' :: [';']))).takeWhile isAsciiAlpha = cased :=
      takeWhile_append_not ' ' _ hcal (by decide)
    have h2 : (cased ++ ' ' :: ((FORMAT_MAP fmt).inz ++ '(' :: (i ++ ')' :: [';']))).dropWhile isAsciiAlpha = ' ' :: ((FORMAT_MAP fmt).inz ++ '(' :: (i ++ ')' :: [';'])) :=
      dropWhile_append_not ' ' _ hcal (by decide)
    have h3 : parenCapture (' ' :: ((FORMAT_MAP fmt).inz ++ '(' :: (i ++ ')' :: [';']))) = none :=
      parenCapture_fail _ (by decide)
    have h4 : (' ' :: ((FORMAT_MAP fmt).inz ++ '(' :: (i ++ ')' :: [';']))).dropWhile jsIsSpace = (FORMAT_MAP fmt).inz ++ '(' :: (i ++ ')' :: [';']) := by
      rw [List.dropWhile_cons]
      simp only [show jsIsSpace ' ' = true from by decide, if_true]
      cases fmt <;> exact dropWhile_not_head rfl (by decide)
    have h5 : eatKwCI (str "inz") ((FORMAT_MAP fmt).inz ++ '(' :: (i ++ ')' :: [';'])) =
        some ('(' :: (i ++ ')' :: [';'])) := eat_inz fmt _
    have h6 : parenCapture ('(' :: (i ++ ')' :: [';'])) =
        some (i, [';']) := parenCapture_some hine hich
    have h7 : ([';'] : Str).dropWhile jsIsSpace = [';'] := rfl
    have h8 : eatKwCI (str "dim") ([';'] : Str) = none :=
      eatKwCI_fail rfl rfl (by decide)
    have h10 : ([';'] : Str).dropWhile jsIsSpace = [';'] := rfl
    simp only [fieldMatchTail, List.append_assoc, List.cons_append,
      List.nil_append, if_neg hcne, h1, h2, h3, h4, h5, h6, h7, h8, h10]
  ·
    have hlp2 : lp = [] := hlp
    have hip2 : ip = ' ' :: ((FORMAT_MAP fmt).inz ++ ('(' :: (i ++ [')']))) := hip
    have hdp2 : dp = ' ' :: ((FORMAT_MAP fmt).dimx ++ ('(' :: (d ++ [')']))) := hdp
    subst hlp2
    subst hip2
    subst hdp2
    obtain ⟨hine, hich⟩ := hi i rfl
    obtain ⟨hdne, hdch⟩ := hd d rfl
    have h1 : (cased ++ ' ' :: ((FORMAT_MAP fmt).inz ++ '(' :: (i ++ ')' :: ' ' :: ((FORMAT_MAP fmt).dimx ++ '(' :: (d ++ ')' :: [';']))))).takeWhile isAsciiAlpha = cased :=
      takeWhile_append_not ' ' _ hcal (by decide)
    have h2 : (cased ++ ' ' :: ((FORMAT_MAP fmt).inz ++ '(' :: (i ++ ')' :: ' ' :: ((FORMAT_MAP fmt).dimx ++ '(' :: (d ++ ')' :: [';']))))).dropWhile isAsciiAlpha = ' ' :: ((FORMAT_MAP fmt).inz ++ '(' :: (i ++ ')' :: ' ' :: ((FORMAT_MAP fmt).dimx ++ '(' :: (d ++ ')' :: [';'])))) :=
      dropWhile_append_not ' ' _ hcal (by decide)
    have h3 : parenCapture (' ' :: ((FORMAT_MAP fmt).inz ++ '(' :: (i ++ ')' :: ' ' :: ((FORMAT_MAP fmt).dimx ++ '(' :: (d ++ ')' :: [';']))))) = none :=
      parenCapture_fail _ (by decide)
    have h4 : (' ' :: ((FORMAT_MAP fmt).inz ++ '(' :: (i ++ ')' :: ' ' :: ((FORMAT_MAP fmt).dimx ++ '(' :: (d ++ ')' :: [';']))))).dropWhile jsIsSpace = (FORMAT_MAP fmt).inz ++ '(' :: (i ++ ')' :: ' ' :: ((FORMAT_MAP fmt).dimx ++ '(' :: (d ++ ')' :: [';']))) := by
      rw [List.dropWhile_cons]
      simp only [show jsIsSpace ' ' = true from by decide, if_true]
      cases fmt <;> exact dropWhile_not_head rfl (by decide)
    have h5 : eatKwCI (str "inz") ((FORMAT_MAP fmt).inz ++ '(' :: (i ++ ')' :: ' ' :: ((FORMAT_MAP fmt).dimx ++ '(' :: (d ++ ')' :: [';'])))) =
        some ('(' :: (i ++ ')' :: ' ' :: ((FORMAT_MAP fmt).dimx ++ '(' :: (d ++ ')' :: [';'])))) := eat_inz fmt _
    have h6 : parenCapture ('(' :: (i ++ ')' :: ' ' :: ((FORMAT_MAP fmt).dimx ++ '(' :: (d ++ ')' :: [';'])))) =
        some (i, ' ' :: ((FORMAT_MAP fmt).dimx ++ '(' :: (d ++ ')' :: [';']))) := parenCapture_some hine hich
    have h7 : (' ' :: ((FORMAT_MAP fmt).dimx ++ '(' :: (d ++ ')' :: [';']))).dropWhile jsIsSpace = (FORMAT_MAP fmt).dimx ++ '(' :: (d ++ ')' :: [';']) := by
      rw [List.dropWhile_cons]
      simp only [show jsIsSpace ' ' = true from by decide, if_true]
      cases fmt <;> exact dropWhile_not_head rfl (by decide)
    have h8 : eatKwCI (str "dim") ((FORMAT_MAP fmt).dimx ++ '(' :: (d ++ ')' :: [';'])) =
        some ('(' :: (d ++ ')' :: [';'])) := eat_dim fmt _
    have h9 : parenCapture ('(' :: (d ++ ')' :: [';'])) =
        some (d, [';']) := parenCapture_some hdne hdch
    have h10 : ([';'] : Str).dropWhile jsIsSpace = [';'] := rfl
    simp only [fieldMatchTail, List.append_assoc, List.cons_append,
      List.nil_append, if_neg hcne, h1, h2, h3, h4, h5, h6, h7, h8, h9, h10]
  ·
    have hlp2 : lp = '(' :: (l ++ [')']) := hlp
    have hip2 : ip = [] := hip
    have hdp2 : dp = [] := hdp
    subst hlp2
    subst hip2
    subst hdp2
    obtain ⟨hlne, hlch⟩ := hl l rfl
    have h1 : (cased ++ '(' :: (l ++ ')' :: [';'])).takeWhile isAsciiAlpha = cased :=
      takeWhile_append_not '(' _ hcal (by decide)
    have h2 : (cased ++ '(' :: (l ++ ')' :: [';'])).dropWhile isAsciiAlpha = '(' :: (l ++ ')' :: [';']) :=
      dropWhile_append_not '(' _ hcal (by decide)
    have h3 : parenCapture ('(' :: (l ++ ')' :: [';'])) = some (l, [';']) :=
      parenCapture_some hlne hlch
    have h4 : ([';']).dropWhile jsIsSpace = ([';'] : Str) := by
      rfl
    have h5 : eatKwCI (str "inz") ([';'] : Str) = none :=
      eatKwCI_fail rfl rfl (by decide)
    have h7 : ([';'] : Str).dropWhile jsIsSpace = [';'] := rfl
    have h8 : eatKwCI (str "dim") ([';'] : Str) = none :=
      eatKwCI_fail rfl rfl (by decide)
    have h10 : ([';'] : Str).dropWhile jsIsSpace = [';'] := rfl
    simp only [fieldMatchTail, List.append_assoc, List.cons_append,
      List.nil_append, if_neg hcne, h1, h2, h3, h4, h5, h7, h8, h10]
  ·
    have hlp2 : lp = '(' :: (l ++ [')']) := hlp
    have hip2 : ip = [] := hip
    have hdp2 : dp = ' ' :: ((FORMAT_MAP fmt).dimx ++ ('(' :: (d ++ [')']))) := hdp
    subst hlp2
    subst hip2
    subst hdp2
    obtain ⟨hlne, hlch⟩ := hl l rfl
    obtain ⟨hdne, hdch⟩ := hd d rfl
    have h1 : (cased ++ '(' :: (l ++ ')' :: ' ' :: ((FORMAT_MAP fmt).dimx ++ '(' :: (d ++ ')' :: [';'])))).takeWhile isAsciiAlpha = cased :=
      takeWhile_append_not '(' _ hcal (by decide)
    have h2 : (cased ++ '(' :: (l ++ ')' :: ' ' :: ((FORMAT_MAP fmt).dimx ++ '(' :: (d ++ ')' :: [';'])))).dropWhile isAsciiAlpha = '(' :: (l ++ ')' :: ' ' :: ((FORMAT_MAP fmt).dimx ++ '(' :: (d ++ ')' :: [';']))) :=
      dropWhile_append_not '(' _ hcal (by decide)
    have h3 : parenCapture ('(' :: (l ++ ')' :: ' ' :: ((FORMAT_MAP fmt).dimx ++ '(' :: (d ++ ')' :: [';'])))) = some (l, ' ' :: ((FORMAT_MAP fmt).dimx ++ '(' :: (d ++ ')' :: [';']))) :=
      parenCapture_some hlne hlch
    have h4 : (' ' :: ((FORMAT_MAP fmt).dimx ++ '(' :: (d ++ ')' :: [';']))).dropWhile jsIsSpace = (FORMAT_MAP fmt).dimx ++ '(' :: (d ++ ')' :: [';']) := by
      rw [List.dropWhile_cons]
      simp only [show jsIsSpace ' ' = true from by decide, if_true]
      cases fmt <;> exact dropWhile_not_head rfl (by decide)
    have h5 : eatKwCI (str "inz") ((FORMAT_MAP fmt).dimx ++ '(' :: (d ++ ')' :: [';'])) = none :=
      eat_inz_dim fmt _
    have h7 : ((FORMAT_MAP fmt).dimx ++ '(' :: (d ++ ')' :: [';'])).dropWhile jsIsSpace = (FORMAT_MAP fmt).dimx ++ '(' :: (d ++ ')' :: [';']) := by
      cases fmt <;> exact dropWhile_not_head rfl (by decide)
    have h8 : eatKwCI (str "dim") ((FORMAT_MAP fmt).dimx ++ '(' :: (d ++ ')' :: [';'])) =
        some ('(' :: (d ++ ')' :: [';'])) := eat_dim fmt _
    have h9 : parenCapture ('(' :: (d ++ ')' :: [';'])) =
        some (d, [';']) := parenCapture_some hdne hdch
    have h10 : ([';'] : Str).dropWhile jsIsSpace = [';'] := rfl
    simp only [fieldMatchTail, List.append_assoc, List.cons_append,
      List.nil_append, if_neg hcne, h1, h2, h3, h4, h5, h7, h8, h9, h10]
  ·
    have hlp2 : lp = '(' :: (l ++ [')']) := hlp
    have hip2 : ip = ' ' :: ((FORMAT_MAP fmt).inz ++ ('(' :: (i ++ [')']))) := hip
    have hdp2 : dp = [] := hdp
    subst hlp2
    subst hip2
    subst hdp2
    obtain ⟨hlne, hlch⟩ := hl l rfl
    obtain ⟨hine, hich⟩ := hi i rfl
    have h1 : (cased ++ '(' :: (l ++ ')' :: ' ' :: ((FORMAT_MAP fmt).inz ++ '(' :: (i ++ ')' :: [';'])))).takeWhile isAsciiAlpha = cased :=
      takeWhile_append_not '(' _ hcal (by decide)
    have h2 : (cased ++ '(' :: (l ++ ')' :: ' ' :: ((FORMAT_MAP fmt).inz ++ '(' :: (i ++ ')' :: [';'])))).dropWhile isAsciiAlpha = '(' :: (l ++ ')' :: ' ' :: ((FORMAT_MAP fmt).inz ++ '(' :: (i ++ ')' :: [';']))) :=
      dropWhile_append_not '(' _ hcal (by decide)
    have h3 : parenCapture ('(' :: (l ++ ')' :: ' ' :: ((FORMAT_MAP fmt).inz ++ '(' :: (i ++ ')' :: [';'])))) = some (l, ' ' :: ((FORMAT_MAP fmt).inz ++ '(' :: (i ++ ')' :: [';']))) :=
      parenCapture_some hlne hlch
    have h4 : (' ' :: ((FORMAT_MAP fmt).inz ++ '(' :: (i ++ ')' :: [';']))).dropWhile jsIsSpace = (FORMAT_MAP fmt).inz ++ '(' :: (i ++ ')' :: [';']) := by
      rw [List.dropWhile_cons]
      simp only [show jsIsSpace ' ' = true from by decide, if_true]
      cases fmt <;> exact dropWhile_not_head rfl (by decide)
    have h5 : eatKwCI (str "inz") ((FORMAT_MAP fmt).inz ++ '(' :: (i ++ ')' :: [';'])) =
        some ('(' :: (i ++ ')' :: [';'])) := eat_inz fmt _
    have h6 : parenCapture ('(' :: (i ++ ')' :: [';'])) =
        some (i, [';']) := parenCapture_some hine hich
    have h7 : ([';'] : Str).dropWhile jsIsSpace = [';'] := rfl
    have h8 : eatKwCI (str "dim") ([';'] : Str) = none :=
      eatKwCI_fail rfl rfl (by decide)
    have h10 : ([';'] : Str).dropWhile jsIsSpace = [';'] := rfl
    simp only [fieldMatchTail, List.append_assoc, List.cons_append,
      List.nil_append, if_neg hcne, h1, h2, h3, h4, h5, h6, h7, h8, h10]
  ·
    have hlp2 : lp = '(' :: (l ++ [')']) := hlp
    have hip2 : ip = ' ' :: ((FORMAT_MAP fmt).inz ++ ('(' :: (i ++ [')']))) := hip
    have hdp2 : dp = ' ' :: ((FORMAT_MAP fmt).dimx ++ ('(' :: (d ++ [')']))) := hdp
    subst hlp2
    subst hip2
    subst hdp2
    obtain ⟨hlne, hlch⟩ := hl l rfl
    obtain ⟨hine, hich⟩ := hi i rfl
    obtain ⟨hdne, hdch⟩ := hd d rfl
    have h1 : (cased ++ '(' :: (l ++ ')' :: ' ' :: ((FORMAT_MAP fmt).inz ++ '(' :: (i ++ ')' :: ' ' :: ((FORMAT_MAP fmt).dimx ++ '(' :: (d ++ ')' :: [';'])))))).takeWhile isAsciiAlpha = cased :=
      takeWhile_append_not '(' _ hcal (by decide)
    have h2 : (cased ++ '(' :: (l ++ ')' :: ' ' :: ((FORMAT_MAP fmt).inz ++ '(' :: (i ++ ')' :: ' ' :: ((FORMAT_MAP fmt).dimx ++ '(' :: (d ++ ')' :: [';'])))))).dropWhile isAsciiAlpha = '(' :: (l ++ ')' :: ' ' :: ((FORMAT_MAP fmt).inz ++ '(' :: (i ++ ')' :: ' ' :: ((FORMAT_MAP fmt).dimx ++ '(' :: (d ++ ')' :: [';']))))) :=
      dropWhile_append_not '(' _ hcal (by decide)
    have h3 : parenCapture ('(' :: (l ++ ')' :: ' ' :: ((FORMAT_MAP fmt).inz ++ '(' :: (i ++ ')' :: ' ' :: ((FORMAT_MAP fmt).dimx ++ '(' :: (d ++ ')' :: [';'])))))) = some (l, ' ' :: ((FORMAT_MAP fmt).inz ++ '(' :: (i ++ ')' :: ' ' :: ((FORMAT_MAP fmt).dimx ++ '(' :: (d ++ ')' :: [';']))))) :=
      parenCapture_some hlne hlch
    have h4 : (' ' :: ((FORMAT_MAP fmt).inz ++ '(' :: (i ++ ')' :: ' ' :: ((FORMAT_MAP fmt).dimx ++ '(' :: (d ++ ')' :: [';']))))).dropWhile jsIsSpace = (FORMAT_MAP fmt).inz ++ '(' :: (i ++ ')' :: ' ' :: ((FORMAT_MAP fmt).dimx ++ '(' :: (d ++ ')' :: [';']))) := by
      rw [List.dropWhile_cons]
      simp only [show jsIsSpace ' ' = true from by decide, if_true]
      cases fmt <;> exact dropWhile_not_head rfl (by decide)
    have h5 : eatKwCI (str "inz") ((FORMAT_MAP fmt).inz ++ '(' :: (i ++ ')' :: ' ' :: ((FORMAT_MAP fmt).dimx ++ '(' :: (d ++ ')' :: [';'])))) =
        some ('(' :: (i ++ ')' :: ' ' :: ((FORMAT_MAP fmt).dimx ++ '(' :: (d ++ ')' :: [';'])))) := eat_inz fmt _
    have h6 : parenCapture ('(' :: (i ++ ')' :: ' ' :: ((FORMAT_MAP fmt).dimx ++ '(' :: (d ++ ')' :: [';'])))) =
        some (i, ' ' :: ((FORMAT_MAP fmt).dimx ++ '(' :: (d ++ ')' :: [';']))) := parenCapture_some hine hich
    have h7 : (' ' :: ((FORMAT_MAP fmt).dimx ++ '(' :: (d ++ ')' :: [';']))).dropWhile jsIsSpace = (FORMAT_MAP fmt).dimx ++ '(' :: (d ++ ')' :: [';']) := by
      rw [List.dropWhile_cons]
      simp only [show jsIsSpace ' ' = true from by decide, if_true]
      cases fmt <;> exact dropWhile_not_head rfl (by decide)
    have h8 : eatKwCI (str "dim") ((FORMAT_MAP fmt).dimx ++ '(' :: (d ++ ')' :: [';'])) =
        some ('(' :: (d ++ ')' :: [';'])) := eat_dim fmt _
    have h9 : parenCapture ('(' :: (d ++ ')' :: [';'])) =
        some (d, [';']) := parenCapture_some hdne hdch
    have h10 : ([';'] : Str).dropWhile jsIsSpace = [';'] := rfl
    simp only [fieldMatchTail, List.append_assoc, List.cons_append,
      List.nil_append, if_neg hcne, h1, h2, h3, h4, h5, h6, h7, h8, h9, h10]
theorem generateFieldLine_shape (cfg : Config) (f : Field) (cased sub : Str)
    (hfind : (FORMAT_MAP cfg.structureFormat).typeMap.find?
      (fun e => e.1 = f.type) = some (f.type, cased))
    (hjn : jsTrim f.name = f.name)
    (hlen : ∀ l, f.length = some l → jsTrim l = l ∧ l ≠ [])
    (hini : ∀ i, f.init = some i → jsTrim i = i ∧ i ≠ []) :
    generateFieldLine f sub cfg =
      sub ++ (f.name ++ ' ' ::
        (cased ++
          ((match f.length with
            | some l => '(' :: (l ++ [')'])
            | none => []) ++
           ((match f.init with
             | some i => ' ' ::
                 ((FORMAT_MAP cfg.structureFormat).inz ++ ('(' :: (i ++ [')'])))
             | none => []) ++
            ((match f.dim.map intRepr with
              | some d => ' ' ::
                  ((FORMAT_MAP cfg.structureFormat).dimx ++ ('(' :: (d ++ [')'])))
              | none => []) ++ [';']))))) := by
  rcases hL : f.length with _ | l <;> rcases hI : f.init with _ | i <;>
    rcases hD : f.dim with _ | dd
  ·
    simp only [generateFieldLine, hfind, hL, hI, hD, hjn, Option.map_some', Option.map_none']
    simp [List.append_assoc]
  ·
    simp only [generateFieldLine, hfind, hL, hI, hD, hjn, Option.map_some', Option.map_none']
    simp [List.append_assoc]
  ·
    obtain ⟨hji, hine⟩ := hini i hI
    simp only [generateFieldLine, hfind, hL, hI, hD, hjn, hji, Option.map_some', Option.map_none']
    rw [if_neg hine]
    simp [List.append_assoc]
  ·
    obtain ⟨hji, hine⟩ := hini i hI
    simp only [generateFieldLine, hfind, hL, hI, hD, hjn, hji, Option.map_some', Option.map_none']
    rw [if_neg hine]
    simp [List.append_assoc]
  ·
    obtain ⟨hjl, hlne⟩ := hlen l hL
    simp only [generateFieldLine, hfind, hL, hI, hD, hjn, hjl, Option.map_some', Option.map_none']
    rw [if_neg hlne]
    simp [List.append_assoc]
  ·
    obtain ⟨hjl, hlne⟩ := hlen l hL
    simp only [generateFieldLine, hfind, hL, hI, hD, hjn, hjl, Option.map_some', Option.map_none']
    rw [if_neg hlne]
    simp [List.append_assoc]
  ·
    obtain ⟨hjl, hlne⟩ := hlen l hL
    obtain ⟨hji, hine⟩ := hini i hI
    simp only [generateFieldLine, hfind, hL, hI, hD, hjn, hjl, hji, Option.map_some', Option.map_none']
    rw [if_neg hlne]
    rw [if_neg hine]
    simp [List.append_assoc]
  ·
    obtain ⟨hjl, hlne⟩ := hlen l hL
    obtain ⟨hji, hine⟩ := hini i hI
    simp only [generateFieldLine, hfind, hL, hI, hD, hjn, hjl, hji, Option.map_some', Option.map_none']
    rw [if_neg hlne]
    rw [if_neg hine]
    simp [List.append_assoc]
theorem inz_not_nl (fmt : StructureFormat) :
    ∀ c ∈ (FORMAT_MAP fmt).inz, ¬ c = '\n' := by
  cases fmt <;> decide

theorem dimx_not_nl (fmt : StructureFormat) :
    ∀ c ∈ (FORMAT_MAP fmt).dimx, ¬ c = '\n' := by
  cases fmt <;> decide

theorem nlFree_iff {s : Str} : nlFree s = true ↔ ∀ c ∈ s, ¬ c = '\n' := by
  rw [nlFree, List.all_eq_true]
  constructor
  · intro h c hc
    exact of_decide_eq_true (h c hc)
  · intro h c hc
    exact decide_eq_true (h c hc)

theorem intRepr_digits {d : Int} (h : 0 < d) :
    ∀ c ∈ intRepr d, isDigitChar c = true := by
  rw [intRepr, if_neg (by omega)]
  exact natRepr_digits

theorem intRepr_ne_nil {d : Int} (h : 0 < d) : intRepr d ≠ [] := by
  rw [intRepr, if_neg (by omega)]
  exact natRepr_ne_nil _

theorem plainLine_parse (cfg : Config) (f : Field) (cased sub : Str)
    (hsub : ∀ c ∈ sub, c = ' ' ∨ c = '\t')
    (hfind : (FORMAT_MAP cfg.structureFormat).typeMap.find?
      (fun e => e.1 = f.type) = some (f.type, cased))
    (hcne : cased ≠ []) (hcal : ∀ c ∈ cased, isAsciiAlpha c = true)
    (hlik : ∀ r, eatKwCI (str "likeds") (cased ++ r) = none)
    (htpl : ∀ r, eatKwCI (str "template") (cased ++ r) = none)
    (hname : identOkB f.name = true)
    (hlenf : ∀ l, f.length = some l → lengthOkB f.type l = true)
    (hinif : ∀ i, f.init = some i → initOkB f.type i = true)
    (hdimf : ∀ d, f.dim = some d → 0 < d) :
    jsTrim (generateFieldLine f sub cfg) =
      (f.name ++ ' ' ::
      (cased ++
        ((match f.length with
          | some l => '(' :: (l ++ [')'])
          | none => []) ++
         ((match f.init with
           | some i => ' ' :: ((FORMAT_MAP cfg.structureFormat).inz ++ ('(' :: (i ++ [')'])))
           | none => []) ++
          ((match f.dim.map intRepr with
            | some d => ' ' :: ((FORMAT_MAP cfg.structureFormat).dimx ++ ('(' :: (d ++ [')'])))
            | none => []) ++ [';']))))) ∧
    (f.name ++ ' ' ::
      (cased ++
        ((match f.length with
          | some l => '(' :: (l ++ [')'])
          | none => []) ++
         ((match f.init with
           | some i => ' ' :: ((FORMAT_MAP cfg.structureFormat).inz ++ ('(' :: (i ++ [')'])))
           | none => []) ++
          ((match f.dim.map intRepr with
            | some d => ' ' :: ((FORMAT_MAP cfg.structureFormat).dimx ++ ('(' :: (d ++ [')'])))
            | none => []) ++ [';']))))) ≠ [] ∧
    (str "//").isPrefixOf (f.name ++ ' ' ::
      (cased ++
        ((match f.length with
          | some l => '(' :: (l ++ [')'])
          | none => []) ++
         ((match f.init with
           | some i => ' ' :: ((FORMAT_MAP cfg.structureFormat).inz ++ ('(' :: (i ++ [')'])))
           | none => []) ++
          ((match f.dim.map intRepr with
            | some d => ' ' :: ((FORMAT_MAP cfg.structureFormat).dimx ++ ('(' :: (d ++ [')'])))
            | none => []) ++ [';']))))) = false ∧
    structureStartMatch (f.name ++ ' ' ::
      (cased ++
        ((match f.length with
          | some l => '(' :: (l ++ [')'])
          | none => []) ++
         ((match f.init with
           | some i => ' ' :: ((FORMAT_MAP cfg.structureFormat).inz ++ ('(' :: (i ++ [')'])))
           | none => []) ++
          ((match f.dim.map intRepr with
            | some d => ' ' :: ((FORMAT_MAP cfg.structureFormat).dimx ++ ('(' :: (d ++ [')'])))
            | none => []) ++ [';']))))) = none ∧
    substructureMatch (f.name ++ ' ' ::
      (cased ++
        ((match f.length with
          | some l => '(' :: (l ++ [')'])
          | none => []) ++
         ((match f.init with
           | some i => ' ' :: ((FORMAT_MAP cfg.structureFormat).inz ++ ('(' :: (i ++ [')'])))
           | none => []) ++
          ((match f.dim.map intRepr with
            | some d => ' ' :: ((FORMAT_MAP cfg.structureFormat).dimx ++ ('(' :: (d ++ [')'])))
            | none => []) ++ [';']))))) = none ∧
    fieldMatch (f.name ++ ' ' ::
      (cased ++
        ((match f.length with
          | some l => '(' :: (l ++ [')'])
          | none => []) ++
         ((match f.init with
           | some i => ' ' :: ((FORMAT_MAP cfg.structureFormat).inz ++ ('(' :: (i ++ [')'])))
           | none => []) ++
          ((match f.dim.map intRepr with
            | some d => ' ' :: ((FORMAT_MAP cfg.structureFormat).dimx ++ ('(' :: (d ++ [')'])))
            | none => []) ++ [';']))))) =
      some ⟨f.name, cased, f.length, f.init, f.dim.map intRepr⟩ ∧
    structureStartMatch (generateFieldLine f sub cfg) = none ∧
    structureEndTest (generateFieldLine f sub cfg) = false ∧
    startKwTest (generateFieldLine f sub cfg) = false ∧
    structureEndTest (f.name ++ ' ' ::
      (cased ++
        ((match f.length with
          | some l => '(' :: (l ++ [')'])
          | none => []) ++
         ((match f.init with
           | some i => ' ' :: ((FORMAT_MAP cfg.structureFormat).inz ++ ('(' :: (i ++ [')'])))
           | none => []) ++
          ((match f.dim.map intRepr with
            | some d => ' ' :: ((FORMAT_MAP cfg.structureFormat).dimx ++ ('(' :: (d ++ [')'])))
            | none => []) ++ [';']))))) = false ∧
    nlFree (generateFieldLine f sub cfg) = true := by
  obtain ⟨hnne, hnid, hnst⟩ := identOk_facts hname
  have hjn : jsTrim f.name = f.name :=
    jsTrim_eq_self (fun c hc => identChar_not_space (hnid c hc))
  have hlchars : ∀ l, f.length = some l →
      l ≠ [] ∧ ∀ c ∈ l, isDigitChar c = true ∨ c = ':' :=
    fun l hl => lengthOk_chars (hlenf l hl)
  have hlenT : ∀ l, f.length = some l → jsTrim l = l ∧ l ≠ [] := by
    intro l hl
    obtain ⟨hne2, hch⟩ := hlchars l hl
    refine ⟨jsTrim_eq_self ?_, hne2⟩
    intro c hc
    rcases hch c hc with h2 | rfl
    · exact digit_not_space h2
    · decide
  have hichars : ∀ i, f.init = some i → i ≠ [] ∧
      (∀ c ∈ i, ¬ c = ')' ∧ ¬ c = '\n') ∧
      (∀ c, i.head? = some c → jsIsSpace c = false) ∧
      (∀ c, i.getLast? = some c → jsIsSpace c = false) :=
    fun i hi => initOk_facts (hinif i hi)
  have hiniT : ∀ i, f.init = some i → jsTrim i = i ∧ i ≠ [] := by
    intro i hi
    obtain ⟨hne2, _, hhd, hlt⟩ := hichars i hi
    exact ⟨jsTrim_ends hhd hlt, hne2⟩
  have hws : ∀ c ∈ sub, jsIsSpace c = true := by
    intro c hc
    rcases hsub c hc with rfl | rfl <;> decide
  have hshape := generateFieldLine_shape cfg f cased sub hfind hjn hlenT hiniT
  obtain ⟨n0, nr, hnm⟩ : ∃ n0 nr, f.name = n0 :: nr := by
    cases hq : f.name with
    | nil => exact absurd hq hnne
    | cons a b => exact ⟨a, b, rfl⟩
  have hn0 : isIdentStart n0 = true := hnst n0 (by rw [hnm]; rfl)
  obtain ⟨c0, cr, hcm⟩ : ∃ c0 cr, cased = c0 :: cr := by
    cases hq : cased with
    | nil => exact absurd hq hcne
    | cons a b => exact ⟨a, b, rfl⟩
  have hc0 : isAsciiAlpha c0 = true := hcal c0 (by rw [hcm]; simp)
  have hdself : ((f.name ++ ' ' ::
      (cased ++
        ((match f.length with
          | some l => '(' :: (l ++ [')'])
          | none => []) ++
         ((match f.init with
           | some i => ' ' :: ((FORMAT_MAP cfg.structureFormat).inz ++ ('(' :: (i ++ [')'])))
           | none => []) ++
          ((match f.dim.map intRepr with
            | some d => ' ' :: ((FORMAT_MAP cfg.structureFormat).dimx ++ ('(' :: (d ++ [')'])))
            | none => []) ++ [';']))))) : Str).dropWhile jsIsSpace = (f.name ++ ' ' ::
      (cased ++
        ((match f.length with
          | some l => '(' :: (l ++ [')'])
          | none => []) ++
         ((match f.init with
           | some i => ' ' :: ((FORMAT_MAP cfg.structureFormat).inz ++ ('(' :: (i ++ [')'])))
           | none => []) ++
          ((match f.dim.map intRepr with
            | some d => ' ' :: ((FORMAT_MAP cfg.structureFormat).dimx ++ ('(' :: (d ++ [')'])))
            | none => []) ++ [';']))))) := by
    rw [hnm, List.cons_append]
    exact dropWhile_not_head rfl (identStart_not_space hn0)
  have hstart_none : structureStartMatch (f.name ++ ' ' ::
      (cased ++
        ((match f.length with
          | some l => '(' :: (l ++ [')'])
          | none => []) ++
         ((match f.init with
           | some i => ' ' :: ((FORMAT_MAP cfg.structureFormat).inz ++ ('(' :: (i ++ [')'])))
           | none => []) ++
          ((match f.dim.map intRepr with
            | some d => ' ' :: ((FORMAT_MAP cfg.structureFormat).dimx ++ ('(' :: (d ++ [')'])))
            | none => []) ++ [';']))))) = none := by
    simp only [structureStartMatch, hdself, eat_dclds_ident hnne hnid]
  have hend_false : structureEndTest (f.name ++ ' ' ::
      (cased ++
        ((match f.length with
          | some l => '(' :: (l ++ [')'])
          | none => []) ++
         ((match f.init with
           | some i => ' ' :: ((FORMAT_MAP cfg.structureFormat).inz ++ ('(' :: (i ++ [')'])))
           | none => []) ++
          ((match f.dim.map intRepr with
            | some d => ' ' :: ((FORMAT_MAP cfg.structureFormat).dimx ++ ('(' :: (d ++ [')'])))
            | none => []) ++ [';']))))) = false := by
    simp only [structureEndTest, hdself, eat_endds_ident hnne hnid]
  have hlast : ∀ c, ((f.name ++ ' ' ::
      (cased ++
        ((match f.length with
          | some l => '(' :: (l ++ [')'])
          | none => []) ++
         ((match f.init with
           | some i => ' ' :: ((FORMAT_MAP cfg.structureFormat).inz ++ ('(' :: (i ++ [')'])))
           | none => []) ++
          ((match f.dim.map intRepr with
            | some d => ' ' :: ((FORMAT_MAP cfg.structureFormat).dimx ++ ('(' :: (d ++ [')'])))
            | none => []) ++ [';']))))) : Str).getLast? = some c → jsIsSpace c = false := by
    intro c hc
    have hrepr : ((f.name ++ ' ' ::
      (cased ++
        ((match f.length with
          | some l => '(' :: (l ++ [')'])
          | none => []) ++
         ((match f.init with
           | some i => ' ' :: ((FORMAT_MAP cfg.structureFormat).inz ++ ('(' :: (i ++ [')'])))
           | none => []) ++
          ((match f.dim.map intRepr with
            | some d => ' ' :: ((FORMAT_MAP cfg.structureFormat).dimx ++ ('(' :: (d ++ [')'])))
            | none => []) ++ [';']))))) : Str) =
        (f.name ++ ' ' ::
          (cased ++
            ((match f.length with
              | some l => '(' :: (l ++ [')'])
              | none => []) ++
             ((match f.init with
               | some i => ' ' :: ((FORMAT_MAP cfg.structureFormat).inz ++ ('(' :: (i ++ [')'])))
               | none => []) ++
              ((match f.dim.map intRepr with
                | some d => ' ' :: ((FORMAT_MAP cfg.structureFormat).dimx ++ ('(' :: (d ++ [')'])))
                | none => []) ++ []))))) ++ [';'] := by
      simp [List.append_assoc]
    rw [hrepr] at hc
    rw [List.getLast?_concat] at hc
    injection hc with h5
    subst h5
    decide
  have hhead : ∀ c, ((f.name ++ ' ' ::
      (cased ++
        ((match f.length with
          | some l => '(' :: (l ++ [')'])
          | none => []) ++
         ((match f.init with
           | some i => ' ' :: ((FORMAT_MAP cfg.structureFormat).inz ++ ('(' :: (i ++ [')'])))
           | none => []) ++
          ((match f.dim.map intRepr with
            | some d => ' ' :: ((FORMAT_MAP cfg.structureFormat).dimx ++ ('(' :: (d ++ [')'])))
            | none => []) ++ [';']))))) : Str).head? = some c → jsIsSpace c = false := by
    intro c hc
    rw [hnm, List.cons_append] at hc
    injection hc with h5
    subst h5
    exact identStart_not_space hn0
  have htrim : jsTrim (generateFieldLine f sub cfg) = (f.name ++ ' ' ::
      (cased ++
        ((match f.length with
          | some l => '(' :: (l ++ [')'])
          | none => []) ++
         ((match f.init with
           | some i => ' ' :: ((FORMAT_MAP cfg.structureFormat).inz ++ ('(' :: (i ++ [')'])))
           | none => []) ++
          ((match f.dim.map intRepr with
            | some d => ' ' :: ((FORMAT_MAP cfg.structureFormat).dimx ++ ('(' :: (d ++ [')'])))
            | none => []) ++ [';']))))) := by
    rw [hshape]
    exact jsTrim_spaces_append _ hws hhead hlast
  refine ⟨htrim, ?_, ?_, hstart_none, ?_, ?_, ?_, ?_, ?_, hend_false, ?_⟩
  · rw [hnm]
    simp
  · rw [hnm, List.cons_append]
    exact comment_prefix_ident _ hn0
  · -- substructureMatch
    have hs1c : List.dropWhile jsIsSpace (n0 :: (nr ++ ' ' :: (cased ++
        ((match f.length with
          | some l => '(' :: (l ++ [')'])
          | none => []) ++
         ((match f.init with
           | some i => ' ' :: ((FORMAT_MAP cfg.structureFormat).inz ++ ('(' :: (i ++ [')'])))
           | none => []) ++
          ((match f.dim.map intRepr with
            | some d => ' ' :: ((FORMAT_MAP cfg.structureFormat).dimx ++ ('(' :: (d ++ [')'])))
            | none => []) ++ [';'])))))) =
        n0 :: (nr ++ ' ' :: (cased ++
        ((match f.length with
          | some l => '(' :: (l ++ [')'])
          | none => []) ++
         ((match f.init with
           | some i => ' ' :: ((FORMAT_MAP cfg.structureFormat).inz ++ ('(' :: (i ++ [')'])))
           | none => []) ++
          ((match f.dim.map intRepr with
            | some d => ' ' :: ((FORMAT_MAP cfg.structureFormat).dimx ++ ('(' :: (d ++ [')'])))
            | none => []) ++ [';']))))) := by
      rw [List.dropWhile_cons, identStart_not_space hn0]
      simp
    have htake : List.takeWhile isIdentChar (n0 :: (nr ++ ' ' :: (cased ++
        ((match f.length with
          | some l => '(' :: (l ++ [')'])
          | none => []) ++
         ((match f.init with
           | some i => ' ' :: ((FORMAT_MAP cfg.structureFormat).inz ++ ('(' :: (i ++ [')'])))
           | none => []) ++
          ((match f.dim.map intRepr with
            | some d => ' ' :: ((FORMAT_MAP cfg.structureFormat).dimx ++ ('(' :: (d ++ [')'])))
            | none => []) ++ [';'])))))) =
        n0 :: nr := by
      rw [← List.cons_append]
      exact takeWhile_append_not ' ' _ (by rw [← hnm]; exact hnid) (by decide)
    have hdrop : List.dropWhile isIdentChar (n0 :: (nr ++ ' ' :: (cased ++
        ((match f.length with
          | some l => '(' :: (l ++ [')'])
          | none => []) ++
         ((match f.init with
           | some i => ' ' :: ((FORMAT_MAP cfg.structureFormat).inz ++ ('(' :: (i ++ [')'])))
           | none => []) ++
          ((match f.dim.map intRepr with
            | some d => ' ' :: ((FORMAT_MAP cfg.structureFormat).dimx ++ ('(' :: (d ++ [')'])))
            | none => []) ++ [';'])))))) =
        ' ' :: (cased ++
        ((match f.length with
          | some l => '(' :: (l ++ [')'])
          | none => []) ++
         ((match f.init with
           | some i => ' ' :: ((FORMAT_MAP cfg.structureFormat).inz ++ ('(' :: (i ++ [')'])))
           | none => []) ++
          ((match f.dim.map intRepr with
            | some d => ' ' :: ((FORMAT_MAP cfg.structureFormat).dimx ++ ('(' :: (d ++ [')'])))
            | none => []) ++ [';'])))) := by
      rw [← List.cons_append]
      exact dropWhile_append_not ' ' _ (by rw [← hnm]; exact hnid) (by decide)
    have htk2 : List.takeWhile jsIsSpace (' ' :: (cased ++
        ((match f.length with
          | some l => '(' :: (l ++ [')'])
          | none => []) ++
         ((match f.init with
           | some i => ' ' :: ((FORMAT_MAP cfg.structureFormat).inz ++ ('(' :: (i ++ [')'])))
           | none => []) ++
          ((match f.dim.map intRepr with
            | some d => ' ' :: ((FORMAT_MAP cfg.structureFormat).dimx ++ ('(' :: (d ++ [')'])))
            | none => []) ++ [';']))))) = [' '] := by
      rw [List.takeWhile_cons, show jsIsSpace ' ' = true from by decide, hcm,
        List.cons_append, List.takeWhile_cons, alpha_not_space hc0]
      simp
    have hdr2 : List.dropWhile jsIsSpace (' ' :: (cased ++
        ((match f.length with
          | some l => '(' :: (l ++ [')'])
          | none => []) ++
         ((match f.init with
           | some i => ' ' :: ((FORMAT_MAP cfg.structureFormat).inz ++ ('(' :: (i ++ [')'])))
           | none => []) ++
          ((match f.dim.map intRepr with
            | some d => ' ' :: ((FORMAT_MAP cfg.structureFormat).dimx ++ ('(' :: (d ++ [')'])))
            | none => []) ++ [';']))))) = (cased ++
        ((match f.length with
          | some l => '(' :: (l ++ [')'])
          | none => []) ++
         ((match f.init with
           | some i => ' ' :: ((FORMAT_MAP cfg.structureFormat).inz ++ ('(' :: (i ++ [')'])))
           | none => []) ++
          ((match f.dim.map intRepr with
            | some d => ' ' :: ((FORMAT_MAP cfg.structureFormat).dimx ++ ('(' :: (d ++ [')'])))
            | none => []) ++ [';'])))) := by
      rw [List.dropWhile_cons, show jsIsSpace ' ' = true from by decide, hcm,
        List.cons_append, List.dropWhile_cons, alpha_not_space hc0]
      simp
    rw [hnm, List.cons_append, substructureMatch]
    simp only [hs1c, htake, hdrop, htk2, hdr2, hn0, if_true, hlik, htpl]
  · -- fieldMatch
    have hs3c : ((cased ++
        ((match f.length with
          | some l => '(' :: (l ++ [')'])
          | none => []) ++
         ((match f.init with
           | some i => ' ' :: ((FORMAT_MAP cfg.structureFormat).inz ++ ('(' :: (i ++ [')'])))
           | none => []) ++
          ((match f.dim.map intRepr with
            | some d => ' ' :: ((FORMAT_MAP cfg.structureFormat).dimx ++ ('(' :: (d ++ [')'])))
            | none => []) ++ [';'])))) : Str) = c0 :: (cr ++ ((match f.length with
          | some l => '(' :: (l ++ [')'])
          | none => []) ++
         ((match f.init with
           | some i => ' ' :: ((FORMAT_MAP cfg.structureFormat).inz ++ ('(' :: (i ++ [')'])))
           | none => []) ++
          ((match f.dim.map intRepr with
            | some d => ' ' :: ((FORMAT_MAP cfg.structureFormat).dimx ++ ('(' :: (d ++ [')'])))
            | none => []) ++ [';'])))) := by
      rw [hcm, List.cons_append]
    rw [fieldMatch_split hnne hnid hnst hs3c (alpha_not_space hc0)]
    refine fieldMatchTail_eval cfg.structureFormat f.name cased _ _ _
      f.length f.init (f.dim.map intRepr) rfl rfl rfl hcne hcal ?_ ?_ ?_
    · intro x hx
      obtain ⟨hne2, hch⟩ := hlchars x hx
      refine ⟨hne2, ?_⟩
      intro c hc
      rcases hch c hc with h2 | rfl
      · exact (digit_misc h2).1
      · decide
    · intro x hx
      obtain ⟨hne2, hch, _, _⟩ := hichars x hx
      exact ⟨hne2, fun c hc => (hch c hc).1⟩
    · intro x hx
      cases hD : f.dim with
      | none =>
        rw [hD] at hx
        simp at hx
      | some dd =>
        rw [hD] at hx
        simp at hx
        subst hx
        have hpos := hdimf dd hD
        exact ⟨intRepr_ne_nil hpos,
          fun c hc => (digit_misc (intRepr_digits hpos c hc)).1⟩
  · rw [hshape, structureStartMatch_ws _ hws]
    exact hstart_none
  · rw [hshape, structureEndTest_ws _ hws]
    exact hend_false
  · rw [hshape, startKwTest_ws _ hws]
    simp only [startKwTest, hdself, eat_dclds_ident hnne hnid]
  · -- nlFree
    rw [hshape, nlFree_iff]
    intro c hc
    rcases List.mem_append.mp hc with hc | hc
    · rcases hsub c hc with rfl | rfl <;> decide
    rcases List.mem_append.mp hc with hc | hc
    · exact identChar_not_nl (hnid c hc)
    rcases List.mem_cons.mp hc with rfl | hc
    · decide
    rcases List.mem_append.mp hc with hc | hc
    · exact (alpha_misc (hcal c hc)).1
    rcases List.mem_append.mp hc with hc | hc
    · rcases hL : f.length with _ | l
      · rw [hL] at hc
        simp at hc
      · rw [hL] at hc
        simp at hc
        rcases hc with rfl | hc | rfl
        · decide
        · rcases (hlchars l hL).2 c hc with h2 | rfl
          · exact digit_not_nl h2
          · decide
        · decide
    rcases List.mem_append.mp hc with hc | hc
    · rcases hI : f.init with _ | i
      · rw [hI] at hc
        simp at hc
      · rw [hI] at hc
        simp at hc
        rcases hc with rfl | hc | rfl | hc | rfl
        · decide
        · exact inz_not_nl cfg.structureFormat c hc
        · decide
        · exact ((hichars i hI).2.1 c hc).2
        · decide
    rcases List.mem_append.mp hc with hc | hc
    · rcases hD : f.dim with _ | dd
      · rw [hD] at hc
        simp at hc
      · rw [hD] at hc
        simp at hc
        rcases hc with rfl | hc | rfl | hc | rfl
        · decide
        · exact dimx_not_nl cfg.structureFormat c hc
        · decide
        · exact digit_not_nl (intRepr_digits (hdimf dd hD) c hc)
        · decide
    · simp at hc
      subst hc
      decide
theorem map_jsTrim_id {o : Option Str} (h : ∀ x, o = some x → jsTrim x = x) :
    o.map jsTrim = o := by
  cases o with
  | none => rfl
  | some x =>
    rw [Option.map_some', h x rfl]

theorem parseFieldFromMatch_gen (fmt : StructureFormat) (f : Field) (cased : Str)
    (id : Nat)
    (hrev : (FORMAT_MAP fmt).typeMap.find? (fun e => lcStr e.2 = lcStr cased) =
      some (f.type, cased))
    (hjn : jsTrim f.name = f.name)
    (hjc : jsTrim cased = cased)
    (hlen : ∀ l, f.length = some l → jsTrim l = l)
    (hini : ∀ i, f.init = some i → jsTrim i = i)
    (hdim : ∀ d, f.dim = some d → 0 < d)
    (hstruct : f.isStructure = false) (hfields : f.fields = []) :
    parseFieldFromMatch ⟨f.name, cased, f.length, f.init, f.dim.map intRepr⟩
      id fmt = { f with idNumber := id } := by
  obtain ⟨fid, fname, ftype, flen, fini, fdim, fstr, ffld⟩ := f
  simp only at hjn hlen hini hdim hrev
  simp only at hstruct hfields
  subst hstruct
  subst hfields
  simp only [parseFieldFromMatch, hjn, hjc, hrev]
  have hdimv : (match (Option.map intRepr fdim).map jsTrim with
      | some d => if d = [] then none else jsParseInt d
      | none => none) = fdim := by
    cases hD : fdim with
    | none => rfl
    | some dd =>
      have hpos := hdim dd hD
      rw [Option.map_some', Option.map_some',
        show jsTrim (intRepr dd) = intRepr dd from
          jsTrim_eq_self (fun c hc => digit_not_space (intRepr_digits hpos c hc))]
      simp only [if_neg (intRepr_ne_nil hpos)]
      exact jsParseInt_intRepr hpos
  rw [map_jsTrim_id hlen, map_jsTrim_id hini]
  rw [hdimv]
theorem dimClauseCapture_skip {s : Str} {c : Char} {cs : Str} (hs : s = c :: cs)
    (h : dimMatchAt s = none) : dimClauseCapture s = dimClauseCapture cs := by
  subst hs
  simp only [dimClauseCapture, h]

theorem dimClauseCapture_hit {s : Str} {c : Char} {cs : Str} {cap : Str}
    (hs : s = c :: cs) (h : dimMatchAt s = some cap) :
    dimClauseCapture s = some cap := by
  subst hs
  simp only [dimClauseCapture, h]

theorem dimMatchAt_gen (fmt : StructureFormat) {cap T : Str}
    (hne : cap ≠ []) (hnp : ∀ c ∈ cap, ¬ c = ')')
    (hhd : ∀ c, cap.head? = some c → jsIsSpace c = false) :
    dimMatchAt ((FORMAT_MAP fmt).dimx ++ ('(' :: (cap ++ (')' :: T)))) =
      some cap := by
  obtain ⟨c0, cr, rfl⟩ : ∃ c0 cr, cap = c0 :: cr := by
    cases hq : cap with
    | nil => exact absurd hq hne
    | cons a b => exact ⟨a, b, rfl⟩
  have hc0 : jsIsSpace c0 = false := hhd c0 rfl
  have heat := eat_dim fmt ('(' :: ((c0 :: cr) ++ ')' :: T))
  have h1 : ('(' :: ((c0 :: cr) ++ ')' :: T)).dropWhile jsIsSpace =
      '(' :: ((c0 :: cr) ++ ')' :: T) := by
    rw [List.dropWhile_cons, show jsIsSpace '(' = false from by decide]
    simp
  have hb : ∀ c ∈ c0 :: cr, (c != ')') = true :=
    fun c hc => bne_of_ne (hnp c hc)
  have h2 := takeWhile_append_not ')' T hb (by decide)
  have h3 := dropWhile_append_not ')' T hb (by decide)
  have h4 : (c0 :: cr).dropWhile jsIsSpace = c0 :: cr := by
    rw [List.dropWhile_cons, hc0]
    simp
  simp only [dimMatchAt, heat, h1, h2, h3, h4,
    if_neg (show ¬(c0 :: cr) = [] from by simp)]

theorem isPrefixOf_self_append : ∀ (l t : Str), l.isPrefixOf (l ++ t) = true := by
  intro l
  induction l with
  | nil => intro t; simp
  | cons a as ih =>
    intro t
    rw [List.cons_append, List.isPrefixOf_cons₂, ih t]
    simp

theorem containsSub_noP {M : Str} (hp : ∀ c ∈ M, ¬ c = 'p' ∧ ¬ c = 'P') :
    containsSub M (str "template") = false ∧
    containsSub M (str "Template") = false ∧
    containsSub M (str "TEMPLATE") = false := by
  refine ⟨?_, ?_, ?_⟩ <;>
  · rw [containsSub]
    apply decide_eq_false
    intro hinf
    have hsub := hinf.sublist.subset
    first
      | exact (hp 'p' (hsub (by decide))).1 rfl
      | exact (hp 'P' (hsub (by decide))).2 rfl

theorem fmt_noP (fmt : StructureFormat) :
    (∀ c ∈ (FORMAT_MAP fmt).qualified, ¬ c = 'p' ∧ ¬ c = 'P') ∧
    (∀ c ∈ (FORMAT_MAP fmt).dimx, ¬ c = 'p' ∧ ¬ c = 'P') ∧
    (∀ c ∈ (FORMAT_MAP fmt).varx, ¬ c = 'p' ∧ ¬ c = 'P') ∧
    (∀ c ∈ (FORMAT_MAP fmt).autox, ¬ c = 'p' ∧ ¬ c = 'P') := by
  cases fmt <;> exact ⟨by decide, by decide, by decide, by decide⟩

theorem fmt_no_semi (fmt : StructureFormat) :
    (∀ c ∈ (FORMAT_MAP fmt).qualified, ¬ c = ';') ∧
    (∀ c ∈ (FORMAT_MAP fmt).dimx, ¬ c = ';') ∧
    (∀ c ∈ (FORMAT_MAP fmt).varx, ¬ c = ';') ∧
    (∀ c ∈ (FORMAT_MAP fmt).autox, ¬ c = ';') ∧
    (∀ c ∈ (FORMAT_MAP fmt).template, ¬ c = ';') := by
  cases fmt <;> exact ⟨by decide, by decide, by decide, by decide, by decide⟩

theorem fmt_not_nl (fmt : StructureFormat) :
    (∀ c ∈ (FORMAT_MAP fmt).dclds, ¬ c = '\n') ∧
    (∀ c ∈ (FORMAT_MAP fmt).endds, ¬ c = '\n') ∧
    (∀ c ∈ (FORMAT_MAP fmt).qualified, ¬ c = '\n') ∧
    (∀ c ∈ (FORMAT_MAP fmt).varx, ¬ c = '\n') ∧
    (∀ c ∈ (FORMAT_MAP fmt).autox, ¬ c = '\n') ∧
    (∀ c ∈ (FORMAT_MAP fmt).template, ¬ c = '\n') := by
  cases fmt <;> exact ⟨by decide, by decide, by decide, by decide, by decide,
    by decide⟩

theorem take6_dclds (fmt : StructureFormat) (t : Str) :
    ((FORMAT_MAP fmt).dclds ++ t).take 6 = (FORMAT_MAP fmt).dclds := by
  cases fmt <;> rfl

/-- `structureStartMatch` on a generated open line with a nonempty
modifier region. -/
theorem structureStartMatch_open (fmt : StructureFormat) {name M : Str}
    (hnne : name ≠ []) (hnid : ∀ c ∈ name, isIdentChar c = true)
    (hnst : ∀ c, name.head? = some c → isIdentStart c = true)
    (hMne : M ≠ []) (hMhd : ∀ c, M.head? = some c → jsIsSpace c = false)
    (hMs : ∀ c ∈ M, ¬ c = ';') :
    structureStartMatch
        ((FORMAT_MAP fmt).dclds ++ ' ' :: (name ++ (' ' :: (M ++ [';'])))) =
      some ⟨(FORMAT_MAP fmt).dclds, name, M⟩ := by
  obtain ⟨n0, nr, rfl⟩ : ∃ n0 nr, name = n0 :: nr := by
    cases hq : name with
    | nil => exact absurd hq hnne
    | cons a b => exact ⟨a, b, rfl⟩
  obtain ⟨m0, mr, rfl⟩ : ∃ m0 mr, M = m0 :: mr := by
    cases hq : M with
    | nil => exact absurd hq hMne
    | cons a b => exact ⟨a, b, rfl⟩
  have hn0 : isIdentStart n0 = true := hnst n0 rfl
  have hm0 : jsIsSpace m0 = false := hMhd m0 rfl
  have hs1 : ((FORMAT_MAP fmt).dclds ++
      ' ' :: ((n0 :: nr) ++ ' ' :: ((m0 :: mr) ++ [';']))).dropWhile jsIsSpace =
      (FORMAT_MAP fmt).dclds ++
        ' ' :: ((n0 :: nr) ++ ' ' :: ((m0 :: mr) ++ [';'])) := by
    cases fmt <;> exact dropWhile_not_head rfl (by decide)
  have heat := eat_dclds fmt (' ' :: ((n0 :: nr) ++ ' ' :: ((m0 :: mr) ++ [';'])))
  have htk : (' ' :: ((n0 :: nr) ++ ' ' :: ((m0 :: mr) ++ [';']))).takeWhile
      jsIsSpace = ' ' :: [] := by
    rw [List.takeWhile_cons, show jsIsSpace ' ' = true from by decide,
      List.cons_append, List.takeWhile_cons, identStart_not_space hn0]
    simp
  have hdr : (' ' :: ((n0 :: nr) ++ ' ' :: ((m0 :: mr) ++ [';']))).dropWhile
      jsIsSpace = (n0 :: nr) ++ ' ' :: ((m0 :: mr) ++ [';']) := by
    rw [List.dropWhile_cons, show jsIsSpace ' ' = true from by decide,
      List.cons_append, List.dropWhile_cons, identStart_not_space hn0]
    simp
  have htkn : ((n0 :: nr) ++ ' ' :: ((m0 :: mr) ++ [';'])).takeWhile
      isIdentChar = n0 :: nr := takeWhile_append_not ' ' _ hnid (by decide)
  have hdrn : ((n0 :: nr) ++ ' ' :: ((m0 :: mr) ++ [';'])).dropWhile
      isIdentChar = ' ' :: ((m0 :: mr) ++ [';']) :=
    dropWhile_append_not ' ' _ hnid (by decide)
  have hdr2 : (' ' :: ((m0 :: mr) ++ [';'])).dropWhile jsIsSpace =
      (m0 :: mr) ++ [';'] := by
    rw [List.dropWhile_cons, show jsIsSpace ' ' = true from by decide,
      List.cons_append, List.dropWhile_cons, hm0]
    simp
  have hbs : ∀ c ∈ m0 :: mr, (c != ';') = true :=
    fun c hc => bne_of_ne (hMs c hc)
  have hdw3 := dropWhile_append_not ';' [] hbs (by decide)
  have htw3 := takeWhile_append_not ';' [] hbs (by decide)
  simp only [structureStartMatch, hs1, heat, htk, hdr, htkn, hdrn, hn0, if_true,
    hdr2, hdw3, htw3, take6_dclds]
  simp only [List.cons_append, hn0, if_true]

/-- `structureStartMatch` on a generated open line without modifiers. -/
theorem structureStartMatch_open_nomod (fmt : StructureFormat) {name : Str}
    (hnne : name ≠ []) (hnid : ∀ c ∈ name, isIdentChar c = true)
    (hnst : ∀ c, name.head? = some c → isIdentStart c = true) :
    structureStartMatch ((FORMAT_MAP fmt).dclds ++ ' ' :: (name ++ [';'])) =
      some ⟨(FORMAT_MAP fmt).dclds, name, []⟩ := by
  obtain ⟨n0, nr, rfl⟩ : ∃ n0 nr, name = n0 :: nr := by
    cases hq : name with
    | nil => exact absurd hq hnne
    | cons a b => exact ⟨a, b, rfl⟩
  have hn0 : isIdentStart n0 = true := hnst n0 rfl
  have hs1 : ((FORMAT_MAP fmt).dclds ++
      ' ' :: ((n0 :: nr) ++ [';'])).dropWhile jsIsSpace =
      (FORMAT_MAP fmt).dclds ++ ' ' :: ((n0 :: nr) ++ [';']) := by
    cases fmt <;> exact dropWhile_not_head rfl (by decide)
  have heat := eat_dclds fmt (' ' :: ((n0 :: nr) ++ [';']))
  have htk : (' ' :: ((n0 :: nr) ++ [';'])).takeWhile jsIsSpace = ' ' :: [] := by
    rw [List.takeWhile_cons, show jsIsSpace ' ' = true from by decide,
      List.cons_append, List.takeWhile_cons, identStart_not_space hn0]
    simp
  have hdr : (' ' :: ((n0 :: nr) ++ [';'])).dropWhile jsIsSpace =
      (n0 :: nr) ++ [';'] := by
    rw [List.dropWhile_cons, show jsIsSpace ' ' = true from by decide,
      List.cons_append, List.dropWhile_cons, identStart_not_space hn0]
    simp
  have htkn : ((n0 :: nr) ++ [';']).takeWhile isIdentChar = n0 :: nr :=
    takeWhile_append_not ';' [] hnid (by decide)
  have hdrn : ((n0 :: nr) ++ [';']).dropWhile isIdentChar = [';'] :=
    dropWhile_append_not ';' [] hnid (by decide)
  simp only [structureStartMatch, hs1, heat, htk, hdr, htkn, hdrn, hn0, if_true,
    take6_dclds]
  simp only [List.cons_append, hn0, if_true,
    show List.dropWhile jsIsSpace ([';'] : Str) = [';'] from rfl,
    show List.dropWhile (fun x => x != ';') ([';'] : Str) = [';'] from rfl,
    show List.takeWhile (fun x => x != ';') ([';'] : Str) = ([] : Str) from rfl]
theorem genDim_none (ty : Str) (FMf : RpgFormat) :
    generateDimensionClause ty none FMf = [] := by
  rw [generateDimensionClause]

theorem genDim_default_some (FMf : RpgFormat) {dv : Str}
    (hjd : jsTrim dv = dv) (hne : dv ≠ []) :
    generateDimensionClause tDefault (some dv) FMf =
      ' ' :: (FMf.dimx ++ ('(' :: (dv ++ [')']))) := by
  rw [generateDimensionClause]
  rw [if_neg (by rw [hjd]; exact not_or.mpr ⟨hne, by decide⟩)]
  rw [if_pos rfl, hjd]
  simp [List.append_assoc]

theorem genDim_var_some (FMf : RpgFormat) {dv : Str}
    (hjd : jsTrim dv = dv) (hne : dv ≠ []) :
    generateDimensionClause tVar (some dv) FMf =
      ' ' :: (FMf.dimx ++ ('(' :: (FMf.varx ++ (':' :: (dv ++ [')']))))) := by
  rw [generateDimensionClause]
  rw [if_neg (by rw [hjd]; exact not_or.mpr ⟨hne, by decide⟩)]
  rw [if_neg (by decide), if_pos rfl, hjd]
  simp [List.append_assoc]

theorem genDim_auto_some (FMf : RpgFormat) {dv : Str}
    (hjd : jsTrim dv = dv) (hne : dv ≠ []) :
    generateDimensionClause tAuto (some dv) FMf =
      ' ' :: (FMf.dimx ++ ('(' :: (FMf.autox ++ (':' :: (dv ++ [')']))))) := by
  rw [generateDimensionClause]
  rw [if_neg (by rw [hjd]; exact not_or.mpr ⟨hne, by decide⟩)]
  rw [if_neg (by decide), if_neg (by decide), if_pos rfl, hjd]
  simp [List.append_assoc]

theorem genDim_template_any (FMf : RpgFormat) (dimO : Option Str) :
    generateDimensionClause tTemplate dimO FMf = [] := by
  cases dimO with
  | none => rw [generateDimensionClause]
  | some d =>
    rw [generateDimensionClause]
    split_ifs with h1 h2 h3 h4
    · rfl
    · exact absurd h2 (by decide)
    · exact absurd h3 (by decide)
    · exact absurd h4 (by decide)
    · rfl

theorem genHeader_top_default (cfg : Config) {name dv : Str} (hi : Str)
    (hjn : jsTrim name = name) (hjd : jsTrim dv = dv) (hdne : dv ≠ []) :
    generateStructureHeader name tDefault (some dv) 0 0 hi cfg =
      hi ++ ((FORMAT_MAP cfg.structureFormat).dclds ++ ' ' :: (name ++
        (' ' :: (((FORMAT_MAP cfg.structureFormat).qualified ++
          (' ' :: ((FORMAT_MAP cfg.structureFormat).dimx ++
            ('(' :: (dv ++ [')']))))) ++ [';'])))) := by
  simp only [generateStructureHeader, hjn,
    genDim_default_some _ hjd hdne, if_pos rfl,
    if_neg (show ¬(tDefault = tTemplate ∧ (0 : Int) = 0 ∧ (0 : Int) = 0) from
      fun h => absurd h.1 (by decide))]
  simp [List.append_assoc, show ¬ tDefault = tTemplate from by decide]

theorem genHeader_top_template (cfg : Config) {name : Str} (dimO : Option Str)
    (hi : Str) (hjn : jsTrim name = name) :
    generateStructureHeader name tTemplate dimO 0 0 hi cfg =
      hi ++ ((FORMAT_MAP cfg.structureFormat).dclds ++ ' ' :: (name ++
        (' ' :: (((FORMAT_MAP cfg.structureFormat).qualified ++
          (' ' :: (FORMAT_MAP cfg.structureFormat).template)) ++ [';'])))) := by
  simp only [generateStructureHeader, hjn, genDim_template_any, if_pos rfl,
    if_pos (show tTemplate = tTemplate ∧ (0 : Int) = 0 ∧ (0 : Int) = 0 from
      ⟨rfl, rfl, rfl⟩)]
  simp [List.append_assoc]

theorem genHeader_top_var (cfg : Config) {name dv : Str} (hi : Str)
    (hjn : jsTrim name = name) (hjd : jsTrim dv = dv) (hdne : dv ≠ []) :
    generateStructureHeader name tVar (some dv) 0 0 hi cfg =
      hi ++ ((FORMAT_MAP cfg.structureFormat).dclds ++ ' ' :: (name ++
        (' ' :: (((FORMAT_MAP cfg.structureFormat).qualified ++
          (' ' :: ((FORMAT_MAP cfg.structureFormat).dimx ++
            ('(' :: ((FORMAT_MAP cfg.structureFormat).varx ++
              (':' :: (dv ++ [')'])))))))  ++ [';'])))) := by
  simp only [generateStructureHeader, hjn,
    genDim_var_some _ hjd hdne, if_pos rfl,
    if_neg (show ¬(tVar = tTemplate ∧ (0 : Int) = 0 ∧ (0 : Int) = 0) from
      fun h => absurd h.1 (by decide))]
  simp [List.append_assoc, show ¬ tVar = tTemplate from by decide]

theorem genHeader_top_auto (cfg : Config) {name dv : Str} (hi : Str)
    (hjn : jsTrim name = name) (hjd : jsTrim dv = dv) (hdne : dv ≠ []) :
    generateStructureHeader name tAuto (some dv) 0 0 hi cfg =
      hi ++ ((FORMAT_MAP cfg.structureFormat).dclds ++ ' ' :: (name ++
        (' ' :: (((FORMAT_MAP cfg.structureFormat).qualified ++
          (' ' :: ((FORMAT_MAP cfg.structureFormat).dimx ++
            ('(' :: ((FORMAT_MAP cfg.structureFormat).autox ++
              (':' :: (dv ++ [')'])))))))  ++ [';'])))) := by
  simp only [generateStructureHeader, hjn,
    genDim_auto_some _ hjd hdne, if_pos rfl,
    if_neg (show ¬(tAuto = tTemplate ∧ (0 : Int) = 0 ∧ (0 : Int) = 0) from
      fun h => absurd h.1 (by decide))]
  simp [List.append_assoc, show ¬ tAuto = tTemplate from by decide]

theorem genHeader_nested_some (cfg : Config) {name dv : Str} (hi : Str)
    (level line : Int) (hlv : ¬ level = 0)
    (hjn : jsTrim name = name) (hjd : jsTrim dv = dv) (hdne : dv ≠ []) :
    generateStructureHeader name tDefault (some dv) level line hi cfg =
      hi ++ ((FORMAT_MAP cfg.structureFormat).dclds ++ ' ' :: (name ++
        (' ' :: (((FORMAT_MAP cfg.structureFormat).dimx ++
          ('(' :: (dv ++ [')']))) ++ [';'])))) := by
  simp only [generateStructureHeader, hjn,
    genDim_default_some _ hjd hdne, if_neg hlv,
    if_neg (show ¬(tDefault = tTemplate ∧ line = 0 ∧ level = 0) from
      fun h => absurd h.1 (by decide))]
  simp [List.append_assoc]

theorem genHeader_nested_none (cfg : Config) {name : Str} (hi : Str)
    (level line : Int) (hlv : ¬ level = 0) (hjn : jsTrim name = name) :
    generateStructureHeader name tDefault none level line hi cfg =
      hi ++ ((FORMAT_MAP cfg.structureFormat).dclds ++ ' ' ::
        (name ++ [';'])) := by
  simp only [generateStructureHeader, hjn, genDim_none, if_neg hlv,
    if_neg (show ¬(tDefault = tTemplate ∧ line = 0 ∧ level = 0) from
      fun h => absurd h.1 (by decide))]
  simp [List.append_assoc]

theorem detectFormat_dclds (fmt : StructureFormat) :
    detectFormat (FORMAT_MAP fmt).dclds = fmt := by
  cases fmt <;> rfl
theorem dimMatchAt_head {c : Char} (cs : Str) (h : ¬ charLower c = 'd') :
    dimMatchAt (c :: cs) = none := by
  have he : eatKwCI (str "dim") (c :: cs) = none := eatKwCI_fail rfl rfl h
  simp only [dimMatchAt, he]

theorem dimMatchAt_dspace {c : Char} (cs : Str) (h : charLower c = 'd') :
    dimMatchAt (c :: (' ' :: cs)) = none := by
  have h1 : eatKwCI (str "dim") (c :: (' ' :: cs)) =
      eatKwCI (str "im") (' ' :: cs) := eatKwCI_step rfl rfl h
  have h2 : eatKwCI (str "im") (' ' :: cs) = none :=
    eatKwCI_fail rfl rfl (by decide)
  have he := h1.trans h2
  simp only [dimMatchAt, he]

theorem dimClauseCapture_after_qualified (fmt : StructureFormat) (t : Str) :
    dimClauseCapture ((FORMAT_MAP fmt).qualified ++ (' ' :: t)) =
      dimClauseCapture t := by
  cases fmt
  case lower =>
    have s0 : dimClauseCapture ('q' :: 'u' :: 'a' :: 'l' :: 'i' :: 'f' :: 'i' :: 'e' :: 'd' :: ' ' :: t) =
        dimClauseCapture ('u' :: 'a' :: 'l' :: 'i' :: 'f' :: 'i' :: 'e' :: 'd' :: ' ' :: t) :=
      dimClauseCapture_skip rfl (dimMatchAt_head _ (by decide))
    have s1 : dimClauseCapture ('u' :: 'a' :: 'l' :: 'i' :: 'f' :: 'i' :: 'e' :: 'd' :: ' ' :: t) =
        dimClauseCapture ('a' :: 'l' :: 'i' :: 'f' :: 'i' :: 'e' :: 'd' :: ' ' :: t) :=
      dimClauseCapture_skip rfl (dimMatchAt_head _ (by decide))
    have s2 : dimClauseCapture ('a' :: 'l' :: 'i' :: 'f' :: 'i' :: 'e' :: 'd' :: ' ' :: t) =
        dimClauseCapture ('l' :: 'i' :: 'f' :: 'i' :: 'e' :: 'd' :: ' ' :: t) :=
      dimClauseCapture_skip rfl (dimMatchAt_head _ (by decide))
    have s3 : dimClauseCapture ('l' :: 'i' :: 'f' :: 'i' :: 'e' :: 'd' :: ' ' :: t) =
        dimClauseCapture ('i' :: 'f' :: 'i' :: 'e' :: 'd' :: ' ' :: t) :=
      dimClauseCapture_skip rfl (dimMatchAt_head _ (by decide))
    have s4 : dimClauseCapture ('i' :: 'f' :: 'i' :: 'e' :: 'd' :: ' ' :: t) =
        dimClauseCapture ('f' :: 'i' :: 'e' :: 'd' :: ' ' :: t) :=
      dimClauseCapture_skip rfl (dimMatchAt_head _ (by decide))
    have s5 : dimClauseCapture ('f' :: 'i' :: 'e' :: 'd' :: ' ' :: t) =
        dimClauseCapture ('i' :: 'e' :: 'd' :: ' ' :: t) :=
      dimClauseCapture_skip rfl (dimMatchAt_head _ (by decide))
    have s6 : dimClauseCapture ('i' :: 'e' :: 'd' :: ' ' :: t) =
        dimClauseCapture ('e' :: 'd' :: ' ' :: t) :=
      dimClauseCapture_skip rfl (dimMatchAt_head _ (by decide))
    have s7 : dimClauseCapture ('e' :: 'd' :: ' ' :: t) =
        dimClauseCapture ('d' :: ' ' :: t) :=
      dimClauseCapture_skip rfl (dimMatchAt_head _ (by decide))
    have s8 : dimClauseCapture ('d' :: ' ' :: t) =
        dimClauseCapture (' ' :: t) :=
      dimClauseCapture_skip rfl (dimMatchAt_dspace _ (by decide))
    have s9 : dimClauseCapture (' ' :: t) =
        dimClauseCapture (t) :=
      dimClauseCapture_skip rfl (dimMatchAt_head _ (by decide))
    exact (((((((((s0).trans s1).trans s2).trans s3).trans s4).trans s5).trans s6).trans s7).trans s8).trans s9
  case title =>
    have s0 : dimClauseCapture ('Q' :: 'u' :: 'a' :: 'l' :: 'i' :: 'f' :: 'i' :: 'e' :: 'd' :: ' ' :: t) =
        dimClauseCapture ('u' :: 'a' :: 'l' :: 'i' :: 'f' :: 'i' :: 'e' :: 'd' :: ' ' :: t) :=
      dimClauseCapture_skip rfl (dimMatchAt_head _ (by decide))
    have s1 : dimClauseCapture ('u' :: 'a' :: 'l' :: 'i' :: 'f' :: 'i' :: 'e' :: 'd' :: ' ' :: t) =
        dimClauseCapture ('a' :: 'l' :: 'i' :: 'f' :: 'i' :: 'e' :: 'd' :: ' ' :: t) :=
      dimClauseCapture_skip rfl (dimMatchAt_head _ (by decide))
    have s2 : dimClauseCapture ('a' :: 'l' :: 'i' :: 'f' :: 'i' :: 'e' :: 'd' :: ' ' :: t) =
        dimClauseCapture ('l' :: 'i' :: 'f' :: 'i' :: 'e' :: 'd' :: ' ' :: t) :=
      dimClauseCapture_skip rfl (dimMatchAt_head _ (by decide))
    have s3 : dimClauseCapture ('l' :: 'i' :: 'f' :: 'i' :: 'e' :: 'd' :: ' ' :: t) =
        dimClauseCapture ('i' :: 'f' :: 'i' :: 'e' :: 'd' :: ' ' :: t) :=
      dimClauseCapture_skip rfl (dimMatchAt_head _ (by decide))
    have s4 : dimClauseCapture ('i' :: 'f' :: 'i' :: 'e' :: 'd' :: ' ' :: t) =
        dimClauseCapture ('f' :: 'i' :: 'e' :: 'd' :: ' ' :: t) :=
      dimClauseCapture_skip rfl (dimMatchAt_head _ (by decide))
    have s5 : dimClauseCapture ('f' :: 'i' :: 'e' :: 'd' :: ' ' :: t) =
        dimClauseCapture ('i' :: 'e' :: 'd' :: ' ' :: t) :=
      dimClauseCapture_skip rfl (dimMatchAt_head _ (by decide))
    have s6 : dimClauseCapture ('i' :: 'e' :: 'd' :: ' ' :: t) =
        dimClauseCapture ('e' :: 'd' :: ' ' :: t) :=
      dimClauseCapture_skip rfl (dimMatchAt_head _ (by decide))
    have s7 : dimClauseCapture ('e' :: 'd' :: ' ' :: t) =
        dimClauseCapture ('d' :: ' ' :: t) :=
      dimClauseCapture_skip rfl (dimMatchAt_head _ (by decide))
    have s8 : dimClauseCapture ('d' :: ' ' :: t) =
        dimClauseCapture (' ' :: t) :=
      dimClauseCapture_skip rfl (dimMatchAt_dspace _ (by decide))
    have s9 : dimClauseCapture (' ' :: t) =
        dimClauseCapture (t) :=
      dimClauseCapture_skip rfl (dimMatchAt_head _ (by decide))
    exact (((((((((s0).trans s1).trans s2).trans s3).trans s4).trans s5).trans s6).trans s7).trans s8).trans s9
  case upper =>
    have s0 : dimClauseCapture ('Q' :: 'U' :: 'A' :: 'L' :: 'I' :: 'F' :: 'I' :: 'E' :: 'D' :: ' ' :: t) =
        dimClauseCapture ('U' :: 'A' :: 'L' :: 'I' :: 'F' :: 'I' :: 'E' :: 'D' :: ' ' :: t) :=
      dimClauseCapture_skip rfl (dimMatchAt_head _ (by decide))
    have s1 : dimClauseCapture ('U' :: 'A' :: 'L' :: 'I' :: 'F' :: 'I' :: 'E' :: 'D' :: ' ' :: t) =
        dimClauseCapture ('A' :: 'L' :: 'I' :: 'F' :: 'I' :: 'E' :: 'D' :: ' ' :: t) :=
      dimClauseCapture_skip rfl (dimMatchAt_head _ (by decide))
    have s2 : dimClauseCapture ('A' :: 'L' :: 'I' :: 'F' :: 'I' :: 'E' :: 'D' :: ' ' :: t) =
        dimClauseCapture ('L' :: 'I' :: 'F' :: 'I' :: 'E' :: 'D' :: ' ' :: t) :=
      dimClauseCapture_skip rfl (dimMatchAt_head _ (by decide))
    have s3 : dimClauseCapture ('L' :: 'I' :: 'F' :: 'I' :: 'E' :: 'D' :: ' ' :: t) =
        dimClauseCapture ('I' :: 'F' :: 'I' :: 'E' :: 'D' :: ' ' :: t) :=
      dimClauseCapture_skip rfl (dimMatchAt_head _ (by decide))
    have s4 : dimClauseCapture ('I' :: 'F' :: 'I' :: 'E' :: 'D' :: ' ' :: t) =
        dimClauseCapture ('F' :: 'I' :: 'E' :: 'D' :: ' ' :: t) :=
      dimClauseCapture_skip rfl (dimMatchAt_head _ (by decide))
    have s5 : dimClauseCapture ('F' :: 'I' :: 'E' :: 'D' :: ' ' :: t) =
        dimClauseCapture ('I' :: 'E' :: 'D' :: ' ' :: t) :=
      dimClauseCapture_skip rfl (dimMatchAt_head _ (by decide))
    have s6 : dimClauseCapture ('I' :: 'E' :: 'D' :: ' ' :: t) =
        dimClauseCapture ('E' :: 'D' :: ' ' :: t) :=
      dimClauseCapture_skip rfl (dimMatchAt_head _ (by decide))
    have s7 : dimClauseCapture ('E' :: 'D' :: ' ' :: t) =
        dimClauseCapture ('D' :: ' ' :: t) :=
      dimClauseCapture_skip rfl (dimMatchAt_head _ (by decide))
    have s8 : dimClauseCapture ('D' :: ' ' :: t) =
        dimClauseCapture (' ' :: t) :=
      dimClauseCapture_skip rfl (dimMatchAt_dspace _ (by decide))
    have s9 : dimClauseCapture (' ' :: t) =
        dimClauseCapture (t) :=
      dimClauseCapture_skip rfl (dimMatchAt_head _ (by decide))
    exact (((((((((s0).trans s1).trans s2).trans s3).trans s4).trans s5).trans s6).trans s7).trans s8).trans s9

theorem dimClauseCapture_at_dim (fmt : StructureFormat) {cap T : Str}
    (hne : cap ≠ []) (hnp : ∀ c ∈ cap, ¬ c = ')')
    (hhd : ∀ c, cap.head? = some c → jsIsSpace c = false) :
    dimClauseCapture ((FORMAT_MAP fmt).dimx ++ ('(' :: (cap ++ (')' :: T)))) =
      some cap := by
  cases fmt <;> exact dimClauseCapture_hit rfl (dimMatchAt_gen _ hne hnp hhd)

theorem parseHeader_top_default (fmt : StructureFormat) {kw name dv : Str}
    (hjn : jsTrim name = name) (hdne : dv ≠ [])
    (hdig : ∀ c ∈ dv, isDigitChar c = true) :
    parseHeader ⟨kw, name, (FORMAT_MAP fmt).qualified ++ (' ' :: ((FORMAT_MAP fmt).dimx ++ ('(' :: (dv ++ [')']))))⟩ = ⟨name, tDefault, dv⟩ := by
  obtain ⟨d0, dr, rfl⟩ : ∃ d0 dr, dv = d0 :: dr := by
    cases hq : dv with
    | nil => exact absurd hq hdne
    | cons a b => exact ⟨a, b, rfl⟩
  have hd0 : isDigitChar d0 = true := hdig d0 (by simp)
  have hMp : ∀ c ∈ ((FORMAT_MAP fmt).qualified ++ (' ' :: ((FORMAT_MAP fmt).dimx ++ ('(' :: ((d0 :: dr) ++ [')'])))) : Str),
      ¬ c = 'p' ∧ ¬ c = 'P' := by
    intro c hc
    rcases List.mem_append.mp hc with hc | hc
    · exact (fmt_noP fmt).1 c hc
    rcases List.mem_cons.mp hc with rfl | hc
    · exact ⟨by decide, by decide⟩
    rcases List.mem_append.mp hc with hc | hc
    · exact (fmt_noP fmt).2.1 c hc
    rcases List.mem_cons.mp hc with rfl | hc
    · exact ⟨by decide, by decide⟩
    rcases List.mem_append.mp hc with hc | hc
    · exact ⟨(digit_misc (hdig c hc)).2.1, (digit_misc (hdig c hc)).2.2.1⟩
    · simp at hc
      subst hc
      exact ⟨by decide, by decide⟩
  obtain ⟨ht1, ht2, ht3⟩ := containsSub_noP hMp
  have hcap : dimClauseCapture ((FORMAT_MAP fmt).qualified ++ (' ' :: ((FORMAT_MAP fmt).dimx ++ ('(' :: ((d0 :: dr) ++ [')']))))) =
      some (d0 :: dr) :=
    (dimClauseCapture_after_qualified fmt _).trans
      (dimClauseCapture_at_dim fmt (by simp)
        (fun c hc => (digit_misc (hdig c hc)).1)
        (fun c hc => digit_not_space (hdig c (head?_mem_str hc))))
  have hjd : jsTrim (d0 :: dr) = d0 :: dr :=
    jsTrim_eq_self (fun c hc => digit_not_space (hdig c hc))
  have e1 : (str "*var:").isPrefixOf (d0 :: dr) = false := by
    rw [show str "*var:" = '*' :: str "var:" from rfl]
    exact star_prefix_digit hd0
  have e2 : (str "*Var:").isPrefixOf (d0 :: dr) = false := by
    rw [show str "*Var:" = '*' :: str "Var:" from rfl]
    exact star_prefix_digit hd0
  have e3 : (str "*VAR:").isPrefixOf (d0 :: dr) = false := by
    rw [show str "*VAR:" = '*' :: str "VAR:" from rfl]
    exact star_prefix_digit hd0
  have e4 : (str "*auto:").isPrefixOf (d0 :: dr) = false := by
    rw [show str "*auto:" = '*' :: str "auto:" from rfl]
    exact star_prefix_digit hd0
  have e5 : (str "*Auto:").isPrefixOf (d0 :: dr) = false := by
    rw [show str "*Auto:" = '*' :: str "Auto:" from rfl]
    exact star_prefix_digit hd0
  have e6 : (str "*AUTO:").isPrefixOf (d0 :: dr) = false := by
    rw [show str "*AUTO:" = '*' :: str "AUTO:" from rfl]
    exact star_prefix_digit hd0
  have hc1 : ¬(containsSub ((FORMAT_MAP fmt).qualified ++ (' ' :: ((FORMAT_MAP fmt).dimx ++ ('(' :: ((d0 :: dr) ++ [')']))))) (str "template") = true ∨
      containsSub ((FORMAT_MAP fmt).qualified ++ (' ' :: ((FORMAT_MAP fmt).dimx ++ ('(' :: ((d0 :: dr) ++ [')']))))) (str "Template") = true ∨
      containsSub ((FORMAT_MAP fmt).qualified ++ (' ' :: ((FORMAT_MAP fmt).dimx ++ ('(' :: ((d0 :: dr) ++ [')']))))) (str "TEMPLATE") = true) := by
    simp only [ht1, ht2, ht3]
    decide
  have hc2 : ¬((str "*var:").isPrefixOf (d0 :: dr) = true ∨
      (str "*Var:").isPrefixOf (d0 :: dr) = true ∨
      (str "*VAR:").isPrefixOf (d0 :: dr) = true) := by
    simp only [e1, e2, e3]
    decide
  have hc3 : ¬((str "*auto:").isPrefixOf (d0 :: dr) = true ∨
      (str "*Auto:").isPrefixOf (d0 :: dr) = true ∨
      (str "*AUTO:").isPrefixOf (d0 :: dr) = true) := by
    simp only [e4, e5, e6]
    decide
  simp only [parseHeader, hcap, hjd, hjn]
  rw [if_neg hc1, if_neg hc2, if_neg hc3]

theorem parseHeader_top_template (fmt : StructureFormat) {kw name : Str}
    (hjn : jsTrim name = name) :
    parseHeader ⟨kw, name, (FORMAT_MAP fmt).qualified ++ (' ' :: (FORMAT_MAP fmt).template)⟩ = ⟨name, tTemplate, str "0"⟩ := by
  cases fmt
  case lower =>
    simp only [parseHeader, hjn,
      show dimClauseCapture ((FORMAT_MAP StructureFormat.lower).qualified ++
        (' ' :: (FORMAT_MAP StructureFormat.lower).template)) = none from rfl]
    rw [if_pos (Or.inl (by decide))]
  case title =>
    simp only [parseHeader, hjn,
      show dimClauseCapture ((FORMAT_MAP StructureFormat.title).qualified ++
        (' ' :: (FORMAT_MAP StructureFormat.title).template)) = none from rfl]
    rw [if_pos (Or.inr (Or.inl (by decide)))]
  case upper =>
    simp only [parseHeader, hjn,
      show dimClauseCapture ((FORMAT_MAP StructureFormat.upper).qualified ++
        (' ' :: (FORMAT_MAP StructureFormat.upper).template)) = none from rfl]
    rw [if_pos (Or.inr (Or.inr (by decide)))]

theorem parseHeader_top_var (fmt : StructureFormat) {kw name dv : Str}
    (hjn : jsTrim name = name) (hdne : dv ≠ [])
    (hdig : ∀ c ∈ dv, isDigitChar c = true) :
    parseHeader ⟨kw, name, (FORMAT_MAP fmt).qualified ++ (' ' :: ((FORMAT_MAP fmt).dimx ++ ('(' :: ((FORMAT_MAP fmt).varx ++ (':' :: (dv ++ [')']))))))⟩ = ⟨name, tVar, dv⟩ := by
  have hvxnp : ∀ c ∈ (FORMAT_MAP fmt).varx, ¬ c = ')' := by
    cases fmt <;> decide
  have hvxns : ∀ c ∈ (FORMAT_MAP fmt).varx, jsIsSpace c = false := by
    cases fmt <;> decide
  have hCAPne : ((FORMAT_MAP fmt).varx ++ (':' :: dv) : Str) ≠ [] := by
    cases fmt <;> simp
  have hCAPnp : ∀ c ∈ ((FORMAT_MAP fmt).varx ++ (':' :: dv) : Str), ¬ c = ')' := by
    intro c hc
    rcases List.mem_append.mp hc with hc | hc
    · exact hvxnp c hc
    rcases List.mem_cons.mp hc with rfl | hc
    · decide
    · exact (digit_misc (hdig c hc)).1
  have hCAPns : ∀ c ∈ ((FORMAT_MAP fmt).varx ++ (':' :: dv) : Str), jsIsSpace c = false := by
    intro c hc
    rcases List.mem_append.mp hc with hc | hc
    · exact hvxns c hc
    rcases List.mem_cons.mp hc with rfl | hc
    · decide
    · exact digit_not_space (hdig c hc)
  have hsh : ((FORMAT_MAP fmt).varx ++ (':' :: (dv ++ [')'])) : Str) =
      ((FORMAT_MAP fmt).varx ++ (':' :: dv)) ++ (')' :: []) := by
    simp
  have hcap : dimClauseCapture ((FORMAT_MAP fmt).qualified ++ (' ' :: ((FORMAT_MAP fmt).dimx ++ ('(' :: ((FORMAT_MAP fmt).varx ++ (':' :: (dv ++ [')']))))))) = some ((FORMAT_MAP fmt).varx ++ (':' :: dv)) := by
    rw [hsh]
    exact (dimClauseCapture_after_qualified fmt _).trans
      (dimClauseCapture_at_dim fmt hCAPne hCAPnp
        (fun c hc => hCAPns c (head?_mem_str hc)))
  have hjc : jsTrim ((FORMAT_MAP fmt).varx ++ (':' :: dv) : Str) = (FORMAT_MAP fmt).varx ++ (':' :: dv) := jsTrim_eq_self hCAPns
  simp only [parseHeader, hcap, hjc, hjn]
  cases fmt
  case lower =>
    rw [if_pos (Or.inl (by
      rw [show ((FORMAT_MAP StructureFormat.lower).varx ++ (':' :: dv) : Str) =
        str "*var:" ++ dv from rfl]
      exact isPrefixOf_self_append _ _))]
    rw [show ((FORMAT_MAP StructureFormat.lower).varx ++ (':' :: dv)).drop 5 =
      dv from rfl]
  case title =>
    rw [if_pos (Or.inr (Or.inl (by
      rw [show ((FORMAT_MAP StructureFormat.title).varx ++ (':' :: dv) : Str) =
        str "*Var:" ++ dv from rfl]
      exact isPrefixOf_self_append _ _)))]
    rw [show ((FORMAT_MAP StructureFormat.title).varx ++ (':' :: dv)).drop 5 =
      dv from rfl]
  case upper =>
    rw [if_pos (Or.inr (Or.inr (by
      rw [show ((FORMAT_MAP StructureFormat.upper).varx ++ (':' :: dv) : Str) =
        str "*VAR:" ++ dv from rfl]
      exact isPrefixOf_self_append _ _)))]
    rw [show ((FORMAT_MAP StructureFormat.upper).varx ++ (':' :: dv)).drop 5 =
      dv from rfl]

theorem parseHeader_top_auto (fmt : StructureFormat) {kw name dv : Str}
    (hjn : jsTrim name = name) (hdne : dv ≠ [])
    (hdig : ∀ c ∈ dv, isDigitChar c = true) :
    parseHeader ⟨kw, name, (FORMAT_MAP fmt).qualified ++ (' ' :: ((FORMAT_MAP fmt).dimx ++ ('(' :: ((FORMAT_MAP fmt).autox ++ (':' :: (dv ++ [')']))))))⟩ = ⟨name, tAuto, dv⟩ := by
  have hvxnp : ∀ c ∈ (FORMAT_MAP fmt).autox, ¬ c = ')' := by
    cases fmt <;> decide
  have hvxns : ∀ c ∈ (FORMAT_MAP fmt).autox, jsIsSpace c = false := by
    cases fmt <;> decide
  have hCAPne : ((FORMAT_MAP fmt).autox ++ (':' :: dv) : Str) ≠ [] := by
    cases fmt <;> simp
  have hCAPnp : ∀ c ∈ ((FORMAT_MAP fmt).autox ++ (':' :: dv) : Str), ¬ c = ')' := by
    intro c hc
    rcases List.mem_append.mp hc with hc | hc
    · exact hvxnp c hc
    rcases List.mem_cons.mp hc with rfl | hc
    · decide
    · exact (digit_misc (hdig c hc)).1
  have hCAPns : ∀ c ∈ ((FORMAT_MAP fmt).autox ++ (':' :: dv) : Str), jsIsSpace c = false := by
    intro c hc
    rcases List.mem_append.mp hc with hc | hc
    · exact hvxns c hc
    rcases List.mem_cons.mp hc with rfl | hc
    · decide
    · exact digit_not_space (hdig c hc)
  have hsh : ((FORMAT_MAP fmt).autox ++ (':' :: (dv ++ [')'])) : Str) =
      ((FORMAT_MAP fmt).autox ++ (':' :: dv)) ++ (')' :: []) := by
    simp
  have hcap : dimClauseCapture ((FORMAT_MAP fmt).qualified ++ (' ' :: ((FORMAT_MAP fmt).dimx ++ ('(' :: ((FORMAT_MAP fmt).autox ++ (':' :: (dv ++ [')']))))))) = some ((FORMAT_MAP fmt).autox ++ (':' :: dv)) := by
    rw [hsh]
    exact (dimClauseCapture_after_qualified fmt _).trans
      (dimClauseCapture_at_dim fmt hCAPne hCAPnp
        (fun c hc => hCAPns c (head?_mem_str hc)))
  have hjc : jsTrim ((FORMAT_MAP fmt).autox ++ (':' :: dv) : Str) = (FORMAT_MAP fmt).autox ++ (':' :: dv) := jsTrim_eq_self hCAPns
  simp only [parseHeader, hcap, hjc, hjn]
  cases fmt
  case lower =>
    rw [if_neg (by
      simp only [show (str "*var:").isPrefixOf
          ((FORMAT_MAP StructureFormat.lower).autox ++ (':' :: dv)) = false
          from rfl,
        show (str "*Var:").isPrefixOf
          ((FORMAT_MAP StructureFormat.lower).autox ++ (':' :: dv)) = false
          from rfl,
        show (str "*VAR:").isPrefixOf
          ((FORMAT_MAP StructureFormat.lower).autox ++ (':' :: dv)) = false
          from rfl]
      decide)]
    rw [if_pos (Or.inl (by
      rw [show ((FORMAT_MAP StructureFormat.lower).autox ++ (':' :: dv) : Str) =
        str "*auto:" ++ dv from rfl]
      exact isPrefixOf_self_append _ _))]
    rw [show ((FORMAT_MAP StructureFormat.lower).autox ++ (':' :: dv)).drop 6 =
      dv from rfl]
  case title =>
    rw [if_neg (by
      simp only [show (str "*var:").isPrefixOf
          ((FORMAT_MAP StructureFormat.title).autox ++ (':' :: dv)) = false
          from rfl,
        show (str "*Var:").isPrefixOf
          ((FORMAT_MAP StructureFormat.title).autox ++ (':' :: dv)) = false
          from rfl,
        show (str "*VAR:").isPrefixOf
          ((FORMAT_MAP StructureFormat.title).autox ++ (':' :: dv)) = false
          from rfl]
      decide)]
    rw [if_pos (Or.inr (Or.inl (by
      rw [show ((FORMAT_MAP StructureFormat.title).autox ++ (':' :: dv) : Str) =
        str "*Auto:" ++ dv from rfl]
      exact isPrefixOf_self_append _ _)))]
    rw [show ((FORMAT_MAP StructureFormat.title).autox ++ (':' :: dv)).drop 6 =
      dv from rfl]
  case upper =>
    rw [if_neg (by
      simp only [show (str "*var:").isPrefixOf
          ((FORMAT_MAP StructureFormat.upper).autox ++ (':' :: dv)) = false
          from rfl,
        show (str "*Var:").isPrefixOf
          ((FORMAT_MAP StructureFormat.upper).autox ++ (':' :: dv)) = false
          from rfl,
        show (str "*VAR:").isPrefixOf
          ((FORMAT_MAP StructureFormat.upper).autox ++ (':' :: dv)) = false
          from rfl]
      decide)]
    rw [if_pos (Or.inr (Or.inr (by
      rw [show ((FORMAT_MAP StructureFormat.upper).autox ++ (':' :: dv) : Str) =
        str "*AUTO:" ++ dv from rfl]
      exact isPrefixOf_self_append _ _)))]
    rw [show ((FORMAT_MAP StructureFormat.upper).autox ++ (':' :: dv)).drop 6 =
      dv from rfl]
theorem getLast?_snoc {α : Type} (l : List α) (a : α) :
    (l ++ [a]).getLast? = some a := by
  simp

theorem spaceTab_isSpace {c : Char} (h : c = ' ' ∨ c = '\t') :
    jsIsSpace c = true := by
  rcases h with rfl | rfl <;> decide

theorem spaceTab_not_nl {c : Char} (h : c = ' ' ∨ c = '\t') :
    ¬ c = '\n' := by
  rcases h with rfl | rfl <;> decide

theorem startKwTest_dclds (fmt : StructureFormat) (t : Str) :
    startKwTest ((FORMAT_MAP fmt).dclds ++ (' ' :: t)) = true := by
  have hdw : ((FORMAT_MAP fmt).dclds ++ (' ' :: t)).dropWhile jsIsSpace =
      (FORMAT_MAP fmt).dclds ++ (' ' :: t) := by
    cases fmt <;> exact dropWhile_not_head rfl (by decide)
  have he := eat_dclds fmt (' ' :: t)
  rw [startKwTest, hdw, he]
  rfl

theorem structureEndTest_dclds (fmt : StructureFormat) (t : Str) :
    structureEndTest ((FORMAT_MAP fmt).dclds ++ t) = false := by
  have hdw : ((FORMAT_MAP fmt).dclds ++ t).dropWhile jsIsSpace =
      (FORMAT_MAP fmt).dclds ++ t := by
    cases fmt <;> exact dropWhile_not_head rfl (by decide)
  have he := eat_endds_dclds fmt t
  rw [structureEndTest, hdw, he]

theorem structureStartMatch_endds (fmt : StructureFormat) (t : Str) :
    structureStartMatch ((FORMAT_MAP fmt).endds ++ t) = none := by
  have hdw : ((FORMAT_MAP fmt).endds ++ t).dropWhile jsIsSpace =
      (FORMAT_MAP fmt).endds ++ t := by
    cases fmt <;> exact dropWhile_not_head rfl (by decide)
  have he := eat_dclds_endds fmt t
  rw [structureStartMatch, hdw, he]

theorem startKwTest_endds (fmt : StructureFormat) (t : Str) :
    startKwTest ((FORMAT_MAP fmt).endds ++ t) = false := by
  have hdw : ((FORMAT_MAP fmt).endds ++ t).dropWhile jsIsSpace =
      (FORMAT_MAP fmt).endds ++ t := by
    cases fmt <;> exact dropWhile_not_head rfl (by decide)
  have he := eat_dclds_endds fmt t
  rw [startKwTest, hdw, he]

theorem structureEndTest_endds (fmt : StructureFormat) :
    structureEndTest ((FORMAT_MAP fmt).endds ++ [';']) = true := by
  have hdw : ((FORMAT_MAP fmt).endds ++ [';']).dropWhile jsIsSpace =
      (FORMAT_MAP fmt).endds ++ [';'] := by
    cases fmt <;> exact dropWhile_not_head rfl (by decide)
  have he := eat_endds fmt [';']
  rw [structureEndTest, hdw, he]
  rfl

theorem openLine_facts (cfg : Config) {ws name M : Str}
    (hws : ∀ c ∈ ws, c = ' ' ∨ c = '\t')
    (hnok : identOkB name = true)
    (hMne : M ≠ []) (hMhd : ∀ c, M.head? = some c → jsIsSpace c = false)
    (hMs : ∀ c ∈ M, ¬ c = ';') (hMnl : ∀ c ∈ M, ¬ c = '\n') :
    jsTrim (ws ++ ((FORMAT_MAP cfg.structureFormat).dclds ++ ' ' :: (name ++ (' ' :: (M ++ [';']))))) = (FORMAT_MAP cfg.structureFormat).dclds ++ ' ' :: (name ++ (' ' :: (M ++ [';']))) ∧
    ((FORMAT_MAP cfg.structureFormat).dclds ++ ' ' :: (name ++ (' ' :: (M ++ [';']))) : Str) ≠ [] ∧
    (str "//").isPrefixOf ((FORMAT_MAP cfg.structureFormat).dclds ++ ' ' :: (name ++ (' ' :: (M ++ [';'])))) = false ∧
    structureStartMatch ((FORMAT_MAP cfg.structureFormat).dclds ++ ' ' :: (name ++ (' ' :: (M ++ [';'])))) =
      some ⟨(FORMAT_MAP cfg.structureFormat).dclds, name, M⟩ ∧
    structureStartMatch (ws ++ ((FORMAT_MAP cfg.structureFormat).dclds ++ ' ' :: (name ++ (' ' :: (M ++ [';']))))) =
      some ⟨(FORMAT_MAP cfg.structureFormat).dclds, name, M⟩ ∧
    startKwTest (ws ++ ((FORMAT_MAP cfg.structureFormat).dclds ++ ' ' :: (name ++ (' ' :: (M ++ [';']))))) = true ∧
    structureEndTest ((FORMAT_MAP cfg.structureFormat).dclds ++ ' ' :: (name ++ (' ' :: (M ++ [';'])))) = false ∧
    structureEndTest (ws ++ ((FORMAT_MAP cfg.structureFormat).dclds ++ ' ' :: (name ++ (' ' :: (M ++ [';']))))) = false ∧
    nlFree (ws ++ ((FORMAT_MAP cfg.structureFormat).dclds ++ ' ' :: (name ++ (' ' :: (M ++ [';']))))) = true := by
  obtain ⟨hnne, hnid, hnst⟩ := identOk_facts hnok
  have hwsp : ∀ c ∈ ws, jsIsSpace c = true := fun c hc => spaceTab_isSpace (hws c hc)
  have hdcne : (FORMAT_MAP cfg.structureFormat).dclds ≠ [] := by
    cases cfg.structureFormat <;> decide
  have hcne : ((FORMAT_MAP cfg.structureFormat).dclds ++ ' ' :: (name ++ (' ' :: (M ++ [';']))) : Str) ≠ [] := by
    intro h
    exact hdcne (List.append_eq_nil.mp h).1
  have hcore : ((FORMAT_MAP cfg.structureFormat).dclds ++ ' ' :: (name ++ (' ' :: (M ++ [';']))) : Str) =
      ((FORMAT_MAP cfg.structureFormat).dclds ++ ' ' :: (name ++ (' ' :: M))) ++ [';'] := by
    simp
  have hlast : ∀ c, ((FORMAT_MAP cfg.structureFormat).dclds ++ ' ' :: (name ++ (' ' :: (M ++ [';']))) : Str).getLast? = some c → jsIsSpace c = false := by
    intro c hc
    rw [hcore, getLast?_snoc] at hc
    injection hc with hc2
    subst hc2
    decide
  have hjt : jsTrim (ws ++ ((FORMAT_MAP cfg.structureFormat).dclds ++ ' ' :: (name ++ (' ' :: (M ++ [';']))))) = (FORMAT_MAP cfg.structureFormat).dclds ++ ' ' :: (name ++ (' ' :: (M ++ [';']))) :=
    jsTrim_spaces_append _ hwsp (dclds_head_not_space cfg.structureFormat _) hlast
  have hsm : structureStartMatch ((FORMAT_MAP cfg.structureFormat).dclds ++ ' ' :: (name ++ (' ' :: (M ++ [';'])))) =
      some ⟨(FORMAT_MAP cfg.structureFormat).dclds, name, M⟩ :=
    structureStartMatch_open cfg.structureFormat hnne hnid hnst hMne hMhd hMs
  refine ⟨hjt, hcne, comment_dclds _ _, hsm,
    (structureStartMatch_ws _ hwsp).trans hsm,
    (startKwTest_ws _ hwsp).trans (startKwTest_dclds _ _),
    structureEndTest_dclds _ _,
    (structureEndTest_ws _ hwsp).trans (structureEndTest_dclds _ _), ?_⟩
  rw [nlFree_iff]
  intro c hc
  rcases List.mem_append.mp hc with hc | hc
  · exact spaceTab_not_nl (hws c hc)
  rcases List.mem_append.mp hc with hc | hc
  · exact (fmt_not_nl cfg.structureFormat).1 c hc
  rcases List.mem_cons.mp hc with rfl | hc
  · decide
  rcases List.mem_append.mp hc with hc | hc
  · exact identChar_not_nl (hnid c hc)
  rcases List.mem_cons.mp hc with rfl | hc
  · decide
  rcases List.mem_append.mp hc with hc | hc
  · exact hMnl c hc
  · simp at hc
    subst hc
    decide

theorem openLineNomod_facts (cfg : Config) {ws name : Str}
    (hws : ∀ c ∈ ws, c = ' ' ∨ c = '\t')
    (hnok : identOkB name = true) :
    jsTrim (ws ++ ((FORMAT_MAP cfg.structureFormat).dclds ++ ' ' :: (name ++ [';']))) = (FORMAT_MAP cfg.structureFormat).dclds ++ ' ' :: (name ++ [';']) ∧
    ((FORMAT_MAP cfg.structureFormat).dclds ++ ' ' :: (name ++ [';']) : Str) ≠ [] ∧
    (str "//").isPrefixOf ((FORMAT_MAP cfg.structureFormat).dclds ++ ' ' :: (name ++ [';'])) = false ∧
    structureStartMatch ((FORMAT_MAP cfg.structureFormat).dclds ++ ' ' :: (name ++ [';'])) =
      some ⟨(FORMAT_MAP cfg.structureFormat).dclds, name, []⟩ ∧
    structureStartMatch (ws ++ ((FORMAT_MAP cfg.structureFormat).dclds ++ ' ' :: (name ++ [';']))) =
      some ⟨(FORMAT_MAP cfg.structureFormat).dclds, name, []⟩ ∧
    startKwTest (ws ++ ((FORMAT_MAP cfg.structureFormat).dclds ++ ' ' :: (name ++ [';']))) = true ∧
    structureEndTest ((FORMAT_MAP cfg.structureFormat).dclds ++ ' ' :: (name ++ [';'])) = false ∧
    structureEndTest (ws ++ ((FORMAT_MAP cfg.structureFormat).dclds ++ ' ' :: (name ++ [';']))) = false ∧
    nlFree (ws ++ ((FORMAT_MAP cfg.structureFormat).dclds ++ ' ' :: (name ++ [';']))) = true := by
  obtain ⟨hnne, hnid, hnst⟩ := identOk_facts hnok
  have hwsp : ∀ c ∈ ws, jsIsSpace c = true := fun c hc => spaceTab_isSpace (hws c hc)
  have hdcne : (FORMAT_MAP cfg.structureFormat).dclds ≠ [] := by
    cases cfg.structureFormat <;> decide
  have hcne : ((FORMAT_MAP cfg.structureFormat).dclds ++ ' ' :: (name ++ [';']) : Str) ≠ [] := by
    intro h
    exact hdcne (List.append_eq_nil.mp h).1
  have hcore : ((FORMAT_MAP cfg.structureFormat).dclds ++ ' ' :: (name ++ [';']) : Str) =
      ((FORMAT_MAP cfg.structureFormat).dclds ++ ' ' :: name) ++ [';'] := by
    simp
  have hlast : ∀ c, ((FORMAT_MAP cfg.structureFormat).dclds ++ ' ' :: (name ++ [';']) : Str).getLast? = some c → jsIsSpace c = false := by
    intro c hc
    rw [hcore, getLast?_snoc] at hc
    injection hc with hc2
    subst hc2
    decide
  have hjt : jsTrim (ws ++ ((FORMAT_MAP cfg.structureFormat).dclds ++ ' ' :: (name ++ [';']))) = (FORMAT_MAP cfg.structureFormat).dclds ++ ' ' :: (name ++ [';']) :=
    jsTrim_spaces_append _ hwsp (dclds_head_not_space cfg.structureFormat _) hlast
  have hsm : structureStartMatch ((FORMAT_MAP cfg.structureFormat).dclds ++ ' ' :: (name ++ [';'])) =
      some ⟨(FORMAT_MAP cfg.structureFormat).dclds, name, []⟩ :=
    structureStartMatch_open_nomod cfg.structureFormat hnne hnid hnst
  refine ⟨hjt, hcne, comment_dclds _ _, hsm,
    (structureStartMatch_ws _ hwsp).trans hsm,
    (startKwTest_ws _ hwsp).trans (startKwTest_dclds _ _),
    structureEndTest_dclds _ _,
    (structureEndTest_ws _ hwsp).trans (structureEndTest_dclds _ _), ?_⟩
  rw [nlFree_iff]
  intro c hc
  rcases List.mem_append.mp hc with hc | hc
  · exact spaceTab_not_nl (hws c hc)
  rcases List.mem_append.mp hc with hc | hc
  · exact (fmt_not_nl cfg.structureFormat).1 c hc
  rcases List.mem_cons.mp hc with rfl | hc
  · decide
  rcases List.mem_append.mp hc with hc | hc
  · exact identChar_not_nl (hnid c hc)
  · simp at hc
    subst hc
    decide

theorem footerLine_facts (cfg : Config) {ws : Str}
    (hws : ∀ c ∈ ws, c = ' ' ∨ c = '\t') :
    jsTrim (ws ++ ((FORMAT_MAP cfg.structureFormat).endds ++ [';'])) = (FORMAT_MAP cfg.structureFormat).endds ++ [';'] ∧
    ((FORMAT_MAP cfg.structureFormat).endds ++ [';'] : Str) ≠ [] ∧
    (str "//").isPrefixOf ((FORMAT_MAP cfg.structureFormat).endds ++ [';']) = false ∧
    structureStartMatch ((FORMAT_MAP cfg.structureFormat).endds ++ [';']) = none ∧
    structureStartMatch (ws ++ ((FORMAT_MAP cfg.structureFormat).endds ++ [';'])) = none ∧
    startKwTest (ws ++ ((FORMAT_MAP cfg.structureFormat).endds ++ [';'])) = false ∧
    structureEndTest ((FORMAT_MAP cfg.structureFormat).endds ++ [';']) = true ∧
    structureEndTest (ws ++ ((FORMAT_MAP cfg.structureFormat).endds ++ [';'])) = true ∧
    nlFree (ws ++ ((FORMAT_MAP cfg.structureFormat).endds ++ [';'])) = true := by
  have hwsp : ∀ c ∈ ws, jsIsSpace c = true := fun c hc => spaceTab_isSpace (hws c hc)
  have hedne : (FORMAT_MAP cfg.structureFormat).endds ≠ [] := by
    cases cfg.structureFormat <;> decide
  have hlast : ∀ c, ((FORMAT_MAP cfg.structureFormat).endds ++ [';'] : Str).getLast? = some c → jsIsSpace c = false := by
    intro c hc
    rw [getLast?_snoc] at hc
    injection hc with hc2
    subst hc2
    decide
  have hjt : jsTrim (ws ++ ((FORMAT_MAP cfg.structureFormat).endds ++ [';'])) = (FORMAT_MAP cfg.structureFormat).endds ++ [';'] :=
    jsTrim_spaces_append _ hwsp (endds_head_not_space cfg.structureFormat _) hlast
  refine ⟨hjt, ?_, comment_endds _ _, structureStartMatch_endds _ _,
    (structureStartMatch_ws _ hwsp).trans (structureStartMatch_endds _ _),
    (startKwTest_ws _ hwsp).trans (startKwTest_endds _ _),
    structureEndTest_endds _,
    (structureEndTest_ws _ hwsp).trans (structureEndTest_endds _), ?_⟩
  · intro h
    exact hedne (List.append_eq_nil.mp h).1
  rw [nlFree_iff]
  intro c hc
  rcases List.mem_append.mp hc with hc | hc
  · exact spaceTab_not_nl (hws c hc)
  rcases List.mem_append.mp hc with hc | hc
  · exact (fmt_not_nl cfg.structureFormat).2.1 c hc
  · simp at hc
    subst hc
    decide
theorem calcTab_spaces (cfg : Config) (line level : Int) (b : Str) :
    ∀ c ∈ (calculateIndentation line level b cfg).tab, c = ' ' := by
  intro c hc
  rw [calculateIndentation] at hc
  split_ifs at hc
  all_goals
    cases hI : cfg.indentation with
    | none =>
      rw [hI] at hc
      exact List.eq_of_mem_replicate hc
    | some n =>
      cases n with
      | zero =>
        rw [hI] at hc
        exact List.eq_of_mem_replicate hc
      | succ m =>
        rw [hI] at hc
        exact List.eq_of_mem_replicate hc

theorem strRepeat_spaces {T : Str} (hT : ∀ c ∈ T, c = ' ') (n : Nat) :
    ∀ c ∈ strRepeat T n, c = ' ' := by
  intro c hc
  rw [strRepeat] at hc
  rw [List.mem_flatten] at hc
  obtain ⟨l, hl, hcl⟩ := hc
  rw [List.eq_of_mem_replicate hl] at hcl
  exact hT c hcl

theorem calcInd_head_top (line level : Int) (b : Str) (cfg : Config)
    (h : line = 0 ∨ level = 0) :
    (calculateIndentation line level b cfg).headIndent = b := by
  rw [calculateIndentation, if_pos h]

theorem calcInd_sub_top (line level : Int) (b : Str) (cfg : Config)
    (h : line = 0 ∨ level = 0) :
    (calculateIndentation line level b cfg).subIndent =
      b ++ (calculateIndentation line level b cfg).tab := by
  rw [calculateIndentation, if_pos h]

theorem calcInd_head_nested (line level : Int) (b : Str) (cfg : Config)
    (h : ¬(line = 0 ∨ level = 0)) :
    (calculateIndentation line level b cfg).headIndent =
      b ++ strRepeat (calculateIndentation line level b cfg).tab level.toNat := by
  rw [calculateIndentation, if_neg h]

theorem calcInd_sub_nested (line level : Int) (b : Str) (cfg : Config)
    (h : ¬(line = 0 ∨ level = 0)) :
    (calculateIndentation line level b cfg).subIndent =
      b ++ strRepeat (calculateIndentation line level b cfg).tab
        (level.toNat + 1) := by
  rw [calculateIndentation, if_neg h]

theorem calcInd_chars (line level : Int) {b : Str} (cfg : Config)
    (hb : ∀ c ∈ b, c = ' ' ∨ c = '\t') :
    (∀ c ∈ (calculateIndentation line level b cfg).headIndent,
        c = ' ' ∨ c = '\t') ∧
    (∀ c ∈ (calculateIndentation line level b cfg).subIndent,
        c = ' ' ∨ c = '\t') := by
  have htab := calcTab_spaces cfg line level b
  by_cases h : line = 0 ∨ level = 0
  · rw [calcInd_head_top _ _ _ _ h, calcInd_sub_top _ _ _ _ h]
    refine ⟨hb, ?_⟩
    intro c hc
    rcases List.mem_append.mp hc with hc | hc
    · exact hb c hc
    · exact Or.inl (htab c hc)
  · rw [calcInd_head_nested _ _ _ _ h, calcInd_sub_nested _ _ _ _ h]
    constructor <;> intro c hc <;> rcases List.mem_append.mp hc with hc | hc
    · exact hb c hc
    · exact Or.inl (strRepeat_spaces htab _ c hc)
    · exact hb c hc
    · exact Or.inl (strRepeat_spaces htab _ c hc)

theorem validate_ok_intro {p : RpgCodeParams} (h1 : jsTrim p.name ≠ [])
    (h2 : p.type ≠ []) (h3 : 0 ≤ p.line) (h4 : 0 ≤ p.level) :
    validateRpgCodeParams p = .ok () := by
  rw [validateRpgCodeParams, if_neg h1, if_neg h2, if_neg (by omega),
    if_neg (by omega)]

theorem validate_ok_facts {p : RpgCodeParams}
    (h : validateRpgCodeParams p = .ok ()) :
    jsTrim p.name ≠ [] ∧ p.type ≠ [] ∧ 0 ≤ p.line ∧ 0 ≤ p.level := by
  rw [validateRpgCodeParams] at h
  split_ifs at h with a b c d <;>
    first
      | exact ⟨a, b, by omega, by omega⟩
      | simp at h

theorem lengthOk_trim {tag l : Str} (h : lengthOkB tag l = true) :
    jsTrim l = l ∧ l ≠ [] := by
  obtain ⟨hne, hch⟩ := lengthOk_chars h
  refine ⟨jsTrim_eq_self ?_, hne⟩
  intro c hc
  rcases hch c hc with hd | rfl
  · exact digit_not_space hd
  · decide

theorem initOk_trim {tag i : Str} (h : initOkB tag i = true) : jsTrim i = i := by
  obtain ⟨hne, hch, hh, hl⟩ := initOk_facts h
  exact jsTrim_ends hh hl

theorem identOk_trim {s : Str} (h : identOkB s = true) : jsTrim s = s := by
  obtain ⟨hne, hch, hst⟩ := identOk_facts h
  exact jsTrim_eq_self (fun c hc => identChar_not_space (hch c hc))

theorem identOk_trim_ne {s : Str} (h : identOkB s = true) : jsTrim s ≠ [] := by
  rw [identOk_trim h]
  exact (identOk_facts h).1

theorem relabelLocal_length : ∀ (fs : List Field) (c : Nat),
    (relabelLocal fs c).length = fs.length := by
  intro fs
  induction fs with
  | nil =>
    intro c
    rw [relabelLocal]
  | cons f rest ih =>
    intro c
    rw [relabelLocal]
    simp [ih]

theorem sizeOf_field_fields {f : Field} : sizeOf f.fields < sizeOf f := by
  cases f
  simp

theorem sizeOf_cons_head {f : Field} {r : List Field} :
    sizeOf f < sizeOf (f :: r) := by
  simp
  omega

theorem sizeOf_cons_tail {f : Field} {r : List Field} :
    sizeOf r < sizeOf (f :: r) := by
  simp

theorem eraseIds_relabel : ∀ (n : Nat) (fs : List Field) (c : Nat),
    sizeOf fs ≤ n → eraseIds (relabelLocal fs c) = eraseIds fs := by
  intro n
  induction n with
  | zero =>
    intro fs c h
    exfalso
    cases fs <;> simp at h
  | succ m ih =>
    intro fs c h
    cases fs with
    | nil => rw [relabelLocal]
    | cons f r =>
      have hf : sizeOf f.fields ≤ m := by
        have h1 := @sizeOf_field_fields f
        have h2 := @sizeOf_cons_head f r
        omega
      have hr : sizeOf r ≤ m := by
        have h3 := @sizeOf_cons_tail f r
        omega
      rw [relabelLocal]
      by_cases hs : f.isStructure
      · rw [if_pos hs, eraseIds, eraseIds]
        congr 1
        · cases f
          simp only
          rw [ih _ 0 hf]
        · exact ih r (c + 1) hr
      · rw [if_neg hs, eraseIds, eraseIds]
        congr 1
        exact ih r (c + 1) hr
theorem joinNl_congr_right : ∀ (A : List Str) {X Y : List Str}, X ≠ [] →
    Y ≠ [] → joinNl X = joinNl Y → joinNl (A ++ X) = joinNl (A ++ Y) := by
  intro A
  induction A with
  | nil =>
    intro X Y _ _ h
    simpa using h
  | cons a T ih =>
    intro X Y hX hY h
    rw [List.cons_append, List.cons_append,
      joinNl_cons_of_ne (by intro hc; exact hX (List.append_eq_nil.mp hc).2),
      joinNl_cons_of_ne (by intro hc; exact hY (List.append_eq_nil.mp hc).2),
      ih hX hY h]

theorem genStructLines_eq (p : RpgCodeParams) (cfg : Config) :
    genStructLines p cfg =
      generateStructureHeader p.name p.type p.dimension p.level p.line (calculateIndentation p.line p.level p.baseIndent cfg).headIndent cfg :: (genFieldsLines p.fields p.baseIndent p.line p.level (calculateIndentation p.line p.level p.baseIndent cfg).subIndent 0 cfg ++ [generateStructureFooter (calculateIndentation p.line p.level p.baseIndent cfg).headIndent cfg]) := by
  rw [genStructLines]
  simp

theorem genStructLines_ne_nil (p : RpgCodeParams) (cfg : Config) :
    genStructLines p cfg ≠ [] := by
  rw [genStructLines_eq]
  simp

theorem generateRpgCode_ok {p : RpgCodeParams} (cfg : Config)
    (hval : validateRpgCodeParams p = .ok ()) :
    generateRpgCode p cfg =
      .ok (joinNl (generateStructureHeader p.name p.type p.dimension p.level p.line (calculateIndentation p.line p.level p.baseIndent cfg).headIndent cfg :: (generateStructureBody p.fields p.baseIndent p.line p.level (calculateIndentation p.line p.level p.baseIndent cfg).subIndent 0 cfg ++ [generateStructureFooter (calculateIndentation p.line p.level p.baseIndent cfg).headIndent cfg]))) := by
  rw [generateRpgCode, hval]
  rfl

theorem generateStructureBody_cons (f : Field) (rest : List Field) (b : Str)
    (line level : Int) (sub : Str) (idx : Nat) (cfg : Config) :
    generateStructureBody (f :: rest) b line level sub idx cfg =
      (if f.isStructure then
        match generateRpgCode ({ name := f.name, type := tDefault, dimension := f.length, fields := f.fields, line := line + idx + 1, level := level + 1, baseIndent := b } : RpgCodeParams) cfg with
        | .ok s => s
        | .error _ => sub ++ str "// Error generating field: " ++ f.name
       else generateFieldLine f sub cfg) ::
      generateStructureBody rest b line level sub (idx + 1) cfg := by
  rw [generateStructureBody]

theorem genFieldsLines_cons (f : Field) (rest : List Field) (b : Str)
    (line level : Int) (sub : Str) (idx : Nat) (cfg : Config) :
    genFieldsLines (f :: rest) b line level sub idx cfg =
      (if f.isStructure then genStructLines ({ name := f.name, type := tDefault, dimension := f.length, fields := f.fields, line := line + idx + 1, level := level + 1, baseIndent := b } : RpgCodeParams) cfg
       else [generateFieldLine f sub cfg]) ++
      genFieldsLines rest b line level sub (idx + 1) cfg := by
  rw [genFieldsLines]

theorem generateStructureBody_cons_str (f : Field) (rest : List Field)
    (b : Str) (line level : Int) (sub : Str) (idx : Nat) (cfg : Config)
    {J : Str} (hs : f.isStructure = true)
    (hgen : generateRpgCode ({ name := f.name, type := tDefault, dimension := f.length, fields := f.fields, line := line + idx + 1, level := level + 1, baseIndent := b } : RpgCodeParams) cfg = .ok J) :
    generateStructureBody (f :: rest) b line level sub idx cfg =
      J :: generateStructureBody rest b line level sub (idx + 1) cfg := by
  rw [generateStructureBody_cons, if_pos hs, hgen]

theorem generateStructureBody_cons_plain (f : Field) (rest : List Field)
    (b : Str) (line level : Int) (sub : Str) (idx : Nat) (cfg : Config)
    (hs : f.isStructure = false) :
    generateStructureBody (f :: rest) b line level sub idx cfg =
      generateFieldLine f sub cfg ::
        generateStructureBody rest b line level sub (idx + 1) cfg := by
  rw [generateStructureBody_cons, if_neg (by simp [hs])]

theorem genFieldsLines_cons_str (f : Field) (rest : List Field)
    (b : Str) (line level : Int) (sub : Str) (idx : Nat) (cfg : Config)
    (hs : f.isStructure = true) :
    genFieldsLines (f :: rest) b line level sub idx cfg =
      genStructLines ({ name := f.name, type := tDefault, dimension := f.length, fields := f.fields, line := line + idx + 1, level := level + 1, baseIndent := b } : RpgCodeParams) cfg ++
        genFieldsLines rest b line level sub (idx + 1) cfg := by
  rw [genFieldsLines_cons, if_pos hs]

theorem genFieldsLines_cons_plain (f : Field) (rest : List Field)
    (b : Str) (line level : Int) (sub : Str) (idx : Nat) (cfg : Config)
    (hs : f.isStructure = false) :
    genFieldsLines (f :: rest) b line level sub idx cfg =
      generateFieldLine f sub cfg ::
        genFieldsLines rest b line level sub (idx + 1) cfg := by
  rw [genFieldsLines_cons, if_neg (by simp [hs])]
  simp

theorem genAll : ∀ (n : Nat) (fs : List Field), sizeOf fs ≤ n →
    wfFieldsB fs = true →
    (∀ (p : RpgCodeParams) (cfg : Config), p.fields = fs →
      validateRpgCodeParams p = .ok () →
      generateRpgCode p cfg = .ok (joinNl (genStructLines p cfg))) ∧
    (∀ (b : Str) (line level : Int) (sub : Str) (idx : Nat) (cfg : Config)
      (R : List Str), R ≠ [] → 0 ≤ line → 0 ≤ level →
      joinNl (generateStructureBody fs b line level sub idx cfg ++ R) =
        joinNl (genFieldsLines fs b line level sub idx cfg ++ R)) := by
  intro n
  induction n with
  | zero =>
    intro fs h
    exfalso
    cases fs <;> simp at h
  | succ m ih =>
    intro fs hsz hwf
    have hB : ∀ (b : Str) (line level : Int) (sub : Str) (idx : Nat)
        (cfg : Config) (R : List Str), R ≠ [] → 0 ≤ line → 0 ≤ level →
        joinNl (generateStructureBody fs b line level sub idx cfg ++ R) =
          joinNl (genFieldsLines fs b line level sub idx cfg ++ R) := by
      cases fs with
      | nil =>
        intro b line level sub idx cfg R hR hl hlv
        rw [generateStructureBody, genFieldsLines]
      | cons f rest =>
        intro b line level sub idx cfg R hR hl hlv
        obtain ⟨hwfrest, hstr, hpl⟩ := wfFields_cons hwf
        have hszf : sizeOf f.fields ≤ m := by
          have h1 := @sizeOf_field_fields f
          have h2 := @sizeOf_cons_head f rest
          omega
        have hszr : sizeOf rest ≤ m := by
          have h3 := @sizeOf_cons_tail f rest
          omega
        have hXne : generateStructureBody rest b line level sub (idx + 1) cfg
            ++ R ≠ [] := by
          intro hc
          exact hR (List.append_eq_nil.mp hc).2
        have hYne : genFieldsLines rest b line level sub (idx + 1) cfg
            ++ R ≠ [] := by
          intro hc
          exact hR (List.append_eq_nil.mp hc).2
        have hIHrest := (ih rest hszr hwfrest).2 b line level sub (idx + 1)
          cfg R hR hl hlv
        by_cases hs : f.isStructure
        · obtain ⟨hty, hnok, hlen, hini, hdim, hwff⟩ := hstr hs
          have hval : validateRpgCodeParams ({ name := f.name, type := tDefault, dimension := f.length, fields := f.fields, line := line + idx + 1, level := level + 1, baseIndent := b } : RpgCodeParams) = .ok () :=
            validate_ok_intro (identOk_trim_ne hnok)
              (by show tDefault ≠ []; decide)
              (by show (0 : Int) ≤ line + (idx : Int) + 1; omega)
              (by show (0 : Int) ≤ level + 1; omega)
          have hgen := (ih f.fields hszf hwff).1
            ({ name := f.name, type := tDefault, dimension := f.length, fields := f.fields, line := line + idx + 1, level := level + 1, baseIndent := b } : RpgCodeParams) cfg rfl hval
          rw [generateStructureBody_cons_str f rest b line level sub idx cfg
            hs hgen, genFieldsLines_cons_str f rest b line level sub idx cfg hs]
          simp only [List.cons_append]
          rw [joinNl_flatten _ (genStructLines_ne_nil _ _),
            joinNl_congr_right _ hXne hYne hIHrest, List.append_assoc]
        · have hs2 : f.isStructure = false := by simpa using hs
          rw [generateStructureBody_cons_plain f rest b line level sub idx cfg
            hs2, genFieldsLines_cons_plain f rest b line level sub idx cfg hs2]
          simp only [List.cons_append]
          rw [joinNl_cons_of_ne hXne, joinNl_cons_of_ne hYne, hIHrest]
    refine ⟨?_, hB⟩
    intro p cfg hpf hval
    obtain ⟨hv1, hv2, hv3, hv4⟩ := validate_ok_facts hval
    rw [generateRpgCode_ok cfg hval, genStructLines_eq]
    have hb := hB p.baseIndent p.line p.level
      (calculateIndentation p.line p.level p.baseIndent cfg).subIndent 0 cfg
      [generateStructureFooter (calculateIndentation p.line p.level p.baseIndent cfg).headIndent cfg] (by simp) hv3 hv4
    rw [← hpf] at hb
    have hne1 : generateStructureBody p.fields p.baseIndent p.line p.level (calculateIndentation p.line p.level p.baseIndent cfg).subIndent 0 cfg ++ [generateStructureFooter (calculateIndentation p.line p.level p.baseIndent cfg).headIndent cfg] ≠ [] := by simp
    have hne2 : genFieldsLines p.fields p.baseIndent p.line p.level (calculateIndentation p.line p.level p.baseIndent cfg).subIndent 0 cfg ++ [generateStructureFooter (calculateIndentation p.line p.level p.baseIndent cfg).headIndent cfg] ≠ [] := by simp
    rw [joinNl_cons_of_ne hne1, joinNl_cons_of_ne hne2, hb]
theorem dimClauseCapture_nil : dimClauseCapture [] = none := by
  rw [dimClauseCapture]

theorem parseFields_def (lines : List Str) (fmt : StructureFormat) :
    parseFields lines fmt = parseFieldsGo lines fmt 0 := by
  rw [parseFields]

theorem genStructLines_eq_explicit (nm ty : Str) (dim : Option Str)
    (flds : List Field) (ln lv : Int) (bI : Str) (cfg : Config) :
    genStructLines (⟨nm, ty, dim, flds, ln, lv, bI⟩ : RpgCodeParams) cfg =
      generateStructureHeader nm ty dim lv ln
          (calculateIndentation ln lv bI cfg).headIndent cfg ::
        (genFieldsLines flds bI ln lv
            (calculateIndentation ln lv bI cfg).subIndent 0 cfg ++
          [generateStructureFooter
            (calculateIndentation ln lv bI cfg).headIndent cfg]) :=
  genStructLines_eq _ cfg

theorem findNestedEndRel_step_other {l : Str} (rest : List Str) (lvl : Nat)
    (hne : jsTrim l ≠ []) (hcom : (str "//").isPrefixOf (jsTrim l) = false)
    (hkw : startKwTest l = false)
    (hend : structureEndTest (jsTrim l) = false) :
    findNestedEndRel (l :: rest) lvl =
      (findNestedEndRel rest lvl).map (· + 1) := by
  simp only [findNestedEndRel]
  rw [if_neg (by simp [hne, hcom]), if_neg (by simp [hkw]),
    if_neg (by simp [hend])]

theorem findNestedEndRel_step_open {l : Str} (rest : List Str) (lvl : Nat)
    (hne : jsTrim l ≠ []) (hcom : (str "//").isPrefixOf (jsTrim l) = false)
    (hkw : startKwTest l = true) :
    findNestedEndRel (l :: rest) lvl =
      (findNestedEndRel rest (lvl + 1)).map (· + 1) := by
  simp only [findNestedEndRel]
  rw [if_neg (by simp [hne, hcom]), if_pos hkw]

theorem findNestedEndRel_step_close0 {l : Str} (rest : List Str)
    (hne : jsTrim l ≠ []) (hcom : (str "//").isPrefixOf (jsTrim l) = false)
    (hkw : startKwTest l = false)
    (hend : structureEndTest (jsTrim l) = true) :
    findNestedEndRel (l :: rest) 0 = some 0 := by
  simp only [findNestedEndRel]
  rw [if_neg (by simp [hne, hcom]), if_neg (by simp [hkw]), if_pos hend]
  simp

theorem findNestedEndRel_step_close_succ {l : Str} (rest : List Str)
    {lvl : Nat} (hlvl : ¬ lvl = 0)
    (hne : jsTrim l ≠ []) (hcom : (str "//").isPrefixOf (jsTrim l) = false)
    (hkw : startKwTest l = false)
    (hend : structureEndTest (jsTrim l) = true) :
    findNestedEndRel (l :: rest) lvl =
      (findNestedEndRel rest (lvl - 1)).map (· + 1) := by
  simp only [findNestedEndRel]
  rw [if_neg (by simp [hne, hcom]), if_neg (by simp [hkw]), if_pos hend,
    if_neg hlvl]

theorem parseFieldsGo_step_plain {raw : Str} (rest : List Str)
    (fmt : StructureFormat) (c : Nat) {CORE : Str} {fm : FieldMatch}
    (hjt : jsTrim raw = CORE) (hne : CORE ≠ [])
    (hcom : (str "//").isPrefixOf CORE = false)
    (hsm : structureStartMatch CORE = none)
    (hsub : substructureMatch CORE = none)
    (hfm : fieldMatch CORE = some fm) :
    parseFieldsGo (raw :: rest) fmt c =
      parseFieldFromMatch fm c fmt :: parseFieldsGo rest fmt (c + 1) := by
  rw [parseFieldsGo]
  simp only [hjt]
  rw [if_neg (by simp [hne, hcom])]
  simp only [hsm, hsub, hfm]

theorem parseFieldsGo_step_open {raw : Str} (rest : List Str)
    (fmt : StructureFormat) (c : Nat) {CORE : Str} {m m2 : StartMatch}
    {e : Nat}
    (hjt : jsTrim raw = CORE) (hne : CORE ≠ [])
    (hcom : (str "//").isPrefixOf CORE = false)
    (hsm : structureStartMatch CORE = some m2)
    (hsmr : structureStartMatch raw = some m)
    (hfind : findNestedEndRel rest 0 = some e) :
    parseFieldsGo (raw :: rest) fmt c =
      { idNumber := c, name := jsTrim m.name, type := [],
        length := (dimClauseCapture m.modifiers).map jsTrim, init := none,
        dim := none, isStructure := true,
        fields := parseFields (rest.take e) fmt } ::
      parseFieldsGo (rest.drop (e + 1)) fmt (c + 1) := by
  rw [parseFieldsGo]
  simp only [hjt]
  rw [if_neg (by simp [hne, hcom])]
  simp only [hsm, hsmr, hfind]

theorem scanGo_step_none {l : Str} (rest : List Str) (i : Nat)
    (stack : List StackEntry) (acc : List Span)
    (hsm : structureStartMatch l = none)
    (hend : structureEndTest l = false) :
    scanBoundariesGo (l :: rest) i stack acc =
      scanBoundariesGo rest (i + 1) stack acc := by
  rw [scanBoundariesGo]
  simp only [hsm, hend]
  rw [if_neg (by simp)]

theorem scanGo_step_open {l : Str} (rest : List Str) (i : Nat)
    (stack : List StackEntry) (acc : List Span) {m : StartMatch}
    (hsm : structureStartMatch l = some m)
    (hend : structureEndTest l = false) :
    scanBoundariesGo (l :: rest) i stack acc =
      scanBoundariesGo rest (i + 1)
        ((⟨i, m, stack.length⟩ : StackEntry) :: stack) acc := by
  rw [scanBoundariesGo]
  simp only [hsm, hend]
  rw [if_neg (by simp)]

theorem scanGo_step_close {l : Str} (rest : List Str) (i : Nat)
    {e : StackEntry} {st : List StackEntry} (acc : List Span)
    (hsm : structureStartMatch l = none)
    (hend : structureEndTest l = true) :
    scanBoundariesGo (l :: rest) i (e :: st) acc =
      scanBoundariesGo rest (i + 1) st
        (acc ++ [⟨e.startLine, i, e.headerMatch, e.level⟩]) := by
  rw [scanBoundariesGo]
  simp only [hsm, hend]
  simp
theorem genFooter_eq (hi : Str) (cfg : Config) :
    generateStructureFooter hi cfg =
      hi ++ ((FORMAT_MAP cfg.structureFormat).endds ++ [';']) := by
  rw [generateStructureFooter]
  simp

theorem parseFieldsGo_nil (fmt : StructureFormat) (c : Nat) :
    parseFieldsGo [] fmt c = [] := by
  rw [parseFieldsGo]

theorem dimx_head_not_space (fmt : StructureFormat) (t : Str) :
    ∀ c, ((FORMAT_MAP fmt).dimx ++ t).head? = some c → jsIsSpace c = false := by
  cases fmt
  all_goals intro c hc
  · have h2 : some 'd' = some c := hc
    cases h2
    decide
  · have h2 : some 'D' = some c := hc
    cases h2
    decide
  · have h2 : some 'D' = some c := hc
    cases h2
    decide

theorem ME_facts (cfg : Config) {dv : Str} (hdv : digitsOkB dv = true) :
    ((FORMAT_MAP cfg.structureFormat).dimx ++ ('(' :: (dv ++ [')'])) : Str) ≠
      [] ∧
    (∀ c, ((FORMAT_MAP cfg.structureFormat).dimx ++
        ('(' :: (dv ++ [')']))).head? = some c → jsIsSpace c = false) ∧
    (∀ c ∈ ((FORMAT_MAP cfg.structureFormat).dimx ++
        ('(' :: (dv ++ [')'])) : Str), ¬ c = ';') ∧
    (∀ c ∈ ((FORMAT_MAP cfg.structureFormat).dimx ++
        ('(' :: (dv ++ [')'])) : Str), ¬ c = '\n') := by
  obtain ⟨hne, hdig⟩ := digitsOk_facts hdv
  have hdxne : (FORMAT_MAP cfg.structureFormat).dimx ≠ [] := by
    cases cfg.structureFormat <;> decide
  refine ⟨?_, dimx_head_not_space _ _, ?_, ?_⟩
  · intro h
    exact hdxne (List.append_eq_nil.mp h).1
  · intro c hc
    rcases List.mem_append.mp hc with hc | hc
    · exact (fmt_no_semi cfg.structureFormat).2.1 c hc
    rcases List.mem_cons.mp hc with rfl | hc
    · decide
    rcases List.mem_append.mp hc with hc | hc
    · exact (digit_misc (hdig c hc)).2.2.2.2.1
    · simp at hc
      subst hc
      decide
  · intro c hc
    rcases List.mem_append.mp hc with hc | hc
    · exact dimx_not_nl cfg.structureFormat c hc
    rcases List.mem_cons.mp hc with rfl | hc
    · decide
    rcases List.mem_append.mp hc with hc | hc
    · exact (digit_misc (hdig c hc)).2.2.2.1
    · simp at hc
      subst hc
      decide

theorem cons_append_append {α : Type} (H F : α) (inner rest2 : List α) :
    (H :: (inner ++ [F])) ++ rest2 = H :: (inner ++ (F :: rest2)) := by
  simp

theorem cons_append_reshape {α : Type} (H F : α) (inner r2 X : List α) :
    (H :: (inner ++ (F :: r2))) ++ X = H :: (inner ++ (F :: (r2 ++ X))) := by
  simp
theorem scanGo_step_close_lit {l : Str} (rest : List Str) (i j : Nat)
    (m : StartMatch) (lv : Nat) {st : List StackEntry} (acc : List Span)
    (hsm : structureStartMatch l = none)
    (hend : structureEndTest l = true) :
    scanBoundariesGo (l :: rest) j ((⟨i, m, lv⟩ : StackEntry) :: st) acc =
      scanBoundariesGo rest (j + 1) st
        (acc ++ [(⟨i, j, m, lv⟩ : Span)]) :=
  scanGo_step_close rest j acc hsm hend

set_option maxHeartbeats 2000000

theorem parseGen : ∀ (n : Nat) (fs : List Field), sizeOf fs ≤ n →
    wfFieldsB fs = true →
    ∀ {b : Str}, (∀ c ∈ b, c = ' ' ∨ c = '\t') →
    ∀ (line level : Int), 0 ≤ line → 0 ≤ level →
    ∀ {sub : Str}, (∀ c ∈ sub, c = ' ' ∨ c = '\t') →
    ∀ (idx : Nat) (cfg : Config),
    (∀ l ∈ genFieldsLines fs b line level sub idx cfg, nlFree l = true) ∧
    (∀ (R : List Str) (lvl : Nat),
      findNestedEndRel (genFieldsLines fs b line level sub idx cfg ++ R)
          lvl =
        (findNestedEndRel R lvl).map
          (· + (genFieldsLines fs b line level sub idx cfg).length)) ∧
    (∀ (tail : List Str) (c : Nat),
      parseFieldsGo (genFieldsLines fs b line level sub idx cfg ++ tail)
          cfg.structureFormat c =
        relabelLocal fs c ++
          parseFieldsGo tail cfg.structureFormat (c + fs.length)) ∧
    (∀ (R : List Str) (i : Nat) (stack : List StackEntry)
        (acc : List Span),
      ∃ ex : List Span,
        scanBoundariesGo
            (genFieldsLines fs b line level sub idx cfg ++ R) i stack acc =
          scanBoundariesGo R
            (i + (genFieldsLines fs b line level sub idx cfg).length)
            stack (acc ++ ex) ∧
        ∀ T ∈ ex, i ≤ T.startLine) := by
  intro n
  induction n with
  | zero =>
    intro fs h
    exfalso
    cases fs <;> simp at h
  | succ m ih =>
    intro fs hsz hwf b hb line level hl hlv sub hsub idx cfg
    cases fs with
    | nil =>
      have h0 : genFieldsLines ([] : List Field) b line level sub idx cfg =
          [] := by
        rw [genFieldsLines]
      refine ⟨?_, ?_, ?_, ?_⟩
      · intro l hl2
        rw [h0] at hl2
        simp at hl2
      · intro R lvl
        rw [h0]
        simp
      · intro tail c
        rw [h0, relabelLocal]
        simp
      · intro R i stack acc
        refine ⟨[], ?_, by simp⟩
        rw [h0]
        simp
    | cons f rest =>
      obtain ⟨hwfrest, hstr, hpl⟩ := wfFields_cons hwf
      have hszf : sizeOf f.fields ≤ m := by
        have h1 := @sizeOf_field_fields f
        have h2 := @sizeOf_cons_head f rest
        omega
      have hszr : sizeOf rest ≤ m := by
        have h3 := @sizeOf_cons_tail f rest
        omega
      obtain ⟨ihR1, ihR2, ihR3, ihR4⟩ :=
        ih rest hszr hwfrest hb line level hl hlv hsub (idx + 1) cfg
      have hwsN : ∀ c ∈ ((calculateIndentation (line + idx + 1) (level + 1) b cfg).headIndent : Str), c = ' ' ∨ c = '\t' :=
        (calcInd_chars (line + idx + 1) (level + 1) cfg hb).1
      have hsubN : ∀ c ∈ ((calculateIndentation (line + idx + 1) (level + 1) b cfg).subIndent : Str), c = ' ' ∨ c = '\t' :=
        (calcInd_chars (line + idx + 1) (level + 1) cfg hb).2
      by_cases hs : f.isStructure = true
      · obtain ⟨hty, hnok, hlen, hini2, hdim2, hwff⟩ := hstr hs
        cases hL : f.length with
        | some dv =>
          have hdv : digitsOkB dv = true := hlen dv hL
          obtain ⟨hdvne, hdvdig⟩ := digitsOk_facts hdv
          have hjd : jsTrim dv = dv :=
            jsTrim_eq_self (fun ch hc => digit_not_space (hdvdig ch hc))
          obtain ⟨hME1, hME2, hME3, hME4⟩ := ME_facts cfg hdv

          have hblock := genFieldsLines_cons_str f rest b line level sub idx cfg hs
          rw [genStructLines_eq_explicit f.name tDefault f.length f.fields
            (line + idx + 1) (level + 1) b cfg] at hblock
          rw [hL] at hblock
          rw [genHeader_nested_some cfg (calculateIndentation (line + idx + 1) (level + 1) b cfg).headIndent (level + 1) (line + idx + 1) (by omega) (identOk_trim hnok) hjd hdvne] at hblock
          rw [genFooter_eq (calculateIndentation (line + idx + 1) (level + 1) b cfg).headIndent cfg] at hblock
          rw [cons_append_append] at hblock
          obtain ⟨o1, o2, o3, o4, o5, o6, o7, o8, o9⟩ := openLine_facts cfg hwsN hnok hME1 hME2 hME3 hME4
          obtain ⟨f1, f2, f3, f4, f5, f6, f7, f8, f9⟩ :=
            footerLine_facts cfg hwsN
          have ihInner := ih f.fields hszf hwff hb (line + idx + 1) (level + 1)
            (by omega) (by omega) hsubN 0 cfg
          obtain ⟨ihI1, ihI2, ihI3, ihI4⟩ := ihInner
          refine ⟨?_, ?_, ?_, ?_⟩
          · intro l hl2
            rw [hblock] at hl2
            rcases List.mem_cons.mp hl2 with rfl | hl2
            · exact o9
            rcases List.mem_append.mp hl2 with hl2 | hl2
            · exact ihI1 l hl2
            rcases List.mem_cons.mp hl2 with rfl | hl2
            · exact f9
            · exact ihR1 l hl2
          · intro R lvl
            rw [hblock]
            rw [cons_append_reshape]
            rw [findNestedEndRel_step_open _ lvl (by rw [o1]; exact o2)
              (by rw [o1]; exact o3) o6]
            rw [ihI2 (((calculateIndentation (line + idx + 1) (level + 1) b cfg).headIndent ++ ((FORMAT_MAP cfg.structureFormat).endds ++ [';'])) :: (genFieldsLines rest b line level sub (idx + 1) cfg ++ R)) (lvl + 1)]
            rw [findNestedEndRel_step_close_succ _ (by omega)
              (by rw [f1]; exact f2) (by rw [f1]; exact f3) f6
              (by rw [f1]; exact f7)]
            simp only [Nat.add_sub_cancel]
            rw [ihR2 R lvl]
            cases h2 : findNestedEndRel R lvl with
            | none => simp
            | some v =>
              simp
              omega
          · intro tail c
            have hfind : findNestedEndRel (genFieldsLines f.fields b (line + idx + 1) (level + 1) (calculateIndentation (line + idx + 1) (level + 1) b cfg).subIndent 0 cfg ++
                (((calculateIndentation (line + idx + 1) (level + 1) b cfg).headIndent ++ ((FORMAT_MAP cfg.structureFormat).endds ++ [';'])) :: (genFieldsLines rest b line level sub (idx + 1) cfg ++ tail))) 0 = some (genFieldsLines f.fields b (line + idx + 1) (level + 1) (calculateIndentation (line + idx + 1) (level + 1) b cfg).subIndent 0 cfg).length := by
              rw [ihI2 (((calculateIndentation (line + idx + 1) (level + 1) b cfg).headIndent ++ ((FORMAT_MAP cfg.structureFormat).endds ++ [';'])) :: (genFieldsLines rest b line level sub (idx + 1) cfg ++ tail)) 0]
              rw [findNestedEndRel_step_close0 _ (by rw [f1]; exact f2)
                (by rw [f1]; exact f3) f6 (by rw [f1]; exact f7)]
              simp
            have hTake : (genFieldsLines f.fields b (line + idx + 1) (level + 1) (calculateIndentation (line + idx + 1) (level + 1) b cfg).subIndent 0 cfg ++ (((calculateIndentation (line + idx + 1) (level + 1) b cfg).headIndent ++ ((FORMAT_MAP cfg.structureFormat).endds ++ [';'])) :: (genFieldsLines rest b line level sub (idx + 1) cfg ++ tail))).take
                (genFieldsLines f.fields b (line + idx + 1) (level + 1) (calculateIndentation (line + idx + 1) (level + 1) b cfg).subIndent 0 cfg).length = genFieldsLines f.fields b (line + idx + 1) (level + 1) (calculateIndentation (line + idx + 1) (level + 1) b cfg).subIndent 0 cfg := List.take_left _ _
            have hParseInner : parseFields (genFieldsLines f.fields b (line + idx + 1) (level + 1) (calculateIndentation (line + idx + 1) (level + 1) b cfg).subIndent 0 cfg) cfg.structureFormat =
                relabelLocal f.fields 0 := by
              rw [parseFields_def]
              have h0 := ihI3 [] 0
              rw [List.append_nil] at h0
              rw [h0, parseFieldsGo_nil, List.append_nil]
            have hDrop : (genFieldsLines f.fields b (line + idx + 1) (level + 1) (calculateIndentation (line + idx + 1) (level + 1) b cfg).subIndent 0 cfg ++ (((calculateIndentation (line + idx + 1) (level + 1) b cfg).headIndent ++ ((FORMAT_MAP cfg.structureFormat).endds ++ [';'])) :: (genFieldsLines rest b line level sub (idx + 1) cfg ++ tail))).drop
                ((genFieldsLines f.fields b (line + idx + 1) (level + 1) (calculateIndentation (line + idx + 1) (level + 1) b cfg).subIndent 0 cfg).length + 1) = genFieldsLines rest b line level sub (idx + 1) cfg ++ tail := by
              rw [show (genFieldsLines f.fields b (line + idx + 1) (level + 1) (calculateIndentation (line + idx + 1) (level + 1) b cfg).subIndent 0 cfg ++ (((calculateIndentation (line + idx + 1) (level + 1) b cfg).headIndent ++ ((FORMAT_MAP cfg.structureFormat).endds ++ [';'])) :: (genFieldsLines rest b line level sub (idx + 1) cfg ++ tail))) =
                (genFieldsLines f.fields b (line + idx + 1) (level + 1) (calculateIndentation (line + idx + 1) (level + 1) b cfg).subIndent 0 cfg ++ [((calculateIndentation (line + idx + 1) (level + 1) b cfg).headIndent ++ ((FORMAT_MAP cfg.structureFormat).endds ++ [';']))]) ++ (genFieldsLines rest b line level sub (idx + 1) cfg ++ tail) from by simp,
                show (genFieldsLines f.fields b (line + idx + 1) (level + 1) (calculateIndentation (line + idx + 1) (level + 1) b cfg).subIndent 0 cfg).length + 1 = (genFieldsLines f.fields b (line + idx + 1) (level + 1) (calculateIndentation (line + idx + 1) (level + 1) b cfg).subIndent 0 cfg ++ [((calculateIndentation (line + idx + 1) (level + 1) b cfg).headIndent ++ ((FORMAT_MAP cfg.structureFormat).endds ++ [';']))]).length from
                  by simp,
                List.drop_left]
            rw [hblock]
            rw [cons_append_reshape]
            rw [parseFieldsGo_step_open _ cfg.structureFormat c o1 o2 o3 o4 o5 hfind]
            rw [hTake, hParseInner, hDrop]
            have hHead : ({ idNumber := c, name := jsTrim ((⟨(FORMAT_MAP cfg.structureFormat).dclds, f.name, ((FORMAT_MAP cfg.structureFormat).dimx ++ ('(' :: (dv ++ [')'])))⟩ : StartMatch)).name, type := [], length := (dimClauseCapture ((⟨(FORMAT_MAP cfg.structureFormat).dclds, f.name, ((FORMAT_MAP cfg.structureFormat).dimx ++ ('(' :: (dv ++ [')'])))⟩ : StartMatch)).modifiers).map jsTrim, init := none, dim := none, isStructure := true, fields := relabelLocal f.fields 0 } : Field) = {f with idNumber := c, fields := relabelLocal f.fields 0} := by
              show ({ idNumber := c, name := jsTrim f.name, type := [], length := (dimClauseCapture (((⟨(FORMAT_MAP cfg.structureFormat).dclds, f.name, ((FORMAT_MAP cfg.structureFormat).dimx ++ ('(' :: (dv ++ [')'])))⟩ : StartMatch)).modifiers)).map jsTrim, init := none, dim := none, isStructure := true, fields := relabelLocal f.fields 0 } : Field) = _
              rw [identOk_trim hnok]
              rw [show dimClauseCapture (((FORMAT_MAP cfg.structureFormat).dimx ++ ('(' :: (dv ++ [')'])))) = some dv from
                dimClauseCapture_at_dim cfg.structureFormat hdvne
                  (fun ch hc => (digit_misc (hdvdig ch hc)).1)
                  (fun ch hc => digit_not_space (hdvdig ch (head?_mem_str hc)))]
              rw [Option.map_some', hjd]
              obtain ⟨fid, fname, ftype, flen, fini, fdim, fstr, ffld⟩ := f
              simp only at hty hini2 hdim2 hs hL
              subst hty
              subst hini2
              subst hdim2
              subst hs
              subst hL
              rfl
            rw [hHead, ihR3 tail (c + 1), relabelLocal, if_pos hs]
            simp only [List.cons_append]
            rw [show c + (f :: rest).length = c + 1 + rest.length from by
              simp
              omega]
          · intro R i stack acc
            obtain ⟨exI, hexI, hexImem⟩ := ihI4 (((calculateIndentation (line + idx + 1) (level + 1) b cfg).headIndent ++ ((FORMAT_MAP cfg.structureFormat).endds ++ [';'])) :: (genFieldsLines rest b line level sub (idx + 1) cfg ++ R))
              (i + 1) ((⟨i, (⟨(FORMAT_MAP cfg.structureFormat).dclds, f.name, ((FORMAT_MAP cfg.structureFormat).dimx ++ ('(' :: (dv ++ [')'])))⟩ : StartMatch), stack.length⟩ : StackEntry) :: stack) acc
            obtain ⟨exR, hexR, hexRmem⟩ := ihR4 R
              (i + 1 + (genFieldsLines f.fields b (line + idx + 1) (level + 1) (calculateIndentation (line + idx + 1) (level + 1) b cfg).subIndent 0 cfg).length + 1) stack
              (acc ++ exI ++ [(⟨i, i + 1 + (genFieldsLines f.fields b (line + idx + 1) (level + 1) (calculateIndentation (line + idx + 1) (level + 1) b cfg).subIndent 0 cfg).length, (⟨(FORMAT_MAP cfg.structureFormat).dclds, f.name, ((FORMAT_MAP cfg.structureFormat).dimx ++ ('(' :: (dv ++ [')'])))⟩ : StartMatch), stack.length⟩ : Span)])
            refine ⟨exI ++ ([(⟨i, i + 1 + (genFieldsLines f.fields b (line + idx + 1) (level + 1) (calculateIndentation (line + idx + 1) (level + 1) b cfg).subIndent 0 cfg).length, (⟨(FORMAT_MAP cfg.structureFormat).dclds, f.name, ((FORMAT_MAP cfg.structureFormat).dimx ++ ('(' :: (dv ++ [')'])))⟩ : StartMatch), stack.length⟩ : Span)] ++ exR), ?_, ?_⟩
            · rw [hblock]
              rw [cons_append_reshape]
              rw [scanGo_step_open _ i stack acc o5 o8]
              rw [hexI]
              rw [scanGo_step_close_lit _ i (i + 1 + (genFieldsLines f.fields b (line + idx + 1) (level + 1) (calculateIndentation (line + idx + 1) (level + 1) b cfg).subIndent 0 cfg).length)
                (⟨(FORMAT_MAP cfg.structureFormat).dclds, f.name, ((FORMAT_MAP cfg.structureFormat).dimx ++ ('(' :: (dv ++ [')'])))⟩ : StartMatch) stack.length (acc ++ exI) f5 f8]
              rw [hexR]
              congr 1
              · simp
                omega
              · simp
            · intro T hT
              rcases List.mem_append.mp hT with hT | hT
              · have := hexImem T hT
                omega
              rcases List.mem_append.mp hT with hT | hT
              · simp at hT
                subst hT
                simp
              · have := hexRmem T hT
                omega

        | none =>

          have hblock := genFieldsLines_cons_str f rest b line level sub idx cfg hs
          rw [genStructLines_eq_explicit f.name tDefault f.length f.fields
            (line + idx + 1) (level + 1) b cfg] at hblock
          rw [hL] at hblock
          rw [genHeader_nested_none cfg (calculateIndentation (line + idx + 1) (level + 1) b cfg).headIndent (level + 1) (line + idx + 1) (by omega) (identOk_trim hnok)] at hblock
          rw [genFooter_eq (calculateIndentation (line + idx + 1) (level + 1) b cfg).headIndent cfg] at hblock
          rw [cons_append_append] at hblock
          obtain ⟨o1, o2, o3, o4, o5, o6, o7, o8, o9⟩ := openLineNomod_facts cfg hwsN hnok
          obtain ⟨f1, f2, f3, f4, f5, f6, f7, f8, f9⟩ :=
            footerLine_facts cfg hwsN
          have ihInner := ih f.fields hszf hwff hb (line + idx + 1) (level + 1)
            (by omega) (by omega) hsubN 0 cfg
          obtain ⟨ihI1, ihI2, ihI3, ihI4⟩ := ihInner
          refine ⟨?_, ?_, ?_, ?_⟩
          · intro l hl2
            rw [hblock] at hl2
            rcases List.mem_cons.mp hl2 with rfl | hl2
            · exact o9
            rcases List.mem_append.mp hl2 with hl2 | hl2
            · exact ihI1 l hl2
            rcases List.mem_cons.mp hl2 with rfl | hl2
            · exact f9
            · exact ihR1 l hl2
          · intro R lvl
            rw [hblock]
            rw [cons_append_reshape]
            rw [findNestedEndRel_step_open _ lvl (by rw [o1]; exact o2)
              (by rw [o1]; exact o3) o6]
            rw [ihI2 (((calculateIndentation (line + idx + 1) (level + 1) b cfg).headIndent ++ ((FORMAT_MAP cfg.structureFormat).endds ++ [';'])) :: (genFieldsLines rest b line level sub (idx + 1) cfg ++ R)) (lvl + 1)]
            rw [findNestedEndRel_step_close_succ _ (by omega)
              (by rw [f1]; exact f2) (by rw [f1]; exact f3) f6
              (by rw [f1]; exact f7)]
            simp only [Nat.add_sub_cancel]
            rw [ihR2 R lvl]
            cases h2 : findNestedEndRel R lvl with
            | none => simp
            | some v =>
              simp
              omega
          · intro tail c
            have hfind : findNestedEndRel (genFieldsLines f.fields b (line + idx + 1) (level + 1) (calculateIndentation (line + idx + 1) (level + 1) b cfg).subIndent 0 cfg ++
                (((calculateIndentation (line + idx + 1) (level + 1) b cfg).headIndent ++ ((FORMAT_MAP cfg.structureFormat).endds ++ [';'])) :: (genFieldsLines rest b line level sub (idx + 1) cfg ++ tail))) 0 = some (genFieldsLines f.fields b (line + idx + 1) (level + 1) (calculateIndentation (line + idx + 1) (level + 1) b cfg).subIndent 0 cfg).length := by
              rw [ihI2 (((calculateIndentation (line + idx + 1) (level + 1) b cfg).headIndent ++ ((FORMAT_MAP cfg.structureFormat).endds ++ [';'])) :: (genFieldsLines rest b line level sub (idx + 1) cfg ++ tail)) 0]
              rw [findNestedEndRel_step_close0 _ (by rw [f1]; exact f2)
                (by rw [f1]; exact f3) f6 (by rw [f1]; exact f7)]
              simp
            have hTake : (genFieldsLines f.fields b (line + idx + 1) (level + 1) (calculateIndentation (line + idx + 1) (level + 1) b cfg).subIndent 0 cfg ++ (((calculateIndentation (line + idx + 1) (level + 1) b cfg).headIndent ++ ((FORMAT_MAP cfg.structureFormat).endds ++ [';'])) :: (genFieldsLines rest b line level sub (idx + 1) cfg ++ tail))).take
                (genFieldsLines f.fields b (line + idx + 1) (level + 1) (calculateIndentation (line + idx + 1) (level + 1) b cfg).subIndent 0 cfg).length = genFieldsLines f.fields b (line + idx + 1) (level + 1) (calculateIndentation (line + idx + 1) (level + 1) b cfg).subIndent 0 cfg := List.take_left _ _
            have hParseInner : parseFields (genFieldsLines f.fields b (line + idx + 1) (level + 1) (calculateIndentation (line + idx + 1) (level + 1) b cfg).subIndent 0 cfg) cfg.structureFormat =
                relabelLocal f.fields 0 := by
              rw [parseFields_def]
              have h0 := ihI3 [] 0
              rw [List.append_nil] at h0
              rw [h0, parseFieldsGo_nil, List.append_nil]
            have hDrop : (genFieldsLines f.fields b (line + idx + 1) (level + 1) (calculateIndentation (line + idx + 1) (level + 1) b cfg).subIndent 0 cfg ++ (((calculateIndentation (line + idx + 1) (level + 1) b cfg).headIndent ++ ((FORMAT_MAP cfg.structureFormat).endds ++ [';'])) :: (genFieldsLines rest b line level sub (idx + 1) cfg ++ tail))).drop
                ((genFieldsLines f.fields b (line + idx + 1) (level + 1) (calculateIndentation (line + idx + 1) (level + 1) b cfg).subIndent 0 cfg).length + 1) = genFieldsLines rest b line level sub (idx + 1) cfg ++ tail := by
              rw [show (genFieldsLines f.fields b (line + idx + 1) (level + 1) (calculateIndentation (line + idx + 1) (level + 1) b cfg).subIndent 0 cfg ++ (((calculateIndentation (line + idx + 1) (level + 1) b cfg).headIndent ++ ((FORMAT_MAP cfg.structureFormat).endds ++ [';'])) :: (genFieldsLines rest b line level sub (idx + 1) cfg ++ tail))) =
                (genFieldsLines f.fields b (line + idx + 1) (level + 1) (calculateIndentation (line + idx + 1) (level + 1) b cfg).subIndent 0 cfg ++ [((calculateIndentation (line + idx + 1) (level + 1) b cfg).headIndent ++ ((FORMAT_MAP cfg.structureFormat).endds ++ [';']))]) ++ (genFieldsLines rest b line level sub (idx + 1) cfg ++ tail) from by simp,
                show (genFieldsLines f.fields b (line + idx + 1) (level + 1) (calculateIndentation (line + idx + 1) (level + 1) b cfg).subIndent 0 cfg).length + 1 = (genFieldsLines f.fields b (line + idx + 1) (level + 1) (calculateIndentation (line + idx + 1) (level + 1) b cfg).subIndent 0 cfg ++ [((calculateIndentation (line + idx + 1) (level + 1) b cfg).headIndent ++ ((FORMAT_MAP cfg.structureFormat).endds ++ [';']))]).length from
                  by simp,
                List.drop_left]
            rw [hblock]
            rw [cons_append_reshape]
            rw [parseFieldsGo_step_open _ cfg.structureFormat c o1 o2 o3 o4 o5 hfind]
            rw [hTake, hParseInner, hDrop]
            have hHead : ({ idNumber := c, name := jsTrim ((⟨(FORMAT_MAP cfg.structureFormat).dclds, f.name, []⟩ : StartMatch)).name, type := [], length := (dimClauseCapture ((⟨(FORMAT_MAP cfg.structureFormat).dclds, f.name, []⟩ : StartMatch)).modifiers).map jsTrim, init := none, dim := none, isStructure := true, fields := relabelLocal f.fields 0 } : Field) = {f with idNumber := c, fields := relabelLocal f.fields 0} := by
              show ({ idNumber := c, name := jsTrim f.name, type := [], length := (dimClauseCapture (((⟨(FORMAT_MAP cfg.structureFormat).dclds, f.name, []⟩ : StartMatch)).modifiers)).map jsTrim, init := none, dim := none, isStructure := true, fields := relabelLocal f.fields 0 } : Field) = _
              rw [identOk_trim hnok]
              rw [show dimClauseCapture ([] : Str) = none from
                dimClauseCapture_nil]
              rw [show (none : Option Str).map jsTrim = none from rfl]
              obtain ⟨fid, fname, ftype, flen, fini, fdim, fstr, ffld⟩ := f
              simp only at hty hini2 hdim2 hs hL
              subst hty
              subst hini2
              subst hdim2
              subst hs
              subst hL
              rfl
            rw [hHead, ihR3 tail (c + 1), relabelLocal, if_pos hs]
            simp only [List.cons_append]
            rw [show c + (f :: rest).length = c + 1 + rest.length from by
              simp
              omega]
          · intro R i stack acc
            obtain ⟨exI, hexI, hexImem⟩ := ihI4 (((calculateIndentation (line + idx + 1) (level + 1) b cfg).headIndent ++ ((FORMAT_MAP cfg.structureFormat).endds ++ [';'])) :: (genFieldsLines rest b line level sub (idx + 1) cfg ++ R))
              (i + 1) ((⟨i, (⟨(FORMAT_MAP cfg.structureFormat).dclds, f.name, []⟩ : StartMatch), stack.length⟩ : StackEntry) :: stack) acc
            obtain ⟨exR, hexR, hexRmem⟩ := ihR4 R
              (i + 1 + (genFieldsLines f.fields b (line + idx + 1) (level + 1) (calculateIndentation (line + idx + 1) (level + 1) b cfg).subIndent 0 cfg).length + 1) stack
              (acc ++ exI ++ [(⟨i, i + 1 + (genFieldsLines f.fields b (line + idx + 1) (level + 1) (calculateIndentation (line + idx + 1) (level + 1) b cfg).subIndent 0 cfg).length, (⟨(FORMAT_MAP cfg.structureFormat).dclds, f.name, []⟩ : StartMatch), stack.length⟩ : Span)])
            refine ⟨exI ++ ([(⟨i, i + 1 + (genFieldsLines f.fields b (line + idx + 1) (level + 1) (calculateIndentation (line + idx + 1) (level + 1) b cfg).subIndent 0 cfg).length, (⟨(FORMAT_MAP cfg.structureFormat).dclds, f.name, []⟩ : StartMatch), stack.length⟩ : Span)] ++ exR), ?_, ?_⟩
            · rw [hblock]
              rw [cons_append_reshape]
              rw [scanGo_step_open _ i stack acc o5 o8]
              rw [hexI]
              rw [scanGo_step_close_lit _ i (i + 1 + (genFieldsLines f.fields b (line + idx + 1) (level + 1) (calculateIndentation (line + idx + 1) (level + 1) b cfg).subIndent 0 cfg).length)
                (⟨(FORMAT_MAP cfg.structureFormat).dclds, f.name, []⟩ : StartMatch) stack.length (acc ++ exI) f5 f8]
              rw [hexR]
              congr 1
              · simp
                omega
              · simp
            · intro T hT
              rcases List.mem_append.mp hT with hT | hT
              · have := hexImem T hT
                omega
              rcases List.mem_append.mp hT with hT | hT
              · simp at hT
                subst hT
                simp
              · have := hexRmem T hT
                omega

      · have hs2 : f.isStructure = false := by
          simpa using hs
        obtain ⟨hnok, htag, hlenf, hinif, hdimf, hfieldsE⟩ := hpl hs2
        obtain ⟨cased, hfind, hcne, hcal, hlik, htpl, hrev⟩ :=
          tag_roundtrip cfg.structureFormat f.type htag
        obtain ⟨p1, p2, p3, p4, p5, p6, p7, p8, p9, p10, p11⟩ :=
          plainLine_parse cfg f cased sub hsub hfind hcne hcal hlik htpl
            hnok hlenf hinif hdimf
        have hblock := genFieldsLines_cons_plain f rest b line level sub idx
          cfg hs2
        refine ⟨?_, ?_, ?_, ?_⟩
        · intro l hl2
          rw [hblock] at hl2
          rcases List.mem_cons.mp hl2 with rfl | hl2
          · exact p11
          · exact ihR1 l hl2
        · intro R lvl
          rw [hblock]
          simp only [List.cons_append]
          rw [findNestedEndRel_step_other _ lvl (by rw [p1]; exact p2)
            (by rw [p1]; exact p3) p9 (by rw [p1]; exact p10)]
          rw [ihR2 R lvl]
          cases h2 : findNestedEndRel R lvl with
          | none => simp
          | some v =>
            simp
            omega
        · intro tail c
          have hpfm := parseFieldFromMatch_gen cfg.structureFormat f cased c
            hrev (identOk_trim hnok)
            (jsTrim_eq_self (fun ch hc => alpha_not_space (hcal ch hc)))
            (fun l hl2 => (lengthOk_trim (hlenf l hl2)).1)
            (fun i2 hi2 => initOk_trim (hinif i2 hi2)) hdimf hs2 hfieldsE
          rw [hblock]
          simp only [List.cons_append]
          rw [parseFieldsGo_step_plain _ cfg.structureFormat c p1 p2 p3 p4 p5 p6]
          rw [hpfm, ihR3 tail (c + 1), relabelLocal,
            if_neg (by simp [hs2])]
          simp only [List.cons_append]
          rw [show c + (f :: rest).length = c + 1 + rest.length from by
            simp
            omega]
        · intro R i stack acc
          obtain ⟨exR, hexR, hexRmem⟩ := ihR4 R (i + 1) stack acc
          refine ⟨exR, ?_, ?_⟩
          · rw [hblock]
            simp only [List.cons_append]
            rw [scanGo_step_none _ i stack acc p7 p8]
            rw [hexR]
            congr 1
            simp
            omega
          · intro T hT
            have := hexRmem T hT
            omega
theorem qualified_head_not_space (fmt : StructureFormat) (t : Str) :
    ∀ c, ((FORMAT_MAP fmt).qualified ++ t).head? = some c →
      jsIsSpace c = false := by
  cases fmt
  all_goals intro c hc
  · have h2 : some 'q' = some c := hc
    cases h2
    decide
  · have h2 : some 'Q' = some c := hc
    cases h2
    decide
  · have h2 : some 'Q' = some c := hc
    cases h2
    decide

theorem baseIndentOk_chars {b : Str} (h : baseIndentOkB b = true) :
    ∀ c ∈ b, c = ' ' ∨ c = '\t' := by
  intro c hc
  rw [baseIndentOkB] at h
  exact of_decide_eq_true (List.all_eq_true.mp h c hc)

theorem MtopD_facts (cfg : Config) {dv : Str} (hdv : digitsOkB dv = true) :
    (((FORMAT_MAP cfg.structureFormat).qualified ++ (' ' :: ((FORMAT_MAP cfg.structureFormat).dimx ++ ('(' :: (dv ++ [')']))))) : Str) ≠ [] ∧
    (∀ c, (((FORMAT_MAP cfg.structureFormat).qualified ++ (' ' :: ((FORMAT_MAP cfg.structureFormat).dimx ++ ('(' :: (dv ++ [')']))))) : Str).head? = some c → jsIsSpace c = false) ∧
    (∀ c ∈ (((FORMAT_MAP cfg.structureFormat).qualified ++ (' ' :: ((FORMAT_MAP cfg.structureFormat).dimx ++ ('(' :: (dv ++ [')']))))) : Str), ¬ c = ';') ∧
    (∀ c ∈ (((FORMAT_MAP cfg.structureFormat).qualified ++ (' ' :: ((FORMAT_MAP cfg.structureFormat).dimx ++ ('(' :: (dv ++ [')']))))) : Str), ¬ c = '\n') := by
  have hqne : (FORMAT_MAP cfg.structureFormat).qualified ≠ [] := by
    cases cfg.structureFormat <;> decide
  obtain ⟨hdne, hdig⟩ := digitsOk_facts hdv
  refine ⟨?_, qualified_head_not_space cfg.structureFormat _, ?_, ?_⟩
  · intro hc
    exact hqne (List.append_eq_nil.mp hc).1
  · intro c hc
    rcases List.mem_append.mp hc with hc | hc
    · exact (fmt_no_semi cfg.structureFormat).1 c hc
    rcases List.mem_cons.mp hc with rfl | hc
    · decide
    · exact (ME_facts cfg hdv).2.2.1 c hc
  · intro c hc
    rcases List.mem_append.mp hc with hc | hc
    · exact (fmt_not_nl cfg.structureFormat).2.2.1 c hc
    rcases List.mem_cons.mp hc with rfl | hc
    · decide
    · exact (ME_facts cfg hdv).2.2.2 c hc

theorem MtopT_facts (cfg : Config)  :
    (((FORMAT_MAP cfg.structureFormat).qualified ++ (' ' :: (FORMAT_MAP cfg.structureFormat).template)) : Str) ≠ [] ∧
    (∀ c, (((FORMAT_MAP cfg.structureFormat).qualified ++ (' ' :: (FORMAT_MAP cfg.structureFormat).template)) : Str).head? = some c → jsIsSpace c = false) ∧
    (∀ c ∈ (((FORMAT_MAP cfg.structureFormat).qualified ++ (' ' :: (FORMAT_MAP cfg.structureFormat).template)) : Str), ¬ c = ';') ∧
    (∀ c ∈ (((FORMAT_MAP cfg.structureFormat).qualified ++ (' ' :: (FORMAT_MAP cfg.structureFormat).template)) : Str), ¬ c = '\n') := by
  have hqne : (FORMAT_MAP cfg.structureFormat).qualified ≠ [] := by
    cases cfg.structureFormat <;> decide
  refine ⟨?_, qualified_head_not_space cfg.structureFormat _, ?_, ?_⟩
  · intro hc
    exact hqne (List.append_eq_nil.mp hc).1
  · intro c hc
    rcases List.mem_append.mp hc with hc | hc
    · exact (fmt_no_semi cfg.structureFormat).1 c hc
    rcases List.mem_cons.mp hc with rfl | hc
    · decide
    · exact (fmt_no_semi cfg.structureFormat).2.2.2.2 c hc
  · intro c hc
    rcases List.mem_append.mp hc with hc | hc
    · exact (fmt_not_nl cfg.structureFormat).2.2.1 c hc
    rcases List.mem_cons.mp hc with rfl | hc
    · decide
    · exact (fmt_not_nl cfg.structureFormat).2.2.2.2.2 c hc

theorem MtopV_facts (cfg : Config) {dv : Str} (hdv : digitsOkB dv = true) :
    (((FORMAT_MAP cfg.structureFormat).qualified ++ (' ' :: ((FORMAT_MAP cfg.structureFormat).dimx ++ ('(' :: ((FORMAT_MAP cfg.structureFormat).varx ++ (':' :: (dv ++ [')']))))))) : Str) ≠ [] ∧
    (∀ c, (((FORMAT_MAP cfg.structureFormat).qualified ++ (' ' :: ((FORMAT_MAP cfg.structureFormat).dimx ++ ('(' :: ((FORMAT_MAP cfg.structureFormat).varx ++ (':' :: (dv ++ [')']))))))) : Str).head? = some c → jsIsSpace c = false) ∧
    (∀ c ∈ (((FORMAT_MAP cfg.structureFormat).qualified ++ (' ' :: ((FORMAT_MAP cfg.structureFormat).dimx ++ ('(' :: ((FORMAT_MAP cfg.structureFormat).varx ++ (':' :: (dv ++ [')']))))))) : Str), ¬ c = ';') ∧
    (∀ c ∈ (((FORMAT_MAP cfg.structureFormat).qualified ++ (' ' :: ((FORMAT_MAP cfg.structureFormat).dimx ++ ('(' :: ((FORMAT_MAP cfg.structureFormat).varx ++ (':' :: (dv ++ [')']))))))) : Str), ¬ c = '\n') := by
  have hqne : (FORMAT_MAP cfg.structureFormat).qualified ≠ [] := by
    cases cfg.structureFormat <;> decide
  obtain ⟨hdne, hdig⟩ := digitsOk_facts hdv
  refine ⟨?_, qualified_head_not_space cfg.structureFormat _, ?_, ?_⟩
  · intro hc
    exact hqne (List.append_eq_nil.mp hc).1
  · intro c hc
    rcases List.mem_append.mp hc with hc | hc
    · exact (fmt_no_semi cfg.structureFormat).1 c hc
    rcases List.mem_cons.mp hc with rfl | hc
    · decide
    rcases List.mem_append.mp hc with hc | hc
    · exact (fmt_no_semi cfg.structureFormat).2.1 c hc
    rcases List.mem_cons.mp hc with rfl | hc
    · decide
    rcases List.mem_append.mp hc with hc | hc
    · exact (fmt_no_semi cfg.structureFormat).2.2.1 c hc
    rcases List.mem_cons.mp hc with rfl | hc
    · decide
    rcases List.mem_append.mp hc with hc | hc
    · exact (digit_misc (hdig c hc)).2.2.2.2.1
    · simp at hc
      subst hc
      decide
  · intro c hc
    rcases List.mem_append.mp hc with hc | hc
    · exact (fmt_not_nl cfg.structureFormat).2.2.1 c hc
    rcases List.mem_cons.mp hc with rfl | hc
    · decide
    rcases List.mem_append.mp hc with hc | hc
    · exact dimx_not_nl cfg.structureFormat c hc
    rcases List.mem_cons.mp hc with rfl | hc
    · decide
    rcases List.mem_append.mp hc with hc | hc
    · exact (fmt_not_nl cfg.structureFormat).2.2.2.1 c hc
    rcases List.mem_cons.mp hc with rfl | hc
    · decide
    rcases List.mem_append.mp hc with hc | hc
    · exact (digit_misc (hdig c hc)).2.2.2.1
    · simp at hc
      subst hc
      decide

theorem MtopA_facts (cfg : Config) {dv : Str} (hdv : digitsOkB dv = true) :
    (((FORMAT_MAP cfg.structureFormat).qualified ++ (' ' :: ((FORMAT_MAP cfg.structureFormat).dimx ++ ('(' :: ((FORMAT_MAP cfg.structureFormat).autox ++ (':' :: (dv ++ [')']))))))) : Str) ≠ [] ∧
    (∀ c, (((FORMAT_MAP cfg.structureFormat).qualified ++ (' ' :: ((FORMAT_MAP cfg.structureFormat).dimx ++ ('(' :: ((FORMAT_MAP cfg.structureFormat).autox ++ (':' :: (dv ++ [')']))))))) : Str).head? = some c → jsIsSpace c = false) ∧
    (∀ c ∈ (((FORMAT_MAP cfg.structureFormat).qualified ++ (' ' :: ((FORMAT_MAP cfg.structureFormat).dimx ++ ('(' :: ((FORMAT_MAP cfg.structureFormat).autox ++ (':' :: (dv ++ [')']))))))) : Str), ¬ c = ';') ∧
    (∀ c ∈ (((FORMAT_MAP cfg.structureFormat).qualified ++ (' ' :: ((FORMAT_MAP cfg.structureFormat).dimx ++ ('(' :: ((FORMAT_MAP cfg.structureFormat).autox ++ (':' :: (dv ++ [')']))))))) : Str), ¬ c = '\n') := by
  have hqne : (FORMAT_MAP cfg.structureFormat).qualified ≠ [] := by
    cases cfg.structureFormat <;> decide
  obtain ⟨hdne, hdig⟩ := digitsOk_facts hdv
  refine ⟨?_, qualified_head_not_space cfg.structureFormat _, ?_, ?_⟩
  · intro hc
    exact hqne (List.append_eq_nil.mp hc).1
  · intro c hc
    rcases List.mem_append.mp hc with hc | hc
    · exact (fmt_no_semi cfg.structureFormat).1 c hc
    rcases List.mem_cons.mp hc with rfl | hc
    · decide
    rcases List.mem_append.mp hc with hc | hc
    · exact (fmt_no_semi cfg.structureFormat).2.1 c hc
    rcases List.mem_cons.mp hc with rfl | hc
    · decide
    rcases List.mem_append.mp hc with hc | hc
    · exact (fmt_no_semi cfg.structureFormat).2.2.2.1 c hc
    rcases List.mem_cons.mp hc with rfl | hc
    · decide
    rcases List.mem_append.mp hc with hc | hc
    · exact (digit_misc (hdig c hc)).2.2.2.2.1
    · simp at hc
      subst hc
      decide
  · intro c hc
    rcases List.mem_append.mp hc with hc | hc
    · exact (fmt_not_nl cfg.structureFormat).2.2.1 c hc
    rcases List.mem_cons.mp hc with rfl | hc
    · decide
    rcases List.mem_append.mp hc with hc | hc
    · exact dimx_not_nl cfg.structureFormat c hc
    rcases List.mem_cons.mp hc with rfl | hc
    · decide
    rcases List.mem_append.mp hc with hc | hc
    · exact (fmt_not_nl cfg.structureFormat).2.2.2.2.1 c hc
    rcases List.mem_cons.mp hc with rfl | hc
    · decide
    rcases List.mem_append.mp hc with hc | hc
    · exact (digit_misc (hdig c hc)).2.2.2.1
    · simp at hc
      subst hc
      decide

set_option maxHeartbeats 2000000 in
theorem c1_assembly (cfg : Config) (h : Header) (fs : List Field) (b : Str)
    (hwf : wfFieldsB fs = true) (hbI : baseIndentOkB b = true)
    {M : Str}
    (hMne : M ≠ []) (hMhd : ∀ c, M.head? = some c → jsIsSpace c = false)
    (hMs : ∀ c ∈ M, ¬ c = ';') (hMnl : ∀ c ∈ M, ¬ c = '\n')
    (hnok : identOkB h.name = true)
    (hH0 : generateStructureHeader h.name h.type (some h.dimension) 0 0 b
        cfg = b ++ ((FORMAT_MAP cfg.structureFormat).dclds ++ ' ' :: (h.name ++ (' ' :: (M ++ [';'])))))
    (hph : parseHeader (⟨(FORMAT_MAP cfg.structureFormat).dclds, h.name, M⟩ : StartMatch) = h) :
    parseStructureAtCursor (joinNl (genStructLines (⟨h.name, h.type, some h.dimension, fs, 0, 0, b⟩ : RpgCodeParams) cfg)) 0 =
      ⟨h, relabelLocal fs 0, cfg.structureFormat, true, []⟩ := by
  have hb := baseIndentOk_chars hbI
  have hsub0 : ∀ c ∈ ((calculateIndentation 0 0 b cfg).subIndent : Str), c = ' ' ∨ c = '\t' :=
    (calcInd_chars 0 0 cfg hb).2
  obtain ⟨g1, g2, g3, g4⟩ := parseGen (sizeOf fs) fs (le_refl _) hwf hb 0 0
    (by omega) (by omega) hsub0 0 cfg
  obtain ⟨o1, o2, o3, o4, o5, o6, o7, o8, o9⟩ :=
    openLine_facts cfg hb hnok hMne hMhd hMs hMnl
  obtain ⟨f1, f2, f3, f4, f5, f6, f7, f8, f9⟩ := footerLine_facts cfg hb
  have hlines : genStructLines (⟨h.name, h.type, some h.dimension, fs, 0, 0, b⟩ : RpgCodeParams) cfg =
      (b ++ ((FORMAT_MAP cfg.structureFormat).dclds ++ ' ' :: (h.name ++ (' ' :: (M ++ [';']))))) :: (genFieldsLines fs b 0 0 (calculateIndentation 0 0 b cfg).subIndent 0 cfg ++ [(b ++ ((FORMAT_MAP cfg.structureFormat).endds ++ [';']))]) := by
    rw [genStructLines_eq_explicit h.name h.type (some h.dimension) fs 0 0 b
      cfg, calcInd_head_top 0 0 b cfg (Or.inl rfl), hH0, genFooter_eq b cfg]
  have hnlAll : ∀ l ∈ (b ++ ((FORMAT_MAP cfg.structureFormat).dclds ++ ' ' :: (h.name ++ (' ' :: (M ++ [';']))))) :: (genFieldsLines fs b 0 0 (calculateIndentation 0 0 b cfg).subIndent 0 cfg ++ [(b ++ ((FORMAT_MAP cfg.structureFormat).endds ++ [';']))]), nlFree l = true := by
    intro l hl2
    rcases List.mem_cons.mp hl2 with rfl | hl2
    · exact o9
    rcases List.mem_append.mp hl2 with hl2 | hl2
    · exact g1 l hl2
    · simp at hl2
      subst hl2
      exact f9
  have hsplit2 : splitNl (joinNl (genStructLines (⟨h.name, h.type, some h.dimension, fs, 0, 0, b⟩ : RpgCodeParams) cfg)) =
      (b ++ ((FORMAT_MAP cfg.structureFormat).dclds ++ ' ' :: (h.name ++ (' ' :: (M ++ [';']))))) :: (genFieldsLines fs b 0 0 (calculateIndentation 0 0 b cfg).subIndent 0 cfg ++ [(b ++ ((FORMAT_MAP cfg.structureFormat).endds ++ [';']))]) := by
    rw [hlines]
    exact splitNl_joinNl (by simp) hnlAll
  obtain ⟨ex, hex, hexm⟩ := g4 [(b ++ ((FORMAT_MAP cfg.structureFormat).endds ++ [';']))] 1
    [(⟨0, (⟨(FORMAT_MAP cfg.structureFormat).dclds, h.name, M⟩ : StartMatch), 0⟩ : StackEntry)] []
  have hscan : findAllStructureBoundaries
      ((b ++ ((FORMAT_MAP cfg.structureFormat).dclds ++ ' ' :: (h.name ++ (' ' :: (M ++ [';']))))) :: (genFieldsLines fs b 0 0 (calculateIndentation 0 0 b cfg).subIndent 0 cfg ++ [(b ++ ((FORMAT_MAP cfg.structureFormat).endds ++ [';']))])) =
      ex ++ [(⟨0, 1 + (genFieldsLines fs b 0 0 (calculateIndentation 0 0 b cfg).subIndent 0 cfg).length, (⟨(FORMAT_MAP cfg.structureFormat).dclds, h.name, M⟩ : StartMatch), 0⟩ : Span)] := by
    rw [findAllStructureBoundaries]
    rw [scanGo_step_open _ 0 [] [] o5 o8]
    simp only [List.length_nil]
    rw [hex]
    simp only [List.nil_append]
    rw [scanGo_step_close_lit _ 0 (1 + (genFieldsLines fs b 0 0 (calculateIndentation 0 0 b cfg).subIndent 0 cfg).length) (⟨(FORMAT_MAP cfg.structureFormat).dclds, h.name, M⟩ : StartMatch) 0 ex f5 f8]
    rw [scanBoundariesGo]
  have hsel : selectBest
      (ex ++ [(⟨0, 1 + (genFieldsLines fs b 0 0 (calculateIndentation 0 0 b cfg).subIndent 0 cfg).length, (⟨(FORMAT_MAP cfg.structureFormat).dclds, h.name, M⟩ : StartMatch), 0⟩ : Span)]) 0 =
      some (⟨0, 1 + (genFieldsLines fs b 0 0 (calculateIndentation 0 0 b cfg).subIndent 0 cfg).length, (⟨(FORMAT_MAP cfg.structureFormat).dclds, h.name, M⟩ : StartMatch), 0⟩ : Span) := by
    rw [selectBest, List.foldl_append]
    rw [foldl_selStep_id ex none (fun T hT hcT => by
      have h1 := hexm T hT
      have h2 := hcT.1
      omega)]
    rw [List.foldl_cons, selStep_none ⟨Nat.le_refl 0, Nat.zero_le _⟩, List.foldl_nil]
  have hfsb : findStructureBoundaries
      ((b ++ ((FORMAT_MAP cfg.structureFormat).dclds ++ ' ' :: (h.name ++ (' ' :: (M ++ [';']))))) :: (genFieldsLines fs b 0 0 (calculateIndentation 0 0 b cfg).subIndent 0 cfg ++ [(b ++ ((FORMAT_MAP cfg.structureFormat).endds ++ [';']))])) 0 =
      some (0, 1 + (genFieldsLines fs b 0 0 (calculateIndentation 0 0 b cfg).subIndent 0 cfg).length, (⟨(FORMAT_MAP cfg.structureFormat).dclds, h.name, M⟩ : StartMatch)) := by
    rw [findStructureBoundaries]
    rw [show selectBest (findAllStructureBoundaries
      ((b ++ ((FORMAT_MAP cfg.structureFormat).dclds ++ ' ' :: (h.name ++ (' ' :: (M ++ [';']))))) :: (genFieldsLines fs b 0 0 (calculateIndentation 0 0 b cfg).subIndent 0 cfg ++ [(b ++ ((FORMAT_MAP cfg.structureFormat).endds ++ [';']))]))) 0 =
      some (⟨0, 1 + (genFieldsLines fs b 0 0 (calculateIndentation 0 0 b cfg).subIndent 0 cfg).length, (⟨(FORMAT_MAP cfg.structureFormat).dclds, h.name, M⟩ : StartMatch), 0⟩ : Span) from by
        rw [hscan]
        exact hsel]
  have htk : (((b ++ ((FORMAT_MAP cfg.structureFormat).dclds ++ ' ' :: (h.name ++ (' ' :: (M ++ [';']))))) :: (genFieldsLines fs b 0 0 (calculateIndentation 0 0 b cfg).subIndent 0 cfg ++ [(b ++ ((FORMAT_MAP cfg.structureFormat).endds ++ [';']))])).drop (0 + 1)).take
      (1 + (genFieldsLines fs b 0 0 (calculateIndentation 0 0 b cfg).subIndent 0 cfg).length - (0 + 1)) = genFieldsLines fs b 0 0 (calculateIndentation 0 0 b cfg).subIndent 0 cfg := by
    simp only [List.drop_succ_cons, List.drop_zero]
    rw [show 1 + (genFieldsLines fs b 0 0 (calculateIndentation 0 0 b cfg).subIndent 0 cfg).length - (0 + 1) = (genFieldsLines fs b 0 0 (calculateIndentation 0 0 b cfg).subIndent 0 cfg).length from by omega]
    exact List.take_left _ _
  have hparse : parseFields (genFieldsLines fs b 0 0 (calculateIndentation 0 0 b cfg).subIndent 0 cfg) cfg.structureFormat = relabelLocal fs 0 := by
    rw [parseFields_def]
    have h0 := g3 [] 0
    rw [List.append_nil] at h0
    rw [h0, parseFieldsGo_nil, List.append_nil]
  rw [parseStructureAtCursor]
  simp only [hsplit2, hfsb, htk, detectFormat_dclds, hph, hparse]
theorem c1_main (cfg : Config) (h : Header) (fs : List Field) (b : Str)
    (hh : wfHeaderB h = true) (hwf : wfFieldsB fs = true)
    (hbI : baseIndentOkB b = true) :
    generateRpgCode (⟨h.name, h.type, some h.dimension, fs, 0, 0, b⟩ : RpgCodeParams) cfg = .ok (joinNl (genStructLines (⟨h.name, h.type, some h.dimension, fs, 0, 0, b⟩ : RpgCodeParams) cfg)) ∧
    parseStructureAtCursor (joinNl (genStructLines (⟨h.name, h.type, some h.dimension, fs, 0, 0, b⟩ : RpgCodeParams) cfg)) 0 =
      ⟨h, relabelLocal fs 0, cfg.structureFormat, true, []⟩ := by
  obtain ⟨hnok, hdisj⟩ := wfHeader_facts hh
  have htne : h.type ≠ [] := by
    rcases hdisj with ⟨ht, _⟩ | ⟨ht, _⟩ | ⟨htva, _⟩
    · rw [ht]
      decide
    · rw [ht]
      decide
    · rcases htva with ht | ht <;> (rw [ht]; decide)
  have hval : validateRpgCodeParams (⟨h.name, h.type, some h.dimension, fs, 0, 0, b⟩ : RpgCodeParams) = .ok () :=
    validate_ok_intro (identOk_trim_ne hnok) htne (by show (0:Int) ≤ 0; omega)
      (by show (0:Int) ≤ 0; omega)
  refine ⟨(genAll (sizeOf fs) fs (le_refl _) hwf).1 (⟨h.name, h.type, some h.dimension, fs, 0, 0, b⟩ : RpgCodeParams) cfg rfl hval, ?_⟩
  rcases hdisj with ⟨ht, hd⟩ | ⟨ht, hd⟩ | ⟨htva, hd⟩
  · obtain ⟨hdne, hdig⟩ := digitsOk_facts hd
    have hjd : jsTrim h.dimension = h.dimension :=
      jsTrim_eq_self (fun ch hc => digit_not_space (hdig ch hc))
    obtain ⟨m1, m2, m3, m4⟩ := MtopD_facts cfg hd
    refine c1_assembly cfg h fs b hwf hbI m1 m2 m3 m4 hnok ?_ ?_
    · rw [ht]
      exact genHeader_top_default cfg b (identOk_trim hnok) hjd hdne
    · refine (parseHeader_top_default cfg.structureFormat (identOk_trim hnok) hdne
        hdig).trans ?_
      obtain ⟨hn2, ht2, hd2⟩ := h
      simp only at ht
      rw [ht]
  · obtain ⟨m1, m2, m3, m4⟩ := MtopT_facts cfg
    refine c1_assembly cfg h fs b hwf hbI m1 m2 m3 m4 hnok ?_ ?_
    · rw [ht]
      exact genHeader_top_template cfg (some h.dimension) b
        (identOk_trim hnok)
    · refine (parseHeader_top_template cfg.structureFormat (identOk_trim hnok)).trans ?_
      obtain ⟨hn2, ht2, hd2⟩ := h
      simp only at ht hd
      rw [ht, hd]
  · obtain ⟨hdne, hdig⟩ := digitsOk_facts hd
    have hjd : jsTrim h.dimension = h.dimension :=
      jsTrim_eq_self (fun ch hc => digit_not_space (hdig ch hc))
    rcases htva with ht | ht
    · obtain ⟨m1, m2, m3, m4⟩ := MtopV_facts cfg hd
      refine c1_assembly cfg h fs b hwf hbI m1 m2 m3 m4 hnok ?_ ?_
      · rw [ht]
        exact genHeader_top_var cfg b (identOk_trim hnok) hjd hdne
      · refine (parseHeader_top_var cfg.structureFormat (identOk_trim hnok) hdne
          hdig).trans ?_
        obtain ⟨hn2, ht2, hd2⟩ := h
        simp only at ht
        rw [ht]
    · obtain ⟨m1, m2, m3, m4⟩ := MtopA_facts cfg hd
      refine c1_assembly cfg h fs b hwf hbI m1 m2 m3 m4 hnok ?_ ?_
      · rw [ht]
        exact genHeader_top_auto cfg b (identOk_trim hnok) hjd hdne
      · refine (parseHeader_top_auto cfg.structureFormat (identOk_trim hnok) hdne
          hdig).trans ?_
        obtain ⟨hn2, ht2, hd2⟩ := h
        simp only at ht
        rw [ht]
/-- C1: for every §3-well-formed header, field forest and base indent whose
repeat counts lie in JS's safe-integer range (where `toString`/`parseInt`
round-trip a number exactly), the generator succeeds and
`parseStructureAtCursor` at cursor 0 recovers the same header (name, kind,
dimension), the same format, and the same field forest up to ids: the
parsed forest is `relabelLocal fs 0`, which erases to the original forest.
Ids are renumbered per sibling list (each nested aggregate body restarts at
0), so absolute ids differ but names, type tags, lengths, inits, repeat
counts and nesting are preserved exactly. -/
theorem c1_roundtrip_relabel (cfg : Config) (h : Header) (fs : List Field)
    (b : Str) (hh : wfHeaderB h = true) (hwf : wfFieldsB fs = true)
    (hds : dimsSafeB fs = true) (hbI : baseIndentOkB b = true) :
    ∃ out : Str,
      generateRpgCode ⟨h.name, h.type, some h.dimension, fs, 0, 0, b⟩ cfg =
        .ok out ∧
      parseStructureAtCursor out 0 =
        ⟨h, relabelLocal fs 0, cfg.structureFormat, true, []⟩ ∧
      eraseIds (relabelLocal fs 0) = eraseIds fs :=
  ⟨joinNl (genStructLines
      ⟨h.name, h.type, some h.dimension, fs, 0, 0, b⟩ cfg),
    (c1_main cfg h fs b hh hwf hbI).1, (c1_main cfg h fs b hh hwf hbI).2,
    eraseIds_relabel (sizeOf fs) fs 0 (le_refl _)⟩

theorem c1_roundtrip_relabel_witness :
    wfHeaderB ⟨str "myData", tDefault, str "2"⟩ = true ∧
    wfFieldsB [⟨0, str "f1", str "char", some (str "10"), none, none, false,
      []⟩] = true ∧
    dimsSafeB [⟨0, str "f1", str "char", some (str "10"), none, none, false,
      []⟩] = true ∧
    baseIndentOkB [] = true ∧
    (∃ out : Str,
      generateRpgCode ⟨str "myData", tDefault, some (str "2"),
          [⟨0, str "f1", str "char", some (str "10"), none, none, false, []⟩],
          0, 0, []⟩ ⟨.lower, none⟩ = .ok out ∧
      parseStructureAtCursor out 0 =
        ⟨⟨str "myData", tDefault, str "2"⟩,
          relabelLocal [⟨0, str "f1", str "char", some (str "10"), none, none,
            false, []⟩] 0, .lower, true, []⟩ ∧
      eraseIds (relabelLocal [⟨0, str "f1", str "char", some (str "10"), none,
        none, false, []⟩] 0) =
        eraseIds [⟨0, str "f1", str "char", some (str "10"), none, none,
          false, []⟩]) :=
  ⟨by decide, by simp only [wfFieldsB]; decide,
    by simp only [dimsSafeB]; decide, by decide,
    c1_roundtrip_relabel ⟨.lower, none⟩ ⟨str "myData", tDefault, str "2"⟩
      [⟨0, str "f1", str "char", some (str "10"), none, none, false, []⟩] []
      (by decide) (by simp only [wfFieldsB]; decide)
      (by simp only [dimsSafeB]; decide) (by decide)⟩

theorem c1_preorder_order_not_preserved :
    generateRpgCode ⟨str "outer", tDefault, some (str "2"),
        [⟨0, str "sub", [], some (str "3"), none, none, true,
          [⟨1, str "b", str "char", some (str "5"), none, none, false, []⟩]⟩],
        0, 0, []⟩ ⟨.lower, none⟩ =
      .ok (joinNl (genStructLines ⟨str "outer", tDefault, some (str "2"),
        [⟨0, str "sub", [], some (str "3"), none, none, true,
          [⟨1, str "b", str "char", some (str "5"), none, none, false, []⟩]⟩],
        0, 0, []⟩ ⟨.lower, none⟩)) ∧
    parseStructureAtCursor (joinNl (genStructLines ⟨str "outer", tDefault,
        some (str "2"),
        [⟨0, str "sub", [], some (str "3"), none, none, true,
          [⟨1, str "b", str "char", some (str "5"), none, none, false, []⟩]⟩],
        0, 0, []⟩ ⟨.lower, none⟩)) 0 =
      ⟨⟨str "outer", tDefault, str "2"⟩,
        relabelLocal [⟨0, str "sub", [], some (str "3"), none, none, true,
          [⟨1, str "b", str "char", some (str "5"), none, none, false, []⟩]⟩]
          0, .lower, true, []⟩ ∧
    preorderIds [⟨0, str "sub", [], some (str "3"), none, none, true,
      [⟨1, str "b", str "char", some (str "5"), none, none, false, []⟩]⟩] =
      [0, 1] ∧
    preorderIds (relabelLocal
      [⟨0, str "sub", [], some (str "3"), none, none, true,
        [⟨1, str "b", str "char", some (str "5"), none, none, false, []⟩]⟩]
      0) = [0, 0] ∧
    sameRelOrder
      (preorderIds [⟨0, str "sub", [], some (str "3"), none, none, true,
        [⟨1, str "b", str "char", some (str "5"), none, none, false, []⟩]⟩])
      (preorderIds (relabelLocal
        [⟨0, str "sub", [], some (str "3"), none, none, true,
          [⟨1, str "b", str "char", some (str "5"), none, none, false,
            []⟩]⟩] 0)) = false := by
  have hm := c1_main ⟨.lower, none⟩ ⟨str "outer", tDefault, str "2"⟩
    [⟨0, str "sub", [], some (str "3"), none, none, true,
      [⟨1, str "b", str "char", some (str "5"), none, none, false, []⟩]⟩] []
    (by decide) (by simp only [wfFieldsB]; decide) (by decide)
  have hpre1 : preorderIds [⟨0, str "sub", [], some (str "3"), none, none,
      true, [⟨1, str "b", str "char", some (str "5"), none, none, false,
        []⟩]⟩] = [0, 1] := by
    simp [preorderIds]
  have hpre2 : preorderIds (relabelLocal
      [⟨0, str "sub", [], some (str "3"), none, none, true,
        [⟨1, str "b", str "char", some (str "5"), none, none, false, []⟩]⟩]
      0) = [0, 0] := by
    simp [relabelLocal, preorderIds]
  refine ⟨hm.1, hm.2, hpre1, hpre2, ?_⟩
  rw [hpre1, hpre2]
  decide
